import Mathlib

/-!
# Subscription manager: lifecycle, renewal dates, validators and list access

A shallow embedding of the parts of `backend/models/subscription.model.js`,
`backend/middlewares/subscription.middleware.js` and
`backend/controllers/subscription.controller.js` that decide the
specification's statements about renewal dates, the lifecycle hook, the date
validators and the list endpoints, and of the controllers, validation
middlewares, routes and error handler (`auth.controller.js`,
`user.controller.js`, `auth.middleware.js`, `error.middleware.js`) behind its
statements about access, passwords and errors.

Modelling conventions:

* A JavaScript `Date` is its time value: milliseconds since the epoch, or NaN
  (`none`) for an Invalid Date.  The calendar functions are the ones the
  ECMAScript specification defines for `Date.prototype.setDate`, `setMonth`,
  `setFullYear`, `setHours` and the getters.  Every time value is an integer
  far below `2^53`, so Number arithmetic on dates is exact and is modelled by
  `Int`.
* A Number read from a query string is a double: `parseInt` gives a
  `JSNumber`, the integer nearest to the digits at 53 bits of precision, an
  infinity from `2^1024` on, or NaN.
* Local time is UTC plus an offset.  The functions with a parameter `tza`
  (milliseconds) take the offset constant; the functions with a parameter
  `zone` take a `TimeZone`, whose offset may change from one instant to
  another, and agree with the former on `TimeZone.fixed tza`.
* `new Date()` is the parameter `now`.
* Mongoose validates a document before it runs the schema's `pre('save')`
  hooks, and validates a value produced by a `default` like a supplied one.
  It casts the value of a `default`; an Invalid Date fails the cast
  (`applyDefaultsIn`).
* The store's `$regex` match is a parameter `rx` of the list operations;
  `storeRegex` gives its value on patterns of ordinary characters and `.`.
* `bcrypt`, `jwt`, the `match` pattern of the `email` path and the setters of
  that path are parameters of the functions that call them.  The checks of the
  validation library are functions of the text the library reads for a field.
-/

namespace SubscriptionManager

/-! ## ECMAScript time values -/

/-- Milliseconds per day (`msPerDay`). -/
def msPerDay : Int := 86400000

/-- Largest magnitude of a time value accepted by `TimeClip`. -/
def maxTime : Int := 8640000000000000

/-- ECMAScript `Day(t) = floor(t / msPerDay)`. -/
def Day (t : Int) : Int := t / msPerDay

/-- ECMAScript `TimeWithinDay(t) = t modulo msPerDay`. -/
def TimeWithinDay (t : Int) : Int := t % msPerDay

/-- Leap-year rule behind `DaysInYear(y)`: true when the year has 366 days. -/
def isLeapYear (y : Int) : Bool :=
  if y % 4 ≠ 0 then false
  else if y % 100 ≠ 0 then true
  else if y % 400 ≠ 0 then false
  else true

/-- ECMAScript `DaysInYear(y)`. -/
def DaysInYear (y : Int) : Int := if isLeapYear y then 366 else 365

/-- ECMAScript `DayFromYear(y)`: day number of the first day of year `y`. -/
def DayFromYear (y : Int) : Int :=
  365 * (y - 1970) + (y - 1969) / 4 - (y - 1901) / 100 + (y - 1601) / 400

/-- The year containing day number `d`: the largest `y` with
`DayFromYear(y) ≤ d`, computed from an estimate corrected by at most one. -/
def yearFromDay (d : Int) : Int :=
  let y := 1970 + (400 * d) / 146097
  if DayFromYear (y + 1) ≤ d then y + 1
  else if d < DayFromYear y then y - 1
  else y

/-- ECMAScript `YearFromTime(t)`: the largest `y` such that `TimeFromYear(y) ≤ t`. -/
def YearFromTime (t : Int) : Int := yearFromDay (Day t)

/-- ECMAScript `InLeapYear(t)` as a boolean. -/
def InLeapYear (t : Int) : Bool := isLeapYear (YearFromTime t)

/-- ECMAScript `DayWithinYear(t) = Day(t) - DayFromYear(YearFromTime(t))`. -/
def DayWithinYear (t : Int) : Int := Day t - DayFromYear (YearFromTime t)

/-- Number of days of the year before month `m` (0 = January), the thresholds
of the `MonthFromTime` table. -/
def daysBeforeMonth (leap : Bool) (m : Int) : Int :=
  let l : Int := if leap then 1 else 0
  if m ≤ 0 then 0
  else if m = 1 then 31
  else if m = 2 then 59 + l
  else if m = 3 then 90 + l
  else if m = 4 then 120 + l
  else if m = 5 then 151 + l
  else if m = 6 then 181 + l
  else if m = 7 then 212 + l
  else if m = 8 then 243 + l
  else if m = 9 then 273 + l
  else if m = 10 then 304 + l
  else if m = 11 then 334 + l
  else 365 + l

/-- The `MonthFromTime` table on a day within the year. -/
def monthFromDayWithinYear (leap : Bool) (dwy : Int) : Int :=
  let l : Int := if leap then 1 else 0
  if dwy < 31 then 0
  else if dwy < 59 + l then 1
  else if dwy < 90 + l then 2
  else if dwy < 120 + l then 3
  else if dwy < 151 + l then 4
  else if dwy < 181 + l then 5
  else if dwy < 212 + l then 6
  else if dwy < 243 + l then 7
  else if dwy < 273 + l then 8
  else if dwy < 304 + l then 9
  else if dwy < 334 + l then 10
  else 11

/-- ECMAScript `MonthFromTime(t)`, 0 = January .. 11 = December. -/
def MonthFromTime (t : Int) : Int := monthFromDayWithinYear (InLeapYear t) (DayWithinYear t)

/-- ECMAScript `DateFromTime(t)`: day of the month, 1-based. -/
def DateFromTime (t : Int) : Int :=
  DayWithinYear t - daysBeforeMonth (InLeapYear t) (MonthFromTime t) + 1

/-- ECMAScript `MakeDay(year, month, date)`: the day number of the first of the month
`month mod 12` of year `year + floor(month / 12)`, plus `date - 1`. -/
def MakeDay (year month date : Int) : Int :=
  let ym := year + month / 12
  let mn := month % 12
  DayFromYear ym + daysBeforeMonth (isLeapYear ym) mn + date - 1

/-- ECMAScript `MakeDate(day, time) = day × msPerDay + time`. -/
def MakeDate (day time : Int) : Int := day * msPerDay + time

/-- ECMAScript `TimeClip(time)`: NaN when the magnitude exceeds 8.64e15. -/
def TimeClip (time : Int) : Option Int :=
  if time < -maxTime ∨ maxTime < time then none else some time

/-- ECMAScript `LocalTime(t)` for a zone with constant offset `tza`. -/
def LocalTime (tza t : Int) : Int := t + tza

/-- ECMAScript `UTC(t)` for a zone with constant offset `tza`. -/
def UTC (tza t : Int) : Int := t - tza

/-- Number of days of month `m` (0-based) in a year of the given kind. -/
def daysInMonth (leap : Bool) (m : Int) : Int :=
  daysBeforeMonth leap (m + 1) - daysBeforeMonth leap m

/-! ## JavaScript `Date` objects and Number comparison -/

/-- A JavaScript `Date` object: its time value, `none` standing for NaN
(an Invalid Date). -/
structure JSDate where
  tv : Option Int
deriving DecidableEq, Repr

/-- The Date of a finite time value. -/
def JSDate.ofTime (t : Int) : JSDate := ⟨some t⟩

/-- Number comparison `a < b`; false when an operand is NaN. -/
def numLt (a b : Option Int) : Bool :=
  match a, b with
  | some x, some y => decide (x < y)
  | _, _ => false

/-- Number comparison `a > b`; false when an operand is NaN. -/
def numGt (a b : Option Int) : Bool := numLt b a

/-- Number comparison `a <= b`; false when an operand is NaN. -/
def numLe (a b : Option Int) : Bool :=
  match a, b with
  | some x, some y => decide (x ≤ y)
  | _, _ => false

/-- JavaScript `ToNumber` of a value that is a Date or `undefined`: the time value, NaN
for `undefined`. -/
def dateToNumber (d : Option JSDate) : Option Int :=
  match d with
  | some x => x.tv
  | none => none

/-- JavaScript `Date.prototype.getDate()`: day of the month in local time, NaN for an
Invalid Date. -/
def JSDate.getDate (tza : Int) (d : JSDate) : Option Int :=
  d.tv.map (fun t => DateFromTime (LocalTime tza t))

/-- JavaScript `Date.prototype.getMonth()`. -/
def JSDate.getMonth (tza : Int) (d : JSDate) : Option Int :=
  d.tv.map (fun t => MonthFromTime (LocalTime tza t))

/-- JavaScript `Date.prototype.getFullYear()`. -/
def JSDate.getFullYear (tza : Int) (d : JSDate) : Option Int :=
  d.tv.map (fun t => YearFromTime (LocalTime tza t))

/-- JavaScript `Date.prototype.setDate(date)`. -/
def JSDate.setDate (tza : Int) (d : JSDate) (date : Option Int) : JSDate :=
  match d.tv, date with
  | some tv, some dt =>
    let t := LocalTime tza tv
    let newDate := MakeDate (MakeDay (YearFromTime t) (MonthFromTime t) dt) (TimeWithinDay t)
    ⟨TimeClip (UTC tza newDate)⟩
  | _, _ => ⟨none⟩

/-- JavaScript `Date.prototype.setMonth(month)` with one argument: the day of the month
is kept as `DateFromTime(t)`. -/
def JSDate.setMonth (tza : Int) (d : JSDate) (month : Option Int) : JSDate :=
  match d.tv, month with
  | some tv, some m =>
    let t := LocalTime tza tv
    let newDate := MakeDate (MakeDay (YearFromTime t) m (DateFromTime t)) (TimeWithinDay t)
    ⟨TimeClip (UTC tza newDate)⟩
  | _, _ => ⟨none⟩

/-- JavaScript `Date.prototype.setFullYear(year)` with one argument.  For an Invalid Date
the argument computed by the caller (`getFullYear() + 1`) is NaN as well, and
the result stays invalid. -/
def JSDate.setFullYear (tza : Int) (d : JSDate) (year : Option Int) : JSDate :=
  match year with
  | some y =>
    let t := match d.tv with
      | some tv => LocalTime tza tv
      | none => 0
    let newDate := MakeDate (MakeDay y (MonthFromTime t) (DateFromTime t)) (TimeWithinDay t)
    ⟨TimeClip (UTC tza newDate)⟩
  | none => ⟨none⟩

/-- JavaScript `Date.prototype.setHours(0, 0, 0, 0)`: local midnight of the same day
(`MakeTime(0, 0, 0, 0) = 0`). -/
def JSDate.setHoursZero (tza : Int) (d : JSDate) : JSDate :=
  match d.tv with
  | some tv =>
    let t := LocalTime tza tv
    ⟨TimeClip (UTC tza (MakeDate (Day t) 0))⟩
  | none => ⟨none⟩

/-! ## `subscription.model.js` -/

/-- A MongoDB `ObjectId`, by its hexadecimal string. -/
structure ObjectId where
  hex : String
deriving DecidableEq, Repr

/-- A Subscription document: the fields of `subscriptionSchema` and the two
timestamps.  `frequency`, `startDate` and `renewalDate` may be absent
(`undefined`) while a document is being built; `price` is the decimal value of
the stored number. -/
structure Subscription where
  name : String
  price : Rat
  currency : String
  frequency : Option String
  category : String
  paymentMethod : String
  status : String
  startDate : Option JSDate
  renewalDate : Option JSDate
  user : ObjectId
  createdAt : Int
  updatedAt : Int
deriving DecidableEq, Repr

/-- JavaScript truthiness of a string-or-undefined value: `undefined` and the
empty string are falsy. -/
def truthyStr (s : Option String) : Bool :=
  match s with
  | some x => x != ""
  | none => false

/-- The `default` function of the `renewalDate` path
(`subscription.model.js`, lines 73-98), run with `this` the document. -/
def renewalDateDefault (tza : Int) (this : Subscription) : Option JSDate :=
  match this.startDate with
  | none => none
  | some startDate =>
    if !truthyStr this.frequency || this.frequency == some "one-time" then none
    else
      let renewalDate : JSDate := ⟨startDate.tv⟩
      if this.frequency == some "daily" then
        some (renewalDate.setDate tza ((renewalDate.getDate tza).map (· + 1)))
      else if this.frequency == some "weekly" then
        some (renewalDate.setDate tza ((renewalDate.getDate tza).map (· + 7)))
      else if this.frequency == some "monthly" then
        some (renewalDate.setMonth tza ((renewalDate.getMonth tza).map (· + 1)))
      else if this.frequency == some "yearly" then
        some (renewalDate.setFullYear tza ((renewalDate.getFullYear tza).map (· + 1)))
      else none

/-- The `validator` of the `startDate` path: `value <= new Date()`. -/
def startDateValidator (value : JSDate) (now : Int) : Bool :=
  numLe value.tv (some now)

/-- The `message` of the `startDate` validator. -/
def startDateMessage : String := "Start Date cannot be in the future"

/-- The `validator` of the `renewalDate` path:
`value > new Date() && value > this.startDate`. -/
def renewalDateValidator (this : Subscription) (value : JSDate) (now : Int) : Bool :=
  numGt value.tv (some now) && numGt value.tv (dateToNumber this.startDate)

/-- The `message` of the `renewalDate` validator. -/
def renewalDateMessage : String := "Renewal Date must be in the future and after Start Date"

/-- The `pre('save')` hook (`subscription.model.js`, lines 115-123): the
lifecycle pass, with `now = new Date()`. -/
def preSave (this : Subscription) (now : Int) : Subscription :=
  match this.renewalDate with
  | some renewalDate =>
    if numLt renewalDate.tv (some now) then { this with status := "expired" }
    else if this.status == "active" && numGt renewalDate.tv (some now) then
      { this with status := "active" }
    else this
  | none => this

/-- Validation of the two date paths when a document is saved, as Mongoose
runs the schema's validators: `startDate` is required and checked by its
validator; `renewalDate` is checked by its validator when it has a value,
whether supplied or produced by the default.  Each failure is reported as the
path and the configured message. -/
def validateDatePaths (doc : Subscription) (now : Int) : List (String × String) :=
  (match doc.startDate with
    | none => [("startDate", "Start Date is required")]
    | some v => if startDateValidator v now then [] else [("startDate", startDateMessage)]) ++
  (match doc.renewalDate with
    | none => []
    | some v =>
      if renewalDateValidator doc v now then [] else [("renewalDate", renewalDateMessage)])

/-- Number of days by which `d.setFullYear(d.getFullYear() + 1)` moves the
local time `t`. -/
def yearStep (t : Int) : Int :=
  MakeDay (YearFromTime t + 1) (MonthFromTime t) (DateFromTime t) - Day t

/-- Building a new document (`new Subscription(...)`): a `renewalDate` that is
not supplied takes the value of the schema default.  This is the document
Mongoose builds whenever the default does not return an Invalid Date; the cast
that rejects an Invalid Date is part of `applyDefaultsIn`. -/
def applyDefaults (tza : Int) (doc : Subscription) : Subscription :=
  match doc.renewalDate with
  | some _ => doc
  | none => { doc with renewalDate := renewalDateDefault tza doc }

/-! ## The renewal-date default in a zone whose offset changes -/

/-- A time zone as the Date algorithms see it: the offset from UTC, in
milliseconds, in force at a UTC instant (ECMAScript `LocalTZA(t, true)`), and
the offset by which a local time is read back (`LocalTZA(t, false)`). -/
structure TimeZone where
  offsetAtUTC : Int → Int
  offsetAtLocal : Int → Int

/-- The zone with the constant offset `tza`. -/
def TimeZone.fixed (tza : Int) : TimeZone := ⟨fun _ => tza, fun _ => tza⟩

/-- ECMAScript `LocalTime(t) = t + LocalTZA(t, true)`. -/
def TimeZone.LocalTime (zone : TimeZone) (t : Int) : Int := t + zone.offsetAtUTC t

/-- ECMAScript `UTC(t) = t - LocalTZA(t, false)`. -/
def TimeZone.UTC (zone : TimeZone) (t : Int) : Int := t - zone.offsetAtLocal t

/-- JavaScript `Date.prototype.getDate()` in a zone. -/
def JSDate.getDateIn (zone : TimeZone) (d : JSDate) : Option Int :=
  d.tv.map (fun t => DateFromTime (zone.LocalTime t))

/-- JavaScript `Date.prototype.getMonth()` in a zone. -/
def JSDate.getMonthIn (zone : TimeZone) (d : JSDate) : Option Int :=
  d.tv.map (fun t => MonthFromTime (zone.LocalTime t))

/-- JavaScript `Date.prototype.getFullYear()` in a zone. -/
def JSDate.getFullYearIn (zone : TimeZone) (d : JSDate) : Option Int :=
  d.tv.map (fun t => YearFromTime (zone.LocalTime t))

/-- JavaScript `Date.prototype.setDate(date)` in a zone. -/
def JSDate.setDateIn (zone : TimeZone) (d : JSDate) (date : Option Int) : JSDate :=
  match d.tv, date with
  | some tv, some dt =>
    let t := zone.LocalTime tv
    let newDate := MakeDate (MakeDay (YearFromTime t) (MonthFromTime t) dt) (TimeWithinDay t)
    ⟨TimeClip (zone.UTC newDate)⟩
  | _, _ => ⟨none⟩

/-- JavaScript `Date.prototype.setMonth(month)` with one argument, in a zone. -/
def JSDate.setMonthIn (zone : TimeZone) (d : JSDate) (month : Option Int) : JSDate :=
  match d.tv, month with
  | some tv, some m =>
    let t := zone.LocalTime tv
    let newDate := MakeDate (MakeDay (YearFromTime t) m (DateFromTime t)) (TimeWithinDay t)
    ⟨TimeClip (zone.UTC newDate)⟩
  | _, _ => ⟨none⟩

/-- JavaScript `Date.prototype.setFullYear(year)` with one argument, in a zone. -/
def JSDate.setFullYearIn (zone : TimeZone) (d : JSDate) (year : Option Int) : JSDate :=
  match year with
  | some y =>
    let t := match d.tv with
      | some tv => zone.LocalTime tv
      | none => 0
    let newDate := MakeDate (MakeDay y (MonthFromTime t) (DateFromTime t)) (TimeWithinDay t)
    ⟨TimeClip (zone.UTC newDate)⟩
  | none => ⟨none⟩

/-- The `default` function of the `renewalDate` path
(`subscription.model.js`, lines 73-98), run with `this` the document, on a
server in the given zone. -/
def renewalDateDefaultIn (zone : TimeZone) (this : Subscription) : Option JSDate :=
  match this.startDate with
  | none => none
  | some startDate =>
    if !truthyStr this.frequency || this.frequency == some "one-time" then none
    else
      let renewalDate : JSDate := ⟨startDate.tv⟩
      if this.frequency == some "daily" then
        some (renewalDate.setDateIn zone ((renewalDate.getDateIn zone).map (· + 1)))
      else if this.frequency == some "weekly" then
        some (renewalDate.setDateIn zone ((renewalDate.getDateIn zone).map (· + 7)))
      else if this.frequency == some "monthly" then
        some (renewalDate.setMonthIn zone ((renewalDate.getMonthIn zone).map (· + 1)))
      else if this.frequency == some "yearly" then
        some (renewalDate.setFullYearIn zone ((renewalDate.getFullYearIn zone).map (· + 1)))
      else none

/-- Building a new document (`new Subscription(...)`) on a server in the
given zone, with the cast Mongoose applies to the value of a default: a
`renewalDate` that is not supplied takes the default's value when that is a
valid Date; when the default returns an Invalid Date the cast fails, the path
stays `undefined` and a `CastError` is recorded for it, which makes the
document invalid.  A supplied value is left as it is.  The result is the
document and the paths for which the default's value failed the cast. -/
def applyDefaultsIn (zone : TimeZone) (doc : Subscription) : Subscription × List String :=
  match doc.renewalDate with
  | some _ => (doc, [])
  | none =>
    match renewalDateDefaultIn zone doc with
    | none => (doc, [])
    | some value =>
      match value.tv with
      | some _ => ({ doc with renewalDate := some value }, [])
      | none => (doc, ["renewalDate"])

/-- Mongoose `document.save()` as far as the date paths and the hook go.  Validation
runs before the `pre('save')` hooks; a validation failure rejects the write
with the list of path errors, otherwise the hook runs and the document is
written. -/
def save (doc : Subscription) (now : Int) : Except (List (String × String)) Subscription :=
  if (validateDatePaths doc now).isEmpty then .ok (preSave doc now)
  else .error (validateDatePaths doc now)

/-! ## `subscription.middleware.js`: the date checks of `validateCreateSubscription` -/

/-- The `custom` check of `body('startDate')` (lines 128-139).  `value` is
`new Date(value)` for the request's string; the result is the message of the
error thrown, or `none` when the check returns `true`. -/
def startDateCustom (tza : Int) (value : JSDate) (now : Int) : Option String :=
  let startDate := value
  let now := (JSDate.ofTime now).setHoursZero tza
  let startDate := startDate.setHoursZero tza
  if numGt startDate.tv now.tv then some "Start date cannot be in the future"
  else none

/-- The `custom` check of `body('renewalDate')` (lines 145-166), reached with a
non-empty value; `value` and `bodyStartDate` are `new Date(value)` and
`new Date(req.body.startDate)`. -/
def renewalDateCustom (tza : Int) (value bodyStartDate : JSDate) (now : Int) : Option String :=
  let now := (JSDate.ofTime now).setHoursZero tza
  let renewalDate := value.setHoursZero tza
  let startDate := bodyStartDate.setHoursZero tza
  if numLe renewalDate.tv now.tv then some "Renewal date must be in the future"
  else if numLe renewalDate.tv startDate.tv then some "Renewal date must be after start date"
  else none

/-! ## `subscription.controller.js`: the list operations -/

/-- A User document, as `authorize` attaches it to the request; `password` is
the stored hash. -/
structure User where
  _id : ObjectId
  name : String
  email : String
  role : String
  password : String := ""
deriving DecidableEq, Repr

/-- The query string of a request (`req.query`); each parameter is a string
or absent. -/
structure Query where
  page : Option String := none
  limit : Option String := none
  sortBy : Option String := none
  sortOrder : Option String := none
  name : Option String := none
  currency : Option String := none
  frequency : Option String := none
  category : Option String := none
  paymentMethod : Option String := none
  status : Option String := none
deriving DecidableEq, Repr

/-- The filter object handed to the store.  `name` holds the pattern of
`{ $regex: pattern, $options: 'i' }`; the other keys are exact matches. -/
structure Filter where
  user : Option ObjectId := none
  name : Option String := none
  currency : Option String := none
  frequency : Option String := none
  category : Option String := none
  paymentMethod : Option String := none
  status : Option String := none
deriving DecidableEq, Repr

/-- Source function `buildFilterObject(query, userId = null)` (lines 6-45).  The owner id is
`null`, an `ObjectId` or a route parameter validated as one, so it is truthy
whenever it is given. -/
def buildFilterObject (query : Query) (userId : Option ObjectId := none) : Filter :=
  let filter : Filter := {}
  let filter := match userId with
    | some id => { filter with user := some id }
    | none => filter
  let filter := if truthyStr query.name then { filter with name := query.name } else filter
  let filter := if truthyStr query.currency then { filter with currency := query.currency }
    else filter
  let filter := if truthyStr query.frequency then { filter with frequency := query.frequency }
    else filter
  let filter := if truthyStr query.category then { filter with category := query.category }
    else filter
  let filter := if truthyStr query.paymentMethod then
      { filter with paymentMethod := query.paymentMethod }
    else filter
  let filter := if truthyStr query.status then { filter with status := query.status } else filter
  filter

/-- The sort object: its single key and the direction, `1` or `-1`. -/
structure SortObject where
  key : String
  order : Int
deriving DecidableEq, Repr

/-- Source function `buildSortObject(sortBy, sortOrder)` (lines 48-62). -/
def buildSortObject (sortBy sortOrder : Option String) : SortObject :=
  match sortBy with
  | none => ⟨"createdAt", -1⟩
  | some key =>
    if key = "" ∨ ¬ key ∈ ["startDate", "renewalDate", "createdAt", "updatedAt", "name", "price"]
    then ⟨"createdAt", -1⟩
    else ⟨key, if sortOrder = some "asc" then 1 else -1⟩

/-- White space skipped by `parseInt`, by code point. -/
def isStrWhiteSpace (c : Char) : Bool :=
  c.toNat ∈ [9, 10, 11, 12, 13, 32, 160, 5760, 8232, 8233, 8239, 8287, 12288, 65279] ||
    (8192 ≤ c.toNat && c.toNat ≤ 8202)

/-- Value of a character as a digit of the given radix (10 or 16). -/
def digitValue (radix : Nat) (c : Char) : Option Nat :=
  let n := c.toNat
  let v : Option Nat :=
    if 48 ≤ n ∧ n ≤ 57 then some (n - 48)
    else if 97 ≤ n ∧ n ≤ 102 then some (n - 87)
    else if 65 ≤ n ∧ n ≤ 70 then some (n - 55)
    else none
  match v with
  | some d => if d < radix then some d else none
  | none => none

/-- Value of the longest prefix of radix digits, with the number of digits
read. -/
def readDigits (radix : Nat) : List Char → Nat → Nat → Nat × Nat
  | [], acc, count => (acc, count)
  | c :: cs, acc, count =>
    match digitValue radix c with
    | some d => readDigits radix cs (acc * radix + d) (count + 1)
    | none => (acc, count)

/-- A JavaScript Number, of those `parseInt` produces: NaN, a double whose value
is the integer `value`, or an infinity. -/
inductive JSNumber where
  | nan
  | finite (value : Int)
  | infinity (negative : Bool)
deriving DecidableEq, Repr

/-- The power of two by which a double scales its 53-bit mantissa to hold a
number of the size of `n`: 1 below 2^53, doubled for each halving of `n` that
it takes to get there; the first argument bounds the number of steps. -/
def doubleScale : Nat → Nat → Nat
  | 0, _ => 1
  | fuel + 1, n => if n < 9007199254740992 then 1 else 2 * doubleScale fuel (n / 2)

/-- The natural number nearest to `n` that a double can hold: `n` itself below
2^53, otherwise `n` rounded to 53 significant bits, a tie going to the even
one. -/
def roundToDouble (n : Nat) : Nat :=
  let scale := doubleScale n n
  let mantissa := n / scale
  let rest := n % scale
  let half := scale / 2
  let rounded :=
    if half < rest ∨ (rest = half ∧ scale ≠ 1 ∧ mantissa % 2 = 1) then mantissa + 1
    else mantissa
  rounded * scale

/-- The number 2^1024: a double is smaller in magnitude. -/
def doubleLimit : Nat := 2 ^ 256 * 2 ^ 256 * 2 ^ 256 * 2 ^ 256

/-- The Number value of the integer `sign * magnitude`: the nearest double, an
infinity when that is 2^1024 or more in magnitude. -/
def numberOfInteger (sign : Int) (magnitude : Nat) : JSNumber :=
  if doubleLimit ≤ roundToDouble magnitude then .infinity (decide (sign < 0))
  else .finite (sign * (roundToDouble magnitude : Int))

/-- JavaScript `parseInt(string)` without a radix: leading white space, a sign, an
optional `0x` prefix and the longest prefix of digits; NaN when there is no
digit, otherwise the Number value of the integer read, every digit
counting. -/
def parseInt (s : String) : JSNumber :=
  let cs := s.toList.dropWhile isStrWhiteSpace
  let signed : Int × List Char := match cs with
    | c :: rest => if c = '-' then (-1, rest) else if c = '+' then (1, rest) else (1, cs)
    | [] => (1, cs)
  let radixed : Nat × List Char := match signed.2 with
    | c :: d :: rest => if c = '0' ∧ (d = 'x' ∨ d = 'X') then (16, rest) else (10, signed.2)
    | _ => (10, signed.2)
  let r := readDigits radixed.1 radixed.2 0 0
  if r.2 = 0 then .nan else numberOfInteger signed.1 r.1

/-- JavaScript `Math.max(1, x)`. -/
def JSNumber.max1 : JSNumber → JSNumber
  | .nan => .nan
  | .finite value => .finite (max 1 value)
  | .infinity true => .finite 1
  | .infinity false => .infinity false

/-- JavaScript `Math.min(100, x)`. -/
def JSNumber.min100 : JSNumber → JSNumber
  | .nan => .nan
  | .finite value => .finite (min 100 value)
  | .infinity true => .infinity true
  | .infinity false => .finite 100

/-- The integer a Number is, when it is neither NaN nor an infinity. -/
def JSNumber.toInt? : JSNumber → Option Int
  | .finite value => some value
  | _ => none

/-- JavaScript `Math.max(1, parseInt(page))` with the default `page = 1`, when it
is an integer; `none` when it is NaN or Infinity. -/
def pageNumberOf (page : Option String) : Option Int :=
  (parseInt (page.getD "1")).max1.toInt?

/-- JavaScript `Math.min(100, Math.max(1, parseInt(limit)))` with the default
`limit = 10`; `none` when it is NaN. -/
def pageSizeOf (limit : Option String) : Option Int :=
  (parseInt (limit.getD "10")).max1.min100.toInt?

/-- The Number an arithmetic operation gives when its exact result is the
integer `z`: the nearest double. -/
def numberOfInt (z : Int) : JSNumber :=
  numberOfInteger (if z < 0 then -1 else 1) z.natAbs

/-- JavaScript `(pageNumber - 1) * pageSize` (for instance line 95) on two
integer Numbers: the subtraction and the multiplication each give the double
nearest to their exact result. -/
def skipOf (pageNumber pageSize : Int) : JSNumber :=
  match numberOfInt (pageNumber - 1) with
  | .finite difference => numberOfInt (difference * pageSize)
  | other => other

/-- The store: the two collections. -/
structure Db where
  users : List User
  subscriptions : List Subscription
deriving Repr

/-- Whether a document satisfies a filter: every key that is present must
match.  `rx pattern value` is the store's `$regex` match with option `i`. -/
def matchesFilter (rx : String → String → Bool) (f : Filter) (s : Subscription) : Bool :=
  (match f.user with
    | some u => s.user == u
    | none => true) &&
  (match f.name with
    | some p => rx p s.name
    | none => true) &&
  (match f.currency with
    | some v => s.currency == v
    | none => true) &&
  (match f.frequency with
    | some v => s.frequency == some v
    | none => true) &&
  (match f.category with
    | some v => s.category == v
    | none => true) &&
  (match f.paymentMethod with
    | some v => s.paymentMethod == v
    | none => true) &&
  (match f.status with
    | some v => s.status == v
    | none => true)

/-- Order of two date keys; a missing date sorts before every date. -/
def dateKeyLe (a b : Option Int) : Bool :=
  match a, b with
  | none, _ => true
  | some _, none => false
  | some x, some y => decide (x ≤ y)

/-- Ascending order of two documents on a sort key. -/
def keyLe (key : String) (a b : Subscription) : Bool :=
  if key = "name" then decide (a.name ≤ b.name)
  else if key = "price" then decide (a.price ≤ b.price)
  else if key = "startDate" then dateKeyLe (dateToNumber a.startDate) (dateToNumber b.startDate)
  else if key = "renewalDate" then
    dateKeyLe (dateToNumber a.renewalDate) (dateToNumber b.renewalDate)
  else if key = "updatedAt" then decide (a.updatedAt ≤ b.updatedAt)
  else decide (a.createdAt ≤ b.createdAt)

/-- The order requested by a sort object: ascending for direction `1`,
descending otherwise. -/
def sortLe (sort : SortObject) (a b : Subscription) : Bool :=
  if sort.order = 1 then keyLe sort.key a b else keyLe sort.key b a

/-- Mongoose `Model.find(filter).sort(sort).skip(skip).limit(limit)` on a collection. -/
def find (rx : String → String → Bool) (collection : List Subscription) (filter : Filter)
    (sort : SortObject) (skip limit : Nat) : List Subscription :=
  (((collection.filter (matchesFilter rx filter)).insertionSort
    (fun a b => sortLe sort a b = true)).drop skip).take limit

/-- Mongoose `Model.countDocuments(filter)`. -/
def countDocuments (rx : String → String → Bool) (collection : List Subscription)
    (filter : Filter) : Nat :=
  (collection.filter (matchesFilter rx filter)).length

/-- Mongoose `User.findById(id)`. -/
def findUserById (users : List User) (id : ObjectId) : Option User :=
  users.find? (fun u => u._id == id)

/-- The request as a list controller sees it: the principal attached by
`authorize`, the route parameter `id` and the query string. -/
structure Request where
  user : Option User
  paramsId : ObjectId
  query : Query
deriving Repr

/-- The pagination block of a list response. -/
structure Pagination where
  currentPage : Int
  totalPages : Int
  totalItems : Int
  itemsPerPage : Int
  hasNextPage : Bool
  hasPrevPage : Bool
deriving DecidableEq, Repr

/-- The `data` object of a list response.  `owners` holds, for
`getAllSubscriptions`, what `populate('user', 'name email')` puts in place of
each returned record's `user` id: the owner's id, name and email, or `null`
when no such user exists. -/
structure ListData where
  user : Option (ObjectId × String × String)
  subscriptions : List Subscription
  pagination : Pagination
  filters : Filter
  sortBy : String
  sortOrder : String
  owners : List (Option (ObjectId × String × String)) := []
deriving DecidableEq, Repr

/-- An error passed to `next`: the `statusCode` set by the controller, if any,
and the message. -/
structure AppError where
  statusCode : Option Nat
  message : String
deriving DecidableEq, Repr

/-- What a controller does with a request: `res.status(status).json(...)` or
`next(error)`. -/
inductive Outcome where
  | json (status : Nat) (data : ListData)
  | next (error : AppError)
deriving DecidableEq, Repr

/-- JavaScript `Math.ceil(a / b)` for a count `a` and a positive `b`. -/
def ceilDiv (a b : Int) : Int := -((-a) / b)

/-- The part the three list controllers share, from "Convert pagination
parameters" to the response (for instance lines 172-217).  A page number or
page size that is NaN or Infinity makes the store call fail, and the error,
which has no `statusCode`, goes to `next`.  The offset `skip` is the exact
product, which is the Number the code computes (`skipOf`) for every page
number up to 2^53 / 100. -/
def listResponse (rx : String → String → Bool) (db : Db) (query : Query) (filter : Filter)
    (user : Option (ObjectId × String × String)) : Outcome :=
  let sortBy := query.sortBy.getD "createdAt"
  let sortOrder := query.sortOrder.getD "desc"
  let sort := buildSortObject (some sortBy) (some sortOrder)
  match pageNumberOf query.page, pageSizeOf query.limit with
  | some pageNumber, some pageSize =>
    let skip := (pageNumber - 1) * pageSize
    let subscriptions := find rx db.subscriptions filter sort skip.toNat pageSize.toNat
    let total : Int := countDocuments rx db.subscriptions filter
    let totalPages := ceilDiv total pageSize
    let hasNextPage := decide (pageNumber < totalPages)
    let hasPrevPage := decide (pageNumber > 1)
    .json 200
      { user := user
        subscriptions := subscriptions
        pagination :=
          { currentPage := pageNumber
            totalPages := totalPages
            totalItems := total
            itemsPerPage := pageSize
            hasNextPage := hasNextPage
            hasPrevPage := hasPrevPage }
        filters :=
          { name := query.name
            currency := query.currency
            frequency := query.frequency
            category := query.category
            paymentMethod := query.paymentMethod
            status := query.status }
        sortBy := sortBy
        sortOrder := sortOrder }
  | _, _ => .next ⟨none, "store query failed"⟩

/-- Source function `getUserSubscriptions` (lines 145-221). -/
def getUserSubscriptions (rx : String → String → Bool) (db : Db) (req : Request) : Outcome :=
  match req.user with
  | none => .next ⟨some 401, "Authentication required"⟩
  | some user =>
    let filter := buildFilterObject req.query (some user._id)
    listResponse rx db req.query filter none

/-- Source function `getSubscriptionsByUserId` (lines 224-314).  The guard is
`!req.user && req.user._id !== req.body.user`: with a principal the left
operand is false and the guard does not fire; without one, reading
`req.user._id` throws a `TypeError`, which the `catch` passes to `next`. -/
def getSubscriptionsByUserId (rx : String → String → Bool) (db : Db) (req : Request) :
    Outcome :=
  match req.user with
  | none => .next ⟨none, "Cannot read properties of undefined"⟩
  | some _ =>
    let userId := req.paramsId
    match findUserById db.users userId with
    | none => .next ⟨some 404, "User not found"⟩
    | some user =>
      let filter := buildFilterObject req.query (some userId)
      listResponse rx db req.query filter (some (user._id, user.name, user.email))

/-- Source function `getAllSubscriptions` (lines 65-142). -/
def getAllSubscriptions (rx : String → String → Bool) (db : Db) (req : Request) : Outcome :=
  match req.user with
  | none => .next ⟨some 403, "Access denied. Admin privileges required."⟩
  | some user =>
    if user.role ≠ "admin" then .next ⟨some 403, "Access denied. Admin privileges required."⟩
    else
      let filter := buildFilterObject req.query
      match listResponse rx db req.query filter none with
      | .json status data =>
        .json status
          { data with
            owners := data.subscriptions.map (fun s =>
              (findUserById db.users s.user).map (fun u => (u._id, u.name, u.email))) }
      | .next error => .next error

/-! ## `subscription.controller.js`: `createSubscription` -/

/-- The allow-lists of `config/env.js` that the schema's `enum` validators
use. -/
structure SchemaConfig where
  currencies : List String
  categories : List String
  paymentMethods : List String
deriving Repr

/-- The fallback allow-lists of `config/env.js`. -/
def defaultConfig : SchemaConfig :=
  { currencies := ["USD", "EUR", "GBP", "INR", "JPY", "AUD", "CAD", "CNY"]
    categories := ["Entertainment", "Utilities", "Food", "Health", "Education", "Travel", "Other"]
    paymentMethods := ["Credit Card", "Debit Card", "PayPal", "Direct Debit", "Crypto", "UPI"] }

/-- JavaScript `String.prototype.trim`, which the schema option `trim` applies. -/
def jsTrim (s : String) : String :=
  String.mk ((s.toList.dropWhile isStrWhiteSpace).reverse.dropWhile isStrWhiteSpace).reverse

/-- JavaScript `length` of a string: the number of UTF-16 code units. -/
def jsLength (s : String) : Nat :=
  (s.toList.map (fun c => if c.toNat < 65536 then 1 else 2)).sum

/-- JavaScript `ObjectId.prototype.toString()`: the hexadecimal string. -/
def ObjectId.toString (id : ObjectId) : String := id.hex

/-- The JSON body of a creation request (`req.body`).  The two dates are the
Dates the schema casts the body's strings to; the price is the body's
number. -/
structure SubscriptionBody where
  name : Option String := none
  price : Option Rat := none
  currency : Option String := none
  frequency : Option String := none
  category : Option String := none
  paymentMethod : Option String := none
  status : Option String := none
  startDate : Option JSDate := none
  renewalDate : Option JSDate := none
  user : Option String := none
deriving DecidableEq, Repr

/-- The request as `createSubscription` sees it. -/
structure CreateRequest where
  user : Option User
  body : SubscriptionBody
deriving Repr

/-- The check of line 333: each of name, price, frequency, paymentMethod,
status and startDate is truthy. -/
def requiredFieldsPresent (body : SubscriptionBody) : Bool :=
  truthyStr body.name &&
  (match body.price with
    | some p => p != 0
    | none => false) &&
  truthyStr body.frequency && truthyStr body.paymentMethod && truthyStr body.status &&
  body.startDate.isSome

/-- The document `new Subscription({ ...req.body, user: user._id })` at the
time it is saved, for a body that passed the check of line 333: the body's
fields with `name` trimmed, the schema defaults for `currency`, `category` and
`renewalDate`, the owner taken from the second argument and both timestamps
set to the time of the save. -/
def newSubscription (tza : Int) (body : SubscriptionBody) (owner : ObjectId) (now : Int) :
    Subscription :=
  applyDefaults tza
    { name := jsTrim (body.name.getD "")
      price := body.price.getD 0
      currency := body.currency.getD "USD"
      frequency := body.frequency
      category := body.category.getD "Other"
      paymentMethod := body.paymentMethod.getD ""
      status := body.status.getD ""
      startDate := body.startDate
      renewalDate := body.renewalDate
      user := owner
      createdAt := now
      updatedAt := now }

/-- Validation, on save, of the paths other than the two dates: the first
failing validator of each path, with its message. -/
def validateOtherPaths (cfg : SchemaConfig) (users : List User) (doc : Subscription) :
    List (String × String) :=
  (if doc.name = "" then [("name", "Subscription Name is required")]
    else if jsLength doc.name < 2 then
      [("name", "Subscription Name must be at least 2 characters long")]
    else if 100 < jsLength doc.name then
      [("name", "Subscription Name must be at most 100 characters long")]
    else []) ++
  (if doc.price < 0 then [("price", "Price must be a positive number")] else []) ++
  (if doc.currency ∈ cfg.currencies then []
    else [("currency", doc.currency ++ " is not a valid currency")]) ++
  (match doc.frequency with
    | none => [("frequency", "Frequency is required")]
    | some f =>
      if f = "" then [("frequency", "Frequency is required")]
      else if f ∈ ["daily", "weekly", "monthly", "yearly", "one-time"] then []
      else [("frequency", f ++ " is not a valid frequency")]) ++
  (if doc.category ∈ cfg.categories then []
    else [("category", doc.category ++ " is not a valid category")]) ++
  (if doc.paymentMethod = "" then [("paymentMethod", "Payment Method is required")]
    else if doc.paymentMethod ∈ cfg.paymentMethods then []
    else [("paymentMethod", doc.paymentMethod ++ " is not a valid payment method")]) ++
  (if doc.status = "" then [("status", "Status is required")]
    else if doc.status ∈ ["active", "inactive", "cancelled", "expired"] then []
    else [("status", doc.status ++ " is not a valid status")]) ++
  (if (findUserById users doc.user).isSome then [] else [("user", "User does not exist")])

/-- What `createSubscription` does with a request: the 201 response with the
stored subscription, `next(error)` with an error built by the controller, or
`next` with the validation error of the save. -/
inductive CreateOutcome where
  | created (subscription : Subscription)
  | next (error : AppError)
  | invalid (errors : List (String × String))
deriving DecidableEq, Repr

/-- Source function `createSubscription` (lines 316-364): the outcome and the
store after the transaction, which is left as it was unless the subscription
is created. -/
def createSubscription (cfg : SchemaConfig) (tza : Int) (db : Db) (req : CreateRequest)
    (now : Int) : CreateOutcome × Db :=
  match req.user with
  | none => (.next ⟨some 401, "Authentication required"⟩, db)
  | some principal =>
    if principal.role = "admin" ∧ some principal._id.toString ≠ req.body.user then
      (.next ⟨some 403,
        "You are not allowed to create subscriptions at this time. Please contact support for assistance."⟩,
        db)
    else if !requiredFieldsPresent req.body then
      (.next ⟨some 400,
        "Required fields are missing. Please provide name, price, frequency, payment method, status, and start date."⟩,
        db)
    else
      match findUserById db.users principal._id with
      | none => (.next ⟨some 404, "User not found"⟩, db)
      | some user =>
        let subscription := newSubscription tza req.body user._id now
        match validateOtherPaths cfg db.users subscription, save subscription now with
        | [], .ok saved => (.created saved, { db with subscriptions := db.subscriptions ++ [saved] })
        | errors, .ok _ => (.invalid errors, db)
        | errors, .error dateErrors => (.invalid (errors ++ dateErrors), db)

/-! ## `user.controller.js` and `resetPassword` of `auth.controller.js` -/

/-- The ObjectId that a 24-digit hexadecimal string is cast to; its
`toString()` is the string in lower case. -/
def castObjectId (s : String) : ObjectId := ⟨String.mk (s.toList.map Char.toLower)⟩

/-- The request as the user controllers see it: the principal attached by
`authorize`, the route parameter `id`, the body's `name` and whether the body
has an `email` key. -/
structure UserRequest where
  user : Option User
  paramsId : String
  bodyName : Option String := none
  bodyHasEmail : Bool := false
deriving Repr

/-- What a user controller does with a request: a 200 response with its
message and the user record it carries, if any; `next(error)` with an error
built by the controller; or `next` with the validation error of a save. -/
inductive UserOutcome where
  | ok (message : String) (data : Option User)
  | next (error : AppError)
  | invalid (errors : List (String × String))
deriving DecidableEq, Repr

/-- Source function `getUserbyId` (lines 31-62).  Without a principal, reading
`req.user.role` throws a `TypeError`, which the `catch` passes to `next`.  The
record is returned without its password. -/
def getUserbyId (db : Db) (req : UserRequest) : UserOutcome :=
  match req.user with
  | none => .next ⟨none, "Cannot read properties of undefined"⟩
  | some principal =>
    if principal.role ≠ "admin" ∧ principal._id.toString ≠ req.paramsId then
      .next ⟨some 403,
        "Unauthorized access! Only admin or the user themselves can access their own data."⟩
    else
      let userId := req.paramsId
      match findUserById db.users (castObjectId userId) with
      | none => .next ⟨some 404, "User not found"⟩
      | some user => .ok "User retrieved successfully" (some { user with password := "" })

/-- Validation of the `name` path of the User schema on save: required,
trimmed, 3 to 30 characters. -/
def validateUserName (name : Option String) : List (String × String) :=
  match name with
  | none => [("name", "User Name is required")]
  | some n =>
    if jsTrim n = "" then [("name", "User Name is required")]
    else if jsLength (jsTrim n) < 3 then
      [("name", "User Name must be at least 3 characters long")]
    else if 30 < jsLength (jsTrim n) then
      [("name", "User Name must be at most 30 characters long")]
    else []

/-- Source function `updateUserDetails` (lines 64-116): the outcome and the
store after the transaction. -/
def updateUserDetails (db : Db) (req : UserRequest) : UserOutcome × Db :=
  match req.user with
  | none => (.next ⟨none, "Cannot read properties of undefined"⟩, db)
  | some principal =>
    let userId := req.paramsId
    if principal._id.toString ≠ userId then
      (.next ⟨some 403, "Unauthorized access! You can only update your own details."⟩, db)
    else if req.bodyHasEmail then (.next ⟨some 400, "Email cannot be updated!"⟩, db)
    else
      match findUserById db.users (castObjectId userId) with
      | none => (.next ⟨some 404, "User not found"⟩, db)
      | some updatedUser =>
        if updatedUser.role = "admin" then
          (.next ⟨some 403, "Admin accounts cannot be updated"⟩, db)
        else
          match validateUserName req.bodyName with
          | [] =>
            let name := jsTrim (req.bodyName.getD "")
            (.ok "User details updated successfully"
                (some { updatedUser with name := name, password := "" }),
              { db with users := db.users.map (fun u =>
                  if u._id = updatedUser._id then { u with name := name } else u) })
          | errors => (.invalid errors, db)

/-- Source function `deleteUserAccount` (lines 118-156): the outcome and the
store after the transaction. -/
def deleteUserAccount (db : Db) (req : UserRequest) : UserOutcome × Db :=
  match req.user with
  | none => (.next ⟨none, "Cannot read properties of undefined"⟩, db)
  | some principal =>
    let userId := req.paramsId
    if principal._id.toString ≠ userId then
      (.next ⟨some 403, "Unauthorized access! You can only delete your own account."⟩, db)
    else
      match findUserById db.users (castObjectId userId) with
      | none => (.next ⟨some 404, "User not found"⟩, db)
      | some user =>
        if user.role = "admin" then
          (.next ⟨some 403, "Admin accounts cannot be deleted"⟩, db)
        else
          (.ok "User account deleted successfully" none,
            { db with users := db.users.filter (fun u => u._id ≠ castObjectId userId) })

/-- The request as `resetPassword` sees it: the principal and the body's
`oldPassword` and `newPassword`. -/
structure PasswordRequest where
  user : Option User
  oldPassword : Option String := none
  newPassword : Option String := none
deriving Repr

/-- Source function `resetPassword` (lines 95-161): the outcome and the store
after the transaction.  `compare plain hash` and `hash plain` stand for
`bcrypt.compare` and for `bcrypt.hash` with a fresh salt; the save validates
the length of the stored value, 8 to 128 characters. -/
def resetPassword (compare : String → String → Bool) (hash : String → String) (db : Db)
    (req : PasswordRequest) : UserOutcome × Db :=
  match req.user with
  | none =>
    (.next ⟨some 401, "Unauthorized access! You must be signed in to reset your password."⟩, db)
  | some principal =>
    if principal.role = "admin" then
      (.next ⟨some 403, "Admin users cannot reset passwords."⟩, db)
    else if !truthyStr req.oldPassword || !truthyStr req.newPassword then
      (.next ⟨some 400, "Both old and new passwords are required."⟩, db)
    else if req.oldPassword = req.newPassword then
      (.next ⟨some 400, "New password must be different from old password."⟩, db)
    else
      match findUserById db.users principal._id with
      | none => (.next ⟨some 404, "User not found"⟩, db)
      | some user =>
        if !compare (req.oldPassword.getD "") user.password then
          (.next ⟨some 401, "Old password is incorrect"⟩, db)
        else
          let hashedNewPassword := hash (req.newPassword.getD "")
          if jsLength hashedNewPassword < 8 then
            (.invalid [("password", "Password must be at least 8 characters long")], db)
          else if 128 < jsLength hashedNewPassword then
            (.invalid [("password", "Password must be at most 128 characters long")], db)
          else
            (.ok "Password reset successfully" (some { user with password := "" }),
              { db with users := db.users.map (fun u =>
                  if u._id = user._id then { u with password := hashedNewPassword } else u) })

/-! ## `auth.middleware.js`: `authorize`, and the three routers -/

/-- The bearer token `authorize` reads (lines 10-12): for an `Authorization`
header that starts with `Bearer`, the second of the parts separated by a
space. -/
def bearerToken (authorization : Option String) : Option String :=
  match authorization with
  | none => none
  | some header =>
    if header ≠ "" ∧ header.startsWith "Bearer" then (header.splitOn " ")[1]? else none

/-- What `authorize` does: it answers the request itself with a status and a
message, or attaches the user and calls `next()`. -/
inductive AuthResult where
  | respond (status : Nat) (message : String)
  | next (user : User)
deriving DecidableEq, Repr

/-- Source function `authorize` (lines 6-42).  `verify token` stands for
`jwt.verify(token, JWT_SECRET)`: the `userId` of the decoded token, or `none`
when it throws. -/
def authorize (verify : String → Option String) (users : List User)
    (authorization : Option String) : AuthResult :=
  if truthyStr (bearerToken authorization) then
    match verify ((bearerToken authorization).getD "") with
    | none => .respond 401 "Unauthorized access"
    | some userId =>
      match findUserById users (castObjectId userId) with
      | none => .respond 404 "User not found"
      | some user => .next user
  else .respond 401 "Unauthorized access"

/-- The middlewares mounted in the route files. -/
inductive Middleware where
  | authorize
  | validateRegister
  | validateLogin
  | validateChangePassword
  | validateUserId
  | validateUpdateProfile
  | validateCreateSubscription
  | validateUpdateSubscription
  | validateSubscriptionId
  | validateSubscriptionQuery
deriving DecidableEq, Repr

/-- The handler at the end of a route: a controller, or an inline stub
`(req, res) => res.send({ title })`. -/
inductive Handler where
  | signUp
  | signIn
  | resetPassword
  | getUsers
  | getUserbyId
  | updateUserDetails
  | deleteUserAccount
  | createSubscription
  | getAllSubscriptions
  | getSubscriptionsByUserId
  | stub (title : String)
deriving DecidableEq, Repr

/-- A route: the method, the path within its router, the middlewares in the
order they are mounted, and the handler. -/
structure Route where
  method : String
  path : String
  chain : List Middleware
  handler : Handler
deriving DecidableEq, Repr

/-- The routes of `auth.routes.js`. -/
def authRoutes : List Route :=
  [ ⟨"POST", "/sign-up", [.validateRegister], .signUp⟩,
    ⟨"POST", "/sign-in", [.validateLogin], .signIn⟩,
    ⟨"POST", "/change-password", [.authorize, .validateChangePassword], .resetPassword⟩ ]

/-- The routes of `user.routes.js`. -/
def userRoutes : List Route :=
  [ ⟨"GET", "/", [.authorize], .getUsers⟩,
    ⟨"GET", "/:id", [.authorize, .validateUserId], .getUserbyId⟩,
    ⟨"PUT", "/:id", [.authorize, .validateUserId, .validateUpdateProfile], .updateUserDetails⟩,
    ⟨"DELETE", "/:id", [.authorize, .validateUserId], .deleteUserAccount⟩ ]

/-- The routes of `subscription.routes.js`. -/
def subscriptionRoutes : List Route :=
  [ ⟨"POST", "/", [.authorize, .validateCreateSubscription], .createSubscription⟩,
    ⟨"GET", "/", [.authorize, .validateSubscriptionQuery], .getAllSubscriptions⟩,
    ⟨"GET", "/user/:id", [.authorize, .validateUserId, .validateSubscriptionQuery],
      .getSubscriptionsByUserId⟩,
    ⟨"GET", "/upcoming-renewals", [], .stub "GET upcoming renewals"⟩,
    ⟨"GET", "/:id", [.validateSubscriptionId], .stub "GET subscription details"⟩,
    ⟨"PUT", "/:id", [.validateSubscriptionId, .validateUpdateSubscription],
      .stub "UPDATE subscription"⟩,
    ⟨"PUT", "/:id/cancel", [.validateSubscriptionId], .stub "CANCEL subscription"⟩,
    ⟨"DELETE", "/:id", [.validateSubscriptionId], .stub "DELETE subscription"⟩ ]

/-- Where a request ends up on a route: answered with a status and a message
before the handler, answered by a stub, or handed to a controller with the
principal the chain attached. -/
inductive RouteResult where
  | respond (status : Nat) (message : String)
  | controller (handler : Handler) (user : Option User)
deriving DecidableEq, Repr

/-- The message of the error a validation middleware passes to `next`. -/
def validationMessage : Middleware → String
  | .validateUserId => "Invalid user ID"
  | .validateSubscriptionId => "Invalid subscription ID"
  | .validateSubscriptionQuery => "Invalid query parameters"
  | _ => "Validation failed"

/-- Running the middlewares of a route in order.  `authorize` answers or
attaches the user; a validation middleware passes the request on when
`passes` holds for it and otherwise calls `next(error)` with status 400. -/
def runChain (verify : String → Option String) (users : List User)
    (authorization : Option String) (passes : Middleware → Bool) (handler : Handler) :
    List Middleware → Option User → RouteResult
  | [], user =>
    match handler with
    | .stub title => .respond 200 title
    | h => .controller h user
  | .authorize :: rest, _ =>
    match authorize verify users authorization with
    | .respond status message => .respond status message
    | .next user => runChain verify users authorization passes handler rest (some user)
  | m :: rest, user =>
    if passes m then runChain verify users authorization passes handler rest user
    else .respond 400 (validationMessage m)

/-- A request on a route. -/
def runRoute (verify : String → Option String) (users : List User)
    (authorization : Option String) (passes : Middleware → Bool) (route : Route) : RouteResult :=
  runChain verify users authorization passes route.handler route.chain none

/-! ## `subscription.middleware.js`: the page and limit checks of `validateSubscriptionQuery` -/

/-- Whether a character is one of the decimal digits `0` to `9`. -/
def isAsciiDigit (c : Char) : Bool := 48 ≤ c.toNat && c.toNat ≤ 57

/-- Value of a list of decimal digits. -/
def decimalValue (ds : List Char) : Nat :=
  ds.foldl (fun acc c => acc * 10 + (c.toNat - 48)) 0

/-- Sign and digits of a string, as the pattern `^[-+]?[0-9]+$` splits it. -/
def signAndDigits (str : String) : Int × List Char :=
  match str.toList with
  | c :: rest => if c = '-' then (-1, rest) else if c = '+' then (1, rest) else (1, c :: rest)
  | [] => (1, [])

/-- The check `isInt(str, { min, max })` of the validation library: the string
is an optional sign followed by one or more decimal digits, and its numeric
value is at least `min` and, when `max` is given, at most `max`. -/
def isInt (str : String) (min : Int) (max : Option Int) : Bool :=
  let sd := signAndDigits str
  !sd.2.isEmpty && sd.2.all isAsciiDigit && decide (min ≤ sd.1 * (decimalValue sd.2 : Int)) &&
    (match max with
      | some m => decide (sd.1 * (decimalValue sd.2 : Int) ≤ m)
      | none => true)

/-- The chain `query('page').optional().isInt({ min: 1 })` (lines 6-9): whether
the value passes. -/
def pageQueryValid (page : Option String) : Bool :=
  match page with
  | none => true
  | some s => isInt s 1 none

/-- The chain `query('limit').optional().isInt({ min: 1, max: 100 })`
(lines 11-14): whether the value passes. -/
def limitQueryValid (limit : Option String) : Bool :=
  match limit with
  | none => true
  | some s => isInt s 1 (some 100)

/-! ## `error.middleware.js` -/

/-- An entry of `error.data`, as the last handler of a validation middleware
builds it from a failure of the validation library: the field, the message of
the rule that failed and the value received (absent for `undefined`). -/
structure FieldError where
  field : String
  message : String
  value : Option String
deriving DecidableEq, Repr

/-- An error object as `errorMiddleware` receives it: `name`, `message`, the
`statusCode` set by a controller or a validation middleware, the `code` of a
store error, the `errors` of a Mongoose `ValidationError` (failing path and
message, in the order the object holds them) and the `data` set by a
validation middleware. -/
structure ErrorObject where
  name : String := "Error"
  message : String
  statusCode : Option Nat := none
  code : Option Nat := none
  errors : List (String × String) := []
  data : List FieldError := []
deriving DecidableEq, Repr

/-- The response `errorMiddleware` sends: the status and the two keys of the
JSON body, `success` and `error`. -/
structure ErrorResponse where
  status : Nat
  success : Bool
  error : String
deriving DecidableEq, Repr

/-- JavaScript `Array.prototype.join(separator)` on an array of strings. -/
def jsJoin (separator : String) : List String → String
  | [] => ""
  | [a] => a
  | a :: b :: rest => a ++ separator ++ jsJoin separator (b :: rest)

/-- Source function `errorMiddleware` (`error.middleware.js`, lines 1-43).  The pair
holds `error.statusCode` and `error.message`; every other property of the
error, `data` included, is left out of the response. -/
def errorMiddleware (err : ErrorObject) : ErrorResponse :=
  let error : Option Nat × String := (err.statusCode, err.message)
  let error : Nat × String :=
    match error.1 with
    | some statusCode => if statusCode = 0 then (500, "Internal Server Error") else (statusCode, error.2)
    | none => (500, "Internal Server Error")
  let error : Nat × String :=
    if err.name = "ValidationError" then (400, jsJoin ", " (err.errors.map (fun val => val.2)))
    else error
  let error : Nat × String :=
    if err.code = some 11000 then (400, "Duplicate field value entered") else error
  let error : Nat × String :=
    if err.name = "CastError" then (404, "Resource not found") else error
  { status := error.1, success := false, error := error.2 }

/-- The error object of an `AppError`: an `Error` built by a controller, or a
`TypeError` thrown in it, with the status code it was given. -/
def AppError.toErrorObject (e : AppError) : ErrorObject :=
  { message := e.message, statusCode := e.statusCode }

/-- The `ValidationError` Mongoose rejects a save with, for a model name and
the failing paths with their messages. -/
def validationError (model : String) (errors : List (String × String)) : ErrorObject :=
  { name := "ValidationError"
    message := model ++ " validation failed: " ++
      jsJoin ", " (errors.map (fun e => e.1 ++ ": " ++ e.2))
    errors := errors }

/-- The error the store throws when a write violates a unique index. -/
def duplicateKeyError (message : String) : ErrorObject :=
  { name := "MongoServerError", message := message, code := some 11000 }

/-- The last handler of a validation middleware (for instance
`subscription.middleware.js`, lines 175-190): with no failure it calls
`next()` (`none`); otherwise it calls `next(error)` with an error that has the
given message, status code 400 and the failures as `data`. -/
def validationResultHandler (message : String) (errors : List FieldError) : Option ErrorObject :=
  if errors.isEmpty then none
  else some
    { message := message
      statusCode := some 400
      data := errors.map (fun err => { field := err.field, message := err.message, value := err.value }) }

/-- What the caller receives when `createSubscription` ends in `next(error)`:
the response of `errorMiddleware`. -/
def CreateOutcome.errorResponse : CreateOutcome → Option ErrorResponse
  | .created _ => none
  | .next error => some (errorMiddleware error.toErrorObject)
  | .invalid errors => some (errorMiddleware (validationError "Subscription" errors))

/-! ## `auth.controller.js`: `signUp` -/

/-- The body of a sign-up request, with the three strings that
`validateRegister` requires. -/
structure SignUpBody where
  name : String
  email : String
  password : String
deriving DecidableEq, Repr

/-- Validation of a User document on save (`user.model.js`): the first failing
validator of each path, with its message.  `emailMatch` stands for the `match`
pattern of the `email` path. -/
def validateUser (emailMatch : String → Bool) (user : User) : List (String × String) :=
  (if user.name = "" then [("name", "User Name is required")]
    else if jsLength user.name < 3 then [("name", "User Name must be at least 3 characters long")]
    else if 30 < jsLength user.name then [("name", "User Name must be at most 30 characters long")]
    else []) ++
  (if user.email = "" then [("email", "Email is required")]
    else if emailMatch user.email then []
    else [("email", "Please enter a valid email address")]) ++
  (if user.password = "" then [("password", "Password is required")]
    else if jsLength user.password < 8 then
      [("password", "Password must be at least 8 characters long")]
    else if 128 < jsLength user.password then
      [("password", "Password must be at most 128 characters long")]
    else [])

/-- What `signUp` does with a request: the 201 response with the token and the
new user's id, name and email, or `next(error)`. -/
inductive SignUpOutcome where
  | created (token : String) (id : ObjectId) (name email : String)
  | next (error : ErrorObject)
deriving DecidableEq, Repr

/-- Source function `signUp` (`auth.controller.js`, lines 7-48): the outcome and the store
after the transaction.  `castEmail` stands for the setters of the `email` path
(`trim`, `lowercase`), which Mongoose applies to the filter of `findOne` and to
the new document; `hash` for `bcrypt.hash` with a fresh salt; `sign` for
`jwt.sign`; `newId` is the id given to the new document.  The unique index on
`email` rejects a write whose email is already stored. -/
def signUp (castEmail : String → String) (emailMatch : String → Bool) (hash : String → String)
    (sign : ObjectId → String) (newId : ObjectId) (db : Db) (body : SignUpBody) :
    SignUpOutcome × Db :=
  match db.users.find? (fun u => u.email == castEmail body.email) with
  | some _ =>
    (.next { message := "User already exists with this email", statusCode := some 409 }, db)
  | none =>
    let hashedPassword := hash body.password
    let newUser : User :=
      { _id := newId, name := jsTrim body.name, email := castEmail body.email, role := "user",
        password := hashedPassword }
    match validateUser emailMatch newUser with
    | [] =>
      if db.users.any (fun u => u.email == newUser.email) then
        (.next (duplicateKeyError "E11000 duplicate key error"), db)
      else
        (.created (sign newUser._id) newUser._id newUser.name newUser.email,
          { db with users := db.users ++ [newUser] })
    | errors => (.next (validationError "User" errors), db)

/-- What the caller receives when `signUp` ends in `next(error)`. -/
def SignUpOutcome.errorResponse : SignUpOutcome → Option ErrorResponse
  | .created _ _ _ _ => none
  | .next error => some (errorMiddleware error)

/-! ## `auth.middleware.js`: `validateChangePassword` -/

/-- The body of a change-password request: the fields the validation
middleware and the controller read, each a string or absent. -/
structure ChangePasswordBody where
  currentPassword : Option String := none
  oldPassword : Option String := none
  newPassword : Option String := none
deriving DecidableEq, Repr

/-- The length the validation library's `isLength` measures: characters, not
counting the variation selectors U+FE0E and U+FE0F. -/
def validatorLength (str : String) : Nat :=
  (str.toList.filter (fun c => c.toNat != 65038 && c.toNat != 65039)).length

/-- Line terminators, which `.` does not match in a JavaScript regular
expression. -/
def isLineTerminator (c : Char) : Bool :=
  c.toNat == 10 || c.toNat == 13 || c.toNat == 8232 || c.toNat == 8233

/-- The class `[a-z]`. -/
def isLowerLetter (c : Char) : Bool := 97 ≤ c.toNat && c.toNat ≤ 122

/-- The class `[A-Z]`. -/
def isUpperLetter (c : Char) : Bool := 65 ≤ c.toNat && c.toNat ≤ 90

/-- The class `[@$!%*?&]`. -/
def isPasswordSymbol (c : Char) : Bool := c ∈ ['@', '$', '!', '%', '*', '?', '&']

/-- Whether the password pattern of lines 130 and 16 matches:
`^(?=.*[a-z])(?=.*[A-Z])(?=.*\d)(?=.*[@$!%*?&])[A-Za-z\d@$!%*?&]`.  Each
look-ahead finds its character on the first line of the string; the first
character belongs to the final class. -/
def passwordPattern (str : String) : Bool :=
  let line := str.toList.takeWhile (fun c => !isLineTerminator c)
  line.any isLowerLetter && line.any isUpperLetter && line.any isAsciiDigit &&
    line.any isPasswordSymbol &&
    (match str.toList with
      | c :: _ => isLowerLetter c || isUpperLetter c || isAsciiDigit c || isPasswordSymbol c
      | [] => false)

/-- The failures `validateChangePassword` (lines 121-154) finds in a body, in
the order of the chain; the validation library reads an absent field as the
empty string.  The middleware calls `next()` when there is none and
`next(error)` with status 400 otherwise. -/
def validateChangePassword (body : ChangePasswordBody) : List FieldError :=
  (if body.currentPassword.getD "" = "" then
      [⟨"currentPassword", "Current password is required", body.currentPassword⟩]
    else []) ++
  (if 8 ≤ validatorLength (body.newPassword.getD "") ∧
        validatorLength (body.newPassword.getD "") ≤ 128 then []
    else [⟨"newPassword", "Password must be between 8 and 128 characters", body.newPassword⟩]) ++
  (if passwordPattern (body.newPassword.getD "") then []
    else
      [⟨"newPassword",
        "Password must contain at least one uppercase letter, one lowercase letter, one number, and one special character",
        body.newPassword⟩]) ++
  (if body.newPassword = body.currentPassword then
      [⟨"newPassword", "New password must be different from current password", body.newPassword⟩]
    else [])

/-- The request `resetPassword` sees on the route
`POST /change-password`: the principal attached by `authorize` and, of the
body, `oldPassword` and `newPassword`. -/
def changePasswordRequest (user : Option User) (body : ChangePasswordBody) : PasswordRequest :=
  { user := user, oldPassword := body.oldPassword, newPassword := body.newPassword }

/-! ## `subscription.middleware.js`: the price checks of `validateCreateSubscription` -/

/-- The check `isNumeric(str)` of the validation library, the pattern
`^[+-]?([0-9]*[.])?[0-9]+$`: an optional sign, then decimal digits, or
optional digits, a point and one or more digits. -/
def isNumeric (str : String) : Bool :=
  let rest := (signAndDigits str).2
  match rest.dropWhile isAsciiDigit with
  | [] => !rest.isEmpty
  | c :: fraction => c == '.' && !fraction.isEmpty && fraction.all isAsciiDigit

/-- The number `parseFloat` reads from a string that the pattern of `isFloat`
matches, `^[-+]?[0-9]*(\.[0-9]*)?([eE][+-]?[0-9]+)?$`, as the exact fraction
numerator / denominator; `none` when the pattern does not match or the string
has no digit before the exponent (`parseFloat` gives NaN). -/
def floatValue (str : String) : Option (Int × Nat) :=
  let sd := signAndDigits str
  let whole := sd.2.takeWhile isAsciiDigit
  let afterWhole := sd.2.dropWhile isAsciiDigit
  let fraction : List Char := match afterWhole with
    | c :: rest => if c = '.' then rest.takeWhile isAsciiDigit else []
    | [] => []
  let afterFraction : List Char := match afterWhole with
    | c :: rest => if c = '.' then rest.dropWhile isAsciiDigit else c :: rest
    | [] => []
  let exponent : Option Int := match afterFraction with
    | [] => some 0
    | c :: rest =>
      if c = 'e' ∨ c = 'E' then
        let se := signAndDigits (String.mk rest)
        if !se.2.isEmpty && se.2.all isAsciiDigit then some (se.1 * (decimalValue se.2 : Int))
        else none
      else none
  match exponent with
  | none => none
  | some e =>
    if whole.isEmpty && fraction.isEmpty then none
    else
      let mantissa : Int :=
        sd.1 * ((decimalValue whole : Int) * 10 ^ fraction.length + (decimalValue fraction : Int))
      if 0 ≤ e then some (mantissa * 10 ^ e.toNat, 10 ^ fraction.length)
      else some (mantissa, 10 ^ (fraction.length + (-e).toNat))

/-- The check `isFloat(str, { min })` of the validation library, for the minimum
`minNumerator / minDenominator`.  The comparison of the two doubles is taken
as the comparison of the exact values; the two agree on every string that has
at most two digits after the point and no exponent. -/
def isFloat (str : String) (minNumerator : Int) (minDenominator : Nat) : Bool :=
  match floatValue str with
  | some (numerator, denominator) =>
    decide (minNumerator * (denominator : Int) ≤ numerator * (minDenominator : Int))
  | none => false

/-- The count `(value.toString().split('.')[1] || '').length` of lines 88 and
209, on the text of the value: the length of what stands between the first
point and the next one, or the end. -/
def priceDecimalPlaces (text : String) : Nat :=
  jsLength (String.mk
    (((text.toList.dropWhile (fun c => c != '.')).drop 1).takeWhile (fun c => c != '.')))

/-- The failures the chain `body('price')` of `validateCreateSubscription`
(lines 81-93) finds in a price, given as the text the validation library
reads, in the order of the chain. -/
def validatePrice (text : String) : List FieldError :=
  (if isNumeric text then [] else [⟨"price", "Price must be a number", some text⟩]) ++
  (if isFloat text 1 100 then [] else [⟨"price", "Price must be greater than 0", some text⟩]) ++
  (if 2 < priceDecimalPlaces text then
      [⟨"price", "Price cannot have more than 2 decimal places", some text⟩]
    else [])

/-- The plain decimal text with the given digits before and after the point;
without digits after it, there is no point. -/
def decimalText (whole fraction : List Char) : String :=
  String.mk (whole ++ (if fraction.isEmpty then [] else '.' :: fraction))

/-! ## The store's `$regex` match with option `i`, for patterns of ordinary characters and `.` -/

/-- Characters that have a special meaning in a regular expression
pattern. -/
def isRegexOperator (c : Char) : Bool :=
  c ∈ ['\\', '^', '$', '.', '[', ']', '|', '(', ')', '?', '*', '+', '\x7b', '\x7d']

/-- The printable ASCII characters, space to tilde. -/
def isPrintableAscii (c : Char) : Bool := 32 ≤ c.toNat && c.toNat ≤ 126

/-- An item of a pattern of the fragment: an ordinary character, which stands
for itself, or `.`, which stands for any character. -/
inductive PatternItem where
  | literal (c : Char)
  | anyChar
deriving DecidableEq, Repr

/-- The items of a pattern, for a pattern of the fragment: printable ASCII
characters, each either `.` or not an operator.  Any other pattern is outside
the fragment (`none`). -/
def parsePattern : List Char → Option (List PatternItem)
  | [] => some []
  | c :: rest =>
    if c = '.' then (parsePattern rest).map (fun items => PatternItem.anyChar :: items)
    else if isRegexOperator c || !isPrintableAscii c then none
    else (parsePattern rest).map (fun items => PatternItem.literal c :: items)

/-- Whether an item matches a character, with option `i`: an ordinary
character matches itself in either letter case. -/
def itemMatches : PatternItem → Char → Bool
  | .literal p, c => p.toLower == c.toLower
  | .anyChar, _ => true

/-- Whether the items match at the start of the text. -/
def matchesAt : List PatternItem → List Char → Bool
  | [], _ => true
  | _ :: _, [] => false
  | item :: items, c :: cs => itemMatches item c && matchesAt items cs

/-- Whether the items match somewhere in the text: a pattern is not
anchored. -/
def searchFrom (items : List PatternItem) : List Char → Bool
  | [] => matchesAt items []
  | c :: cs => matchesAt items (c :: cs) || searchFrom items cs

/-- The store's match of `{ $regex: pattern, $options: 'i' }` against a value, for a
pattern of the fragment and a value of printable ASCII characters; `none`
outside the fragment, where this development does not say what the store
does. -/
def storeRegex (pattern value : String) : Option Bool :=
  if value.toList.all isPrintableAscii then
    (parsePattern pattern.toList).map (fun items => searchFrom items value.toList)
  else none

/-- A `$regex` match that agrees with `storeRegex` on the fragment. -/
def ImplementsRegex (rx : String → String → Bool) : Prop :=
  ∀ pattern value b, storeRegex pattern value = some b → rx pattern value = b

/-- Specification reading of "`q` occurs in `n` as a substring ignoring
letter case": the characters of `q`, with the letters A to Z in lower case,
stand somewhere in a row in those of `n`. -/
def occursIgnoringCase (q n : String) : Prop :=
  ∃ before after : List Char,
    n.toList.map Char.toLower = before ++ q.toList.map Char.toLower ++ after

/-- The match that is `storeRegex` on the fragment and `false` elsewhere. -/
def fragmentRegex (pattern value : String) : Bool := (storeRegex pattern value).getD false

/-! ## Readings of the specification's pagination phrases -/

/-- Specification reading of the pagination metadata for `total` matching
records, page `p` and limit `l`. -/
def IsPaginationOf (pg : Pagination) (total p l : Int) : Prop :=
  pg.currentPage = p ∧ pg.itemsPerPage = l ∧ pg.totalItems = total ∧
  pg.totalPages = ⌈(total : ℚ) / (l : ℚ)⌉ ∧
  (pg.hasPrevPage = true ↔ 1 < p) ∧
  (pg.hasNextPage = true ↔ p < pg.totalPages) ∧
  (pg.hasNextPage = true ↔ p * l < total)

/-- Concatenation of the pages numbered 1 to `k`, in order. -/
def pagesUpTo {α : Type} (page : Nat → List α) : Nat → List α
  | 0 => []
  | k + 1 => pagesUpTo page k ++ page (k + 1)

/-! ## Readings of the specification's calendar phrases -/

/-- Number of days of the month that follows the month of local time `t`. -/
def daysInFollowingMonth (t : Int) : Int :=
  if MonthFromTime t = 11 then daysInMonth (isLeapYear (YearFromTime t + 1)) 0
  else daysInMonth (isLeapYear (YearFromTime t)) (MonthFromTime t + 1)

/-- Reading of "same day of the month and time of day in the following month"
on two local times. -/
def IsNextMonthSameDay (t w : Int) : Prop :=
  (if MonthFromTime t = 11 then
      YearFromTime w = YearFromTime t + 1 ∧ MonthFromTime w = 0
    else
      YearFromTime w = YearFromTime t ∧ MonthFromTime w = MonthFromTime t + 1) ∧
  DateFromTime w = DateFromTime t ∧
  TimeWithinDay w = TimeWithinDay t

/-- Reading of "same month, day and time of day in the following year" on two
local times. -/
def IsNextYearSameDay (t w : Int) : Prop :=
  YearFromTime w = YearFromTime t + 1 ∧
  MonthFromTime w = MonthFromTime t ∧
  DateFromTime w = DateFromTime t ∧
  TimeWithinDay w = TimeWithinDay t

/-- Specification reading of "`D` + 1 calendar month" for two instants, in the
local time of a zone. -/
def IsPlusOneCalendarMonth (zone : TimeZone) (D r : Int) : Prop :=
  IsNextMonthSameDay (zone.LocalTime D) (zone.LocalTime r)

/-- Specification reading of "`D` + 1 calendar year" for two instants, in the
local time of a zone. -/
def IsPlusOneCalendarYear (zone : TimeZone) (D r : Int) : Prop :=
  IsNextYearSameDay (zone.LocalTime D) (zone.LocalTime r)

/-- The local date of `D` is 29 February. -/
def IsFeb29 (zone : TimeZone) (D : Int) : Prop :=
  MonthFromTime (zone.LocalTime D) = 1 ∧ DateFromTime (zone.LocalTime D) = 29

/-- Length in days of the period of a recurring frequency for a subscription
that starts at local time `t`: one day, seven days, the days of the month of
`t`, or the days from `t` to the same date of the following year. -/
def periodDays (frequency : String) (t : Int) : Int :=
  if frequency = "daily" then 1
  else if frequency = "weekly" then 7
  else if frequency = "monthly" then daysInMonth (InLeapYear t) (MonthFromTime t)
  else yearStep t

/-! ## Sample documents -/

/-- A cancelled subscription with start date 1000 and renewal date 2000. -/
def exampleDoc : Subscription :=
  { name := "Music", price := 5, currency := "USD", frequency := some "monthly",
    category := "Other", paymentMethod := "UPI", status := "cancelled",
    startDate := some (JSDate.ofTime 1000), renewalDate := some (JSDate.ofTime 2000),
    user := ⟨"u1"⟩, createdAt := 1000, updatedAt := 1000 }

/-- A one-time purchase without a renewal date. -/
def oneTimeDoc : Subscription :=
  { name := "Domain", price := 12, currency := "USD", frequency := some "one-time",
    category := "Other", paymentMethod := "UPI", status := "active",
    startDate := some (JSDate.ofTime 1000), renewalDate := none,
    user := ⟨"u1"⟩, createdAt := 1000, updatedAt := 1000 }

/-- A monthly subscription started on 31 January 2024, 00:00 UTC, without a
supplied renewal date. -/
def jan31Doc : Subscription :=
  { name := "Gym", price := 30, currency := "USD", frequency := some "monthly",
    category := "Health", paymentMethod := "UPI", status := "active",
    startDate := some (JSDate.ofTime 1706659200000), renewalDate := none,
    user := ⟨"u1"⟩, createdAt := 1706659200000, updatedAt := 1706659200000 }

/-- A monthly subscription started on 15 January 2024, 00:00 UTC. -/
def jan15Doc : Subscription :=
  { name := "Gym", price := 30, currency := "USD", frequency := some "monthly",
    category := "Health", paymentMethod := "UPI", status := "active",
    startDate := some (JSDate.ofTime 1705276800000), renewalDate := none,
    user := ⟨"u1"⟩, createdAt := 1705276800000, updatedAt := 1705276800000 }

/-- A subscription started at the last instant of the Date range
(13 September 275760), with the given frequency. -/
def lastDayDoc (frequency : String) : Subscription :=
  { name := "Gym", price := 30, currency := "USD", frequency := some frequency,
    category := "Health", paymentMethod := "UPI", status := "active",
    startDate := some (JSDate.ofTime 8640000000000000), renewalDate := none,
    user := ⟨"u1"⟩, createdAt := 0, updatedAt := 0 }

/-- A daily subscription started on 15 January 2024, 00:00 UTC. -/
def dailyDoc : Subscription :=
  { name := "News", price := 1, currency := "USD", frequency := some "daily",
    category := "Other", paymentMethod := "UPI", status := "active",
    startDate := some (JSDate.ofTime 1705276800000), renewalDate := none,
    user := ⟨"u1"⟩, createdAt := 1705276800000, updatedAt := 1705276800000 }

/-- The same subscription, weekly. -/
def weeklyDoc : Subscription :=
  { dailyDoc with frequency := some "weekly" }

/-- The same subscription, yearly. -/
def yearlyDoc : Subscription :=
  { dailyDoc with frequency := some "yearly" }

/-- A yearly subscription started on 29 February 2024, 00:00 UTC. -/
def feb29Doc : Subscription :=
  { name := "Cloud", price := 99, currency := "USD", frequency := some "yearly",
    category := "Other", paymentMethod := "UPI", status := "active",
    startDate := some (JSDate.ofTime 1709164800000), renewalDate := none,
    user := ⟨"u1"⟩, createdAt := 1709164800000, updatedAt := 1709164800000 }

/-- A subscription whose start date is one day after the instant 1705276800000. -/
def futureStartDoc : Subscription :=
  { name := "Gym", price := 30, currency := "USD", frequency := some "monthly",
    category := "Health", paymentMethod := "UPI", status := "active",
    startDate := some (JSDate.ofTime 1705363200000), renewalDate := none,
    user := ⟨"u1"⟩, createdAt := 0, updatedAt := 0 }

/-- A user with role `user`. -/
def alice : User := { _id := ⟨"64b000000000000000000001"⟩, name := "Alice", email := "alice@example.com", role := "user" }

/-- Another user with role `user`. -/
def bob : User := { _id := ⟨"64b000000000000000000002"⟩, name := "Bob", email := "bob@example.com", role := "user" }

/-- A subscription owned by Alice. -/
def aliceSubscription : Subscription :=
  { name := "Streaming", price := 10, currency := "USD", frequency := some "monthly",
    category := "Entertainment", paymentMethod := "UPI", status := "active",
    startDate := some (JSDate.ofTime 1000), renewalDate := some (JSDate.ofTime 9000),
    user := alice._id, createdAt := 1000, updatedAt := 1000 }

/-- A subscription owned by Bob. -/
def bobSubscription : Subscription :=
  { name := "Storage", price := 2, currency := "USD", frequency := some "yearly",
    category := "Utilities", paymentMethod := "UPI", status := "active",
    startDate := some (JSDate.ofTime 2000), renewalDate := some (JSDate.ofTime 9500),
    user := bob._id, createdAt := 2000, updatedAt := 2000 }

/-- A store with the two users and their subscriptions. -/
def sampleDb : Db :=
  { users := [alice, bob], subscriptions := [aliceSubscription, bobSubscription] }

/-- Bob, authenticated, asks for the subscriptions of user Alice. -/
def bobListsAlice : Request := { user := some bob, paramsId := alice._id, query := {} }

/-- Bob, authenticated, lists his own subscriptions and also sends
`user`-like criteria in the query string. -/
def bobListsOwn : Request :=
  { user := some bob, paramsId := bob._id, query := { status := some "active" } }

/-- Twenty-five subscriptions of Bob, created at instants 0 to 24. -/
def twentyFiveRecords : List Subscription :=
  (List.range 25).map (fun i => { bobSubscription with createdAt := i, updatedAt := i })

/-- A store holding the twenty-five subscriptions. -/
def twentyFiveDb : Db := { users := [alice, bob], subscriptions := twentyFiveRecords }

/-- Bob asks for a page of his subscriptions with limit 10. -/
def bobPage (page : String) : Request :=
  { user := some bob, paramsId := bob._id, query := { page := some page, limit := some "10" } }

/-- A user with role `admin`. -/
def adminUser : User :=
  { _id := ⟨"64b00000000000000000000a"⟩, name := "Admin", email := "admin@example.com",
    role := "admin" }

/-- A store with the admin, Alice and Bob and no subscriptions. -/
def usersDb : Db := { users := [adminUser, alice, bob], subscriptions := [] }

/-- A valid creation body naming the given user id as owner: a monthly
subscription started at instant 1705276800000. -/
def creationBody (user : String) : SubscriptionBody :=
  { name := some "Streaming", price := some 10, frequency := some "monthly",
    paymentMethod := some "UPI", status := some "active",
    startDate := some (JSDate.ofTime 1705276800000), user := some user }

/-- The admin asks to change its own record and sends an `email` key. -/
def adminUpdatesSelfEmail : UserRequest :=
  { user := some adminUser, paramsId := adminUser._id.toString, bodyName := some "Root",
    bodyHasEmail := true }

/-- Bob asks for Alice's user record. -/
def bobTargetsAlice : UserRequest :=
  { user := some bob, paramsId := alice._id.toString, bodyName := some "Mallory" }

/-- The admin asks for Bob's user record. -/
def adminTargetsBob : UserRequest :=
  { user := some adminUser, paramsId := bob._id.toString, bodyName := some "Robert" }

/-- The admin asks to change or delete its own record. -/
def adminTargetsSelf : UserRequest :=
  { user := some adminUser, paramsId := adminUser._id.toString, bodyName := some "Root" }

/-- A creation body like `creationBody` for Alice, with the given start
date. -/
def startingAt (startDate : Int) : SubscriptionBody :=
  { creationBody alice._id.toString with startDate := some (JSDate.ofTime startDate) }

/-- The `data` of the answer to `bobListsOwn` on `sampleDb`. -/
def bobsListing : ListData :=
  { user := none
    subscriptions := [bobSubscription]
    pagination :=
      { currentPage := 1, totalPages := 1, totalItems := 1, itemsPerPage := 10,
        hasNextPage := false, hasPrevPage := false }
    filters := { status := some "active" }
    sortBy := "createdAt"
    sortOrder := "desc" }

/-- Bob, with a stored password. -/
def bobWithPassword : User := { bob with password := "Old-Secret1" }

/-- A store holding Alice and Bob with his password. -/
def passwordDb : Db := { users := [alice, bobWithPassword], subscriptions := [] }

/-- The price 0.001. -/
def oneThousandth : Rat := ⟨1, 1000, by decide, by decide⟩

/-- A page value of 310 digits, each a 9. -/
def pageOf310Digits : String := String.mk (List.replicate 310 '9')

/-- A page value of 308 digits, each a 9. -/
def pageOf308Digits : String := String.mk (List.replicate 308 '9')

/-- The offsets of `America/New_York` around the change of 10 March 2024:
UTC-5 before 07:00 UTC of that day and UTC-4 from then on; a local time before
03:00 of that day, the skipped hour included, is read back with UTC-5. -/
def easternZone2024 : TimeZone :=
  { offsetAtUTC := fun t => if t < 1710054000000 then -18000000 else -14400000
    offsetAtLocal := fun t => if t < 1710039600000 then -18000000 else -14400000 }

/-- A daily subscription started on 9 March 2024, 12:00 in New York
(17:00 UTC). -/
def dstDailyDoc : Subscription :=
  { name := "News", price := 1, currency := "USD", frequency := some "daily",
    category := "Other", paymentMethod := "UPI", status := "active",
    startDate := some (JSDate.ofTime 1710003600000), renewalDate := none,
    user := ⟨"u1"⟩, createdAt := 1710003600000, updatedAt := 1710003600000 }

/-- A monthly subscription started on 10 February 2024, 02:30 in New York
(07:30 UTC). -/
def dstMonthlyDoc : Subscription :=
  { name := "Gym", price := 30, currency := "USD", frequency := some "monthly",
    category := "Health", paymentMethod := "UPI", status := "active",
    startDate := some (JSDate.ofTime 1707550200000), renewalDate := none,
    user := ⟨"u1"⟩, createdAt := 1707550200000, updatedAt := 1707550200000 }

theorem DayFromYear_succ (y : Int) : DayFromYear (y + 1) = DayFromYear y + DaysInYear y := by
  have h4 : (y + 1 - 1969) / 4 = (y - 1969) / 4 + (if y % 4 = 0 then 1 else 0) := by
    split_ifs <;> omega
  have h100 : (y + 1 - 1901) / 100 = (y - 1901) / 100 + (if y % 100 = 0 then 1 else 0) := by
    split_ifs <;> omega
  have h400 : (y + 1 - 1601) / 400 = (y - 1601) / 400 + (if y % 400 = 0 then 1 else 0) := by
    split_ifs <;> omega
  have a1 : y % 100 = 0 → y % 4 = 0 := by omega
  have a2 : y % 400 = 0 → y % 100 = 0 := by omega
  unfold DayFromYear DaysInYear isLeapYear
  rw [h4, h100, h400]
  by_cases c4 : y % 4 = 0 <;> by_cases c100 : y % 100 = 0 <;> by_cases c400 : y % 400 = 0 <;>
    simp [c4, c100, c400] <;> omega

theorem yearFromDay_spec (d : Int) :
    DayFromYear (yearFromDay d) ≤ d ∧ d < DayFromYear (yearFromDay d + 1) := by
  unfold yearFromDay
  simp only
  split_ifs with h1 h2
  · refine ⟨h1, ?_⟩
    unfold DayFromYear at *
    omega
  · refine ⟨?_, ?_⟩
    · unfold DayFromYear at *
      omega
    · have : (1970 + 400 * d / 146097 - 1 + 1 : Int) = 1970 + 400 * d / 146097 := by ring
      rw [this]; exact h2
  · exact ⟨by omega, by omega⟩

/-! ## Calendar lemmas -/

theorem DaysInYear_bounds (y : Int) : 365 ≤ DaysInYear y ∧ DaysInYear y ≤ 366 := by
  unfold DaysInYear
  split_ifs <;> omega

theorem DaysInYear_eq (y : Int) : DaysInYear y = daysBeforeMonth (isLeapYear y) 12 := by
  unfold DaysInYear daysBeforeMonth
  cases isLeapYear y <;> simp

theorem DayFromYear_add_nat (a : Int) (k : Nat) : DayFromYear a ≤ DayFromYear (a + k) := by
  induction k with
  | zero => simp
  | succ n ih =>
    have h1 := DayFromYear_succ (a + n)
    have h2 := DaysInYear_bounds (a + n)
    have e : a + ((n + 1 : Nat) : Int) = a + (n : Int) + 1 := by push_cast; ring
    rw [e]
    omega

theorem DayFromYear_mono {a b : Int} (h : a ≤ b) : DayFromYear a ≤ DayFromYear b := by
  obtain ⟨k, rfl⟩ := Int.le.dest h
  exact DayFromYear_add_nat a k

theorem yearFromDay_unique {d y : Int} (h1 : DayFromYear y ≤ d)
    (h2 : d < DayFromYear (y + 1)) : yearFromDay d = y := by
  obtain ⟨s1, s2⟩ := yearFromDay_spec d
  by_contra hne
  rcases lt_or_gt_of_ne hne with hlt | hgt
  · have := DayFromYear_mono (show yearFromDay d + 1 ≤ y by omega)
    omega
  · have := DayFromYear_mono (show y + 1 ≤ yearFromDay d by omega)
    omega

theorem TimeWithinDay_bounds (t : Int) : 0 ≤ TimeWithinDay t ∧ TimeWithinDay t < msPerDay := by
  unfold TimeWithinDay msPerDay
  omega

theorem MakeDate_Day (t : Int) : MakeDate (Day t) (TimeWithinDay t) = t := by
  unfold MakeDate Day TimeWithinDay msPerDay
  omega

theorem Day_MakeDate (D τ : Int) (h0 : 0 ≤ τ) (h1 : τ < msPerDay) :
    Day (MakeDate D τ) = D ∧ TimeWithinDay (MakeDate D τ) = τ := by
  unfold MakeDate Day TimeWithinDay msPerDay at *
  omega

theorem DayWithinYear_bounds (t : Int) :
    0 ≤ DayWithinYear t ∧ DayWithinYear t < DaysInYear (YearFromTime t) := by
  have h := yearFromDay_spec (Day t)
  have h2 := DayFromYear_succ (yearFromDay (Day t))
  unfold DayWithinYear YearFromTime
  omega

/-- The table of month starts, value by value. -/
theorem daysBeforeMonth_values (l : Bool) :
    daysBeforeMonth l 0 = 0 ∧ daysBeforeMonth l 1 = 31 ∧
    daysBeforeMonth l 2 = 59 + (if l then 1 else 0) ∧
    daysBeforeMonth l 3 = 90 + (if l then 1 else 0) ∧
    daysBeforeMonth l 4 = 120 + (if l then 1 else 0) ∧
    daysBeforeMonth l 5 = 151 + (if l then 1 else 0) ∧
    daysBeforeMonth l 6 = 181 + (if l then 1 else 0) ∧
    daysBeforeMonth l 7 = 212 + (if l then 1 else 0) ∧
    daysBeforeMonth l 8 = 243 + (if l then 1 else 0) ∧
    daysBeforeMonth l 9 = 273 + (if l then 1 else 0) ∧
    daysBeforeMonth l 10 = 304 + (if l then 1 else 0) ∧
    daysBeforeMonth l 11 = 334 + (if l then 1 else 0) ∧
    daysBeforeMonth l 12 = 365 + (if l then 1 else 0) := by
  cases l <;> decide

/-- The month table returns a month number. -/
theorem monthFromDayWithinYear_bounds (l : Bool) (w : Int) :
    0 ≤ monthFromDayWithinYear l w ∧ monthFromDayWithinYear l w ≤ 11 := by
  unfold monthFromDayWithinYear
  cases l <;> simp only [Bool.false_eq_true, if_true, if_false] <;> omega

/-- The month table inverts the table of month starts. -/
theorem monthFromDayWithinYear_iff (l : Bool) (m w : Int) (hm0 : 0 ≤ m) (hm1 : m ≤ 11)
    (h0 : 0 ≤ w) (h1 : w < daysBeforeMonth l 12) :
    monthFromDayWithinYear l w = m ↔
      daysBeforeMonth l m ≤ w ∧ w < daysBeforeMonth l (m + 1) := by
  have hv := daysBeforeMonth_values l
  unfold monthFromDayWithinYear
  cases l <;> simp only [Bool.false_eq_true, if_true, if_false] at hv ⊢ <;>
    interval_cases m <;> simp only [Int.reduceAdd] <;> omega

/-- The table of month starts is increasing along the year. -/
theorem daysBeforeMonth_bounds (l : Bool) (m : Int) (hm0 : 0 ≤ m) (hm1 : m ≤ 11) :
    0 ≤ daysBeforeMonth l m ∧ 28 ≤ daysInMonth l m ∧ daysInMonth l m ≤ 31 ∧
      daysBeforeMonth l (m + 1) ≤ daysBeforeMonth l 12 := by
  unfold daysInMonth
  cases l <;> interval_cases m <;> decide

theorem MonthFromTime_bounds (t : Int) : 0 ≤ MonthFromTime t ∧ MonthFromTime t ≤ 11 :=
  monthFromDayWithinYear_bounds _ _

/-- The day of the month lies within the month. -/
theorem DateFromTime_bounds (t : Int) :
    1 ≤ DateFromTime t ∧
      DateFromTime t ≤ daysInMonth (InLeapYear t) (MonthFromTime t) := by
  have hb := DayWithinYear_bounds t
  rw [DaysInYear_eq] at hb
  have hm := monthFromDayWithinYear_bounds (InLeapYear t) (DayWithinYear t)
  have h := (monthFromDayWithinYear_iff (InLeapYear t) _ (DayWithinYear t) hm.1 hm.2
    hb.1 hb.2).mp rfl
  unfold DateFromTime daysInMonth MonthFromTime
  omega

/-- The day number of `t` in terms of its calendar fields. -/
theorem Day_eq_fields (t : Int) :
    Day t = DayFromYear (YearFromTime t) +
      daysBeforeMonth (InLeapYear t) (MonthFromTime t) + DateFromTime t - 1 := by
  unfold DateFromTime DayWithinYear
  omega

/-- A time whose day number is day `dt` of month `m` of year `y` has exactly
those calendar fields. -/
theorem fields_of_Day (t y m dt : Int) (hm0 : 0 ≤ m) (hm1 : m ≤ 11) (hd0 : 1 ≤ dt)
    (hd1 : dt ≤ daysInMonth (isLeapYear y) m)
    (hD : Day t = DayFromYear y + daysBeforeMonth (isLeapYear y) m + dt - 1) :
    YearFromTime t = y ∧ MonthFromTime t = m ∧ DateFromTime t = dt := by
  have hb := daysBeforeMonth_bounds (isLeapYear y) m hm0 hm1
  have hdim : daysInMonth (isLeapYear y) m =
      daysBeforeMonth (isLeapYear y) (m + 1) - daysBeforeMonth (isLeapYear y) m := rfl
  have hy : YearFromTime t = y := by
    unfold YearFromTime
    apply yearFromDay_unique
    · omega
    · rw [DayFromYear_succ, DaysInYear_eq]; omega
  have hw : DayWithinYear t = daysBeforeMonth (isLeapYear y) m + dt - 1 := by
    unfold DayWithinYear
    rw [hy]; omega
  have hl : InLeapYear t = isLeapYear y := by unfold InLeapYear; rw [hy]
  have hmo : MonthFromTime t = m := by
    unfold MonthFromTime
    rw [hl, hw]
    exact (monthFromDayWithinYear_iff _ _ _ hm0 hm1 (by omega) (by omega)).mpr
      ⟨by omega, by omega⟩
  refine ⟨hy, hmo, ?_⟩
  unfold DateFromTime
  rw [hmo, hl, hw]; omega

/-! ## The setters used by the `renewalDate` default -/

theorem MakeDay_of_month (y m dt : Int) (h0 : 0 ≤ m) (h1 : m ≤ 11) :
    MakeDay y m dt = DayFromYear y + daysBeforeMonth (isLeapYear y) m + dt - 1 := by
  have e1 : m / 12 = 0 := by omega
  have e2 : m % 12 = m := by omega
  unfold MakeDay
  simp only [e1, e2, add_zero]

theorem MakeDay_fields_add (t k : Int) :
    MakeDay (YearFromTime t) (MonthFromTime t) (DateFromTime t + k) = Day t + k := by
  have hm := MonthFromTime_bounds t
  rw [MakeDay_of_month _ _ _ hm.1 hm.2, Day_eq_fields t]
  unfold InLeapYear
  omega

/-- Value of `MakeDay` for the month after the one of `t`, with the day of `t`. -/
theorem MakeDay_next_month (t : Int) :
    MakeDay (YearFromTime t) (MonthFromTime t + 1) (DateFromTime t) =
      Day t + daysInMonth (InLeapYear t) (MonthFromTime t) := by
  have hm := MonthFromTime_bounds t
  have hD := Day_eq_fields t
  unfold daysInMonth
  by_cases h11 : MonthFromTime t = 11
  · have e1 : (MonthFromTime t + 1) / 12 = 1 := by omega
    have e2 : (MonthFromTime t + 1) % 12 = 0 := by omega
    have hs := DayFromYear_succ (YearFromTime t)
    have hy := DaysInYear_eq (YearFromTime t)
    have h0 : daysBeforeMonth (isLeapYear (YearFromTime t + 1)) 0 = 0 :=
      (daysBeforeMonth_values _).1
    unfold MakeDay
    simp only [e1, e2, h0]
    rw [h11] at hD ⊢
    unfold InLeapYear at hD ⊢
    norm_num at hy ⊢
    omega
  · rw [MakeDay_of_month _ _ _ (by omega) (by omega)]
    unfold InLeapYear at hD ⊢
    omega

theorem MakeDate_add_days (t k : Int) :
    MakeDate (Day t + k) (TimeWithinDay t) = t + k * msPerDay := by
  have h := MakeDate_Day t
  unfold MakeDate msPerDay at *
  omega

theorem setDate_some (tza tv dt : Int) :
    JSDate.setDate tza ⟨some tv⟩ (some dt) =
      ⟨TimeClip (UTC tza (MakeDate (MakeDay (YearFromTime (LocalTime tza tv))
        (MonthFromTime (LocalTime tza tv)) dt) (TimeWithinDay (LocalTime tza tv))))⟩ := rfl

theorem setMonth_some (tza tv m : Int) :
    JSDate.setMonth tza ⟨some tv⟩ (some m) =
      ⟨TimeClip (UTC tza (MakeDate (MakeDay (YearFromTime (LocalTime tza tv)) m
        (DateFromTime (LocalTime tza tv))) (TimeWithinDay (LocalTime tza tv))))⟩ := rfl

theorem setFullYear_some (tza tv y : Int) :
    JSDate.setFullYear tza ⟨some tv⟩ (some y) =
      ⟨TimeClip (UTC tza (MakeDate (MakeDay y (MonthFromTime (LocalTime tza tv))
        (DateFromTime (LocalTime tza tv))) (TimeWithinDay (LocalTime tza tv))))⟩ := rfl

theorem UTC_LocalTime_add (tza tv x : Int) : UTC tza (LocalTime tza tv + x) = tv + x := by
  unfold UTC LocalTime
  ring

/-- The call `d.setDate(d.getDate() + k)` moves a valid date by `k` days. -/
theorem setDate_getDate_add (tza tv k : Int) :
    JSDate.setDate tza ⟨some tv⟩ ((JSDate.getDate tza ⟨some tv⟩).map (· + k)) =
      ⟨TimeClip (tv + k * msPerDay)⟩ := by
  have e0 : (JSDate.getDate tza ⟨some tv⟩).map (· + k) =
      some (DateFromTime (LocalTime tza tv) + k) := rfl
  rw [e0, setDate_some, MakeDay_fields_add, MakeDate_add_days, UTC_LocalTime_add]

/-- The call `d.setMonth(d.getMonth() + 1)` moves a valid date by the length of its
month. -/
theorem setMonth_getMonth_succ (tza tv : Int) :
    JSDate.setMonth tza ⟨some tv⟩ ((JSDate.getMonth tza ⟨some tv⟩).map (· + 1)) =
      ⟨TimeClip (tv + daysInMonth (InLeapYear (LocalTime tza tv))
        (MonthFromTime (LocalTime tza tv)) * msPerDay)⟩ := by
  have e0 : (JSDate.getMonth tza ⟨some tv⟩).map (· + 1) =
      some (MonthFromTime (LocalTime tza tv) + 1) := rfl
  rw [e0, setMonth_some, MakeDay_next_month, MakeDate_add_days, UTC_LocalTime_add]

theorem isLeapYear_succ (y : Int) (h : isLeapYear y = true) : isLeapYear (y + 1) = false := by
  unfold isLeapYear at *
  have : (y + 1) % 4 ≠ 0 := by
    intro h4
    have : y % 4 ≠ 0 := by omega
    simp [this] at h
  simp [this]

theorem yearStep_bounds (t : Int) : 365 ≤ yearStep t ∧ yearStep t ≤ 366 := by
  obtain ⟨hm0, hm1⟩ := MonthFromTime_bounds t
  have hD := Day_eq_fields t
  have hs := DayFromYear_succ (YearFromTime t)
  have v1 := daysBeforeMonth_values (isLeapYear (YearFromTime t))
  have v2 := daysBeforeMonth_values (isLeapYear (YearFromTime t + 1))
  have hl := isLeapYear_succ (YearFromTime t)
  unfold yearStep
  rw [MakeDay_of_month _ _ _ hm0 hm1]
  unfold InLeapYear at hD
  unfold DaysInYear at hs
  generalize MonthFromTime t = m at *
  cases h1 : isLeapYear (YearFromTime t) <;> cases h2 : isLeapYear (YearFromTime t + 1) <;>
    simp only [h1, h2, Bool.false_eq_true, if_true, if_false, forall_true_left] at hs v1 v2 hl hD ⊢ <;>
    interval_cases m <;> omega

/-- The call `d.setFullYear(d.getFullYear() + 1)` moves a valid date by `yearStep`
days. -/
theorem setFullYear_getFullYear_succ (tza tv : Int) :
    JSDate.setFullYear tza ⟨some tv⟩ ((JSDate.getFullYear tza ⟨some tv⟩).map (· + 1)) =
      ⟨TimeClip (tv + yearStep (LocalTime tza tv) * msPerDay)⟩ := by
  have e0 : (JSDate.getFullYear tza ⟨some tv⟩).map (· + 1) =
      some (YearFromTime (LocalTime tza tv) + 1) := rfl
  have e : MakeDay (YearFromTime (LocalTime tza tv) + 1) (MonthFromTime (LocalTime tza tv))
      (DateFromTime (LocalTime tza tv)) =
      Day (LocalTime tza tv) + yearStep (LocalTime tza tv) := by
    unfold yearStep; omega
  rw [e0, setFullYear_some, e, MakeDate_add_days, UTC_LocalTime_add]

theorem renewalDateDefault_daily (tza D : Int) (doc : Subscription)
    (hs : doc.startDate = some (JSDate.ofTime D)) (hf : doc.frequency = some "daily") :
    renewalDateDefault tza doc = some ⟨TimeClip (D + 1 * msPerDay)⟩ := by
  unfold renewalDateDefault
  rw [hs]
  simp only [hf]
  rw [if_neg (by decide), if_pos (by decide)]
  exact congrArg some (setDate_getDate_add tza D 1)

theorem renewalDateDefault_weekly (tza D : Int) (doc : Subscription)
    (hs : doc.startDate = some (JSDate.ofTime D)) (hf : doc.frequency = some "weekly") :
    renewalDateDefault tza doc = some ⟨TimeClip (D + 7 * msPerDay)⟩ := by
  unfold renewalDateDefault
  rw [hs]
  simp only [hf]
  rw [if_neg (by decide), if_neg (by decide), if_pos (by decide)]
  exact congrArg some (setDate_getDate_add tza D 7)

theorem renewalDateDefault_monthly (tza D : Int) (doc : Subscription)
    (hs : doc.startDate = some (JSDate.ofTime D)) (hf : doc.frequency = some "monthly") :
    renewalDateDefault tza doc = some ⟨TimeClip (D + daysInMonth (InLeapYear (LocalTime tza D))
        (MonthFromTime (LocalTime tza D)) * msPerDay)⟩ := by
  unfold renewalDateDefault
  rw [hs]
  simp only [hf]
  rw [if_neg (by decide), if_neg (by decide), if_neg (by decide), if_pos (by decide)]
  exact congrArg some (setMonth_getMonth_succ tza D)

theorem renewalDateDefault_yearly (tza D : Int) (doc : Subscription)
    (hs : doc.startDate = some (JSDate.ofTime D)) (hf : doc.frequency = some "yearly") :
    renewalDateDefault tza doc = some ⟨TimeClip (D + yearStep (LocalTime tza D) * msPerDay)⟩ := by
  unfold renewalDateDefault
  rw [hs]
  simp only [hf]
  rw [if_neg (by decide), if_neg (by decide), if_neg (by decide), if_neg (by decide),
    if_pos (by decide)]
  exact congrArg some (setFullYear_getFullYear_succ tza D)

theorem TimeClip_of_range (t : Int) (h0 : -maxTime ≤ t) (h1 : t ≤ maxTime) :
    TimeClip t = some t := by
  unfold TimeClip
  rw [if_neg]
  omega

theorem TimeClip_eq_some (t u : Int) (h : TimeClip t = some u) : u = t := by
  unfold TimeClip at h
  split_ifs at h
  simpa using h.symm

/-! ## The lifecycle pass -/

/-- C1: a subscription whose renewal date is present and earlier than `now`
has status `expired` after the lifecycle pass, whatever its status was. -/
theorem C1_past_renewal_expires (doc : Subscription) (now t : Int)
    (hr : doc.renewalDate = some (JSDate.ofTime t)) (hlt : t < now) :
    (preSave doc now).status = "expired" := by
  unfold preSave
  rw [hr]
  simp [JSDate.ofTime, numLt, hlt]

theorem C1_past_renewal_expires_witness :
    (preSave exampleDoc 3000).status = "expired" :=
  C1_past_renewal_expires exampleDoc 3000 2000 rfl (by decide)

theorem preSave_eq_of_not_past (doc : Subscription) (now : Int)
    (h : ∀ t, doc.renewalDate = some (JSDate.ofTime t) → now ≤ t) : preSave doc now = doc := by
  unfold preSave
  cases hr : doc.renewalDate with
  | none => rfl
  | some r =>
    obtain ⟨tv⟩ := r
    cases tv with
    | none => simp [numLt, numGt]
    | some t =>
      have hle := h t (by rw [hr]; rfl)
      have hn : ¬ t < now := by omega
      simp only [numLt, numGt, hn, decide_False, Bool.false_eq_true, if_false]
      split_ifs with hc
      · simp only [Bool.and_eq_true, beq_iff_eq] at hc
        cases doc
        simp_all
      · rfl

theorem preSave_status (doc : Subscription) (now : Int) :
    (preSave doc now).status = doc.status ∨ (preSave doc now).status = "expired" := by
  unfold preSave
  cases doc.renewalDate with
  | none => exact Or.inl rfl
  | some r =>
    simp only
    split_ifs with h1 h2
    · exact Or.inr rfl
    · simp only [Bool.and_eq_true, beq_iff_eq] at h2
      exact Or.inl h2.1.symm
    · exact Or.inl rfl

/-- C2: when the renewal date is absent or not earlier than `now`, the
lifecycle pass leaves the document, and so its status, unchanged; and in
every case the status after the pass is the status before it or `expired`. -/
theorem C2_status_unchanged (doc : Subscription) (now : Int) :
    ((∀ t, doc.renewalDate = some (JSDate.ofTime t) → now ≤ t) →
      preSave doc now = doc ∧ (preSave doc now).status = doc.status) ∧
    ((preSave doc now).status = doc.status ∨ (preSave doc now).status = "expired") := by
  refine ⟨fun h => ?_, preSave_status doc now⟩
  have e := preSave_eq_of_not_past doc now h
  exact ⟨e, by rw [e]⟩

theorem C2_status_unchanged_witness :
    preSave exampleDoc 1500 = exampleDoc ∧ (preSave exampleDoc 1500).status = exampleDoc.status :=
  (C2_status_unchanged exampleDoc 1500).1 (by
    intro t ht
    have : t = 2000 := by
      simp only [exampleDoc, JSDate.ofTime, Option.some.injEq, JSDate.mk.injEq] at ht
      exact ht.symm
    omega)

/-! ## The `renewalDate` default and validator -/

/-- C5: the default produces no renewal date for frequency `one-time`, for an
absent start date and for an absent frequency; with a start date and one of
the four recurring frequencies it produces a date. -/
theorem C5_default_presence (tza : Int) (doc : Subscription) :
    (doc.frequency = some "one-time" → renewalDateDefault tza doc = none) ∧
    (doc.startDate = none → renewalDateDefault tza doc = none) ∧
    (doc.frequency = none → renewalDateDefault tza doc = none) ∧
    (∀ s, doc.startDate = some s →
      (doc.frequency = some "daily" ∨ doc.frequency = some "weekly" ∨
        doc.frequency = some "monthly" ∨ doc.frequency = some "yearly") →
      (renewalDateDefault tza doc).isSome = true) := by
  refine ⟨fun hf => ?_, fun hs => ?_, fun hf => ?_, fun s hs hf => ?_⟩
  · unfold renewalDateDefault
    cases doc.startDate with
    | none => rfl
    | some s =>
      simp only [hf]
      rw [if_pos (by decide)]
  · unfold renewalDateDefault
    rw [hs]
  · unfold renewalDateDefault
    cases doc.startDate with
    | none => rfl
    | some s =>
      simp only [hf]
      rw [if_pos (by decide)]
  · unfold renewalDateDefault
    rw [hs]
    rcases hf with hf | hf | hf | hf <;> simp only [hf]
    · rw [if_neg (by decide), if_pos (by decide)]; rfl
    · rw [if_neg (by decide), if_neg (by decide), if_pos (by decide)]; rfl
    · rw [if_neg (by decide), if_neg (by decide), if_neg (by decide), if_pos (by decide)]; rfl
    · rw [if_neg (by decide), if_neg (by decide), if_neg (by decide), if_neg (by decide),
        if_pos (by decide)]; rfl

theorem C5_default_presence_witness :
    renewalDateDefault 0 oneTimeDoc = none ∧ (renewalDateDefault 0 jan31Doc).isSome = true :=
  ⟨(C5_default_presence 0 oneTimeDoc).1 rfl,
   (C5_default_presence 0 jan31Doc).2.2.2 _ rfl (Or.inr (Or.inr (Or.inl rfl)))⟩

theorem numGt_ofTime (a b : Int) : numGt (some a) (some b) = decide (b < a) := rfl

/-- C7: the model's renewal-date validator accepts a supplied date exactly
when it is strictly after the start date and strictly after `now`; when it
rejects, the save fails with the message of the `renewalDate` path. -/
theorem C7_renewalDate_validator (doc : Subscription) (r s now : Int)
    (hs : doc.startDate = some (JSDate.ofTime s)) :
    (renewalDateValidator doc (JSDate.ofTime r) now = true ↔ (s < r ∧ now < r)) ∧
    (doc.renewalDate = some (JSDate.ofTime r) →
      renewalDateValidator doc (JSDate.ofTime r) now = false →
      ∃ errors, save doc now = .error errors ∧
        ("renewalDate", "Renewal Date must be in the future and after Start Date") ∈ errors) := by
  constructor
  · unfold renewalDateValidator
    rw [hs]
    simp only [JSDate.ofTime, dateToNumber, numGt_ofTime, Bool.and_eq_true, decide_eq_true_eq]
    tauto
  · intro hr hv
    have hmem : ("renewalDate", "Renewal Date must be in the future and after Start Date") ∈
        validateDatePaths doc now := by
      unfold validateDatePaths
      rw [hr]
      simp only [hv, Bool.false_eq_true, if_false]
      exact List.mem_append_right _ (List.mem_singleton.mpr rfl)
    refine ⟨validateDatePaths doc now, ?_, hmem⟩
    unfold save
    rw [if_neg]
    intro he
    rw [List.isEmpty_iff] at he
    rw [he] at hmem
    exact absurd hmem (List.not_mem_nil _)

theorem C7_renewalDate_validator_witness :
    renewalDateValidator exampleDoc (JSDate.ofTime 2000) 1500 = true ∧
    ∃ errors, save exampleDoc 3000 = .error errors ∧
      ("renewalDate", "Renewal Date must be in the future and after Start Date") ∈ errors :=
  ⟨(C7_renewalDate_validator exampleDoc 2000 1000 1500 rfl).1.mpr (by decide),
   (C7_renewalDate_validator exampleDoc 2000 1000 3000 rfl).2 rfl (by decide)⟩

/-! ## Derived renewal dates -/

/-- Calendar fields of the local time `t` moved by the length of its month,
when the day of the month exists in the following month. -/
theorem next_month_fields (t : Int) (hday : DateFromTime t ≤ daysInFollowingMonth t) :
    (if MonthFromTime t = 11 then
        YearFromTime (t + daysInMonth (InLeapYear t) (MonthFromTime t) * msPerDay) =
          YearFromTime t + 1 ∧
        MonthFromTime (t + daysInMonth (InLeapYear t) (MonthFromTime t) * msPerDay) = 0
      else
        YearFromTime (t + daysInMonth (InLeapYear t) (MonthFromTime t) * msPerDay) =
          YearFromTime t ∧
        MonthFromTime (t + daysInMonth (InLeapYear t) (MonthFromTime t) * msPerDay) =
          MonthFromTime t + 1) ∧
    DateFromTime (t + daysInMonth (InLeapYear t) (MonthFromTime t) * msPerDay) =
      DateFromTime t ∧
    TimeWithinDay (t + daysInMonth (InLeapYear t) (MonthFromTime t) * msPerDay) =
      TimeWithinDay t := by
  obtain ⟨hm0, hm1⟩ := MonthFromTime_bounds t
  obtain ⟨hd0, _⟩ := DateFromTime_bounds t
  obtain ⟨hw0, hw1⟩ := TimeWithinDay_bounds t
  rw [← MakeDate_add_days]
  obtain ⟨hDay, hTime⟩ := Day_MakeDate
    (Day t + daysInMonth (InLeapYear t) (MonthFromTime t)) (TimeWithinDay t) hw0 hw1
  have hnext := MakeDay_next_month t
  unfold daysInFollowingMonth at hday
  refine ⟨?_, ?_, hTime⟩
  · split_ifs with h11
    · rw [if_pos h11] at hday
      have e1 : (MonthFromTime t + 1) / 12 = 1 := by omega
      have e2 : (MonthFromTime t + 1) % 12 = 0 := by omega
      have hf := fields_of_Day (MakeDate (Day t + daysInMonth (InLeapYear t) (MonthFromTime t))
        (TimeWithinDay t)) (YearFromTime t + 1) 0 (DateFromTime t) (le_refl _) (by omega) hd0 hday
        (by rw [hDay, ← hnext]; unfold MakeDay; simp only [e1, e2])
      exact ⟨hf.1, hf.2.1⟩
    · rw [if_neg h11] at hday
      have hf := fields_of_Day (MakeDate (Day t + daysInMonth (InLeapYear t) (MonthFromTime t))
        (TimeWithinDay t)) (YearFromTime t) (MonthFromTime t + 1) (DateFromTime t)
        (by omega) (by omega) hd0 hday
        (by rw [hDay, ← hnext, MakeDay_of_month _ _ _ (by omega) (by omega)])
      exact ⟨hf.1, hf.2.1⟩
  · by_cases h11 : MonthFromTime t = 11
    · rw [if_pos h11] at hday
      have e1 : (MonthFromTime t + 1) / 12 = 1 := by omega
      have e2 : (MonthFromTime t + 1) % 12 = 0 := by omega
      exact (fields_of_Day (MakeDate (Day t + daysInMonth (InLeapYear t) (MonthFromTime t))
        (TimeWithinDay t)) (YearFromTime t + 1) 0 (DateFromTime t) (le_refl _) (by omega) hd0 hday
        (by rw [hDay, ← hnext]; unfold MakeDay; simp only [e1, e2])).2.2
    · rw [if_neg h11] at hday
      exact (fields_of_Day (MakeDate (Day t + daysInMonth (InLeapYear t) (MonthFromTime t))
        (TimeWithinDay t)) (YearFromTime t) (MonthFromTime t + 1) (DateFromTime t)
        (by omega) (by omega) hd0 hday
        (by rw [hDay, ← hnext, MakeDay_of_month _ _ _ (by omega) (by omega)])).2.2

theorem applyDefaults_renewalDate (tza : Int) (doc : Subscription)
    (hn : doc.renewalDate = none) :
    (applyDefaults tza doc).renewalDate = renewalDateDefault tza doc := by
  unfold applyDefaults
  rw [hn]

theorem daysInMonth_other_year (l l' : Bool) (m : Int) (hm0 : 0 ≤ m) (hm1 : m ≤ 11) :
    (m ≠ 1 → daysInMonth l m = daysInMonth l' m) ∧
      (m = 1 → 28 ≤ daysInMonth l' m ∧ daysInMonth l m ≤ 29) := by
  unfold daysInMonth
  cases l <;> cases l' <;> interval_cases m <;> decide

/-- Calendar fields of the local time `t` moved by `yearStep t` days, when `t`
is not on 29 February. -/
theorem next_year_fields (t : Int) (hfeb : ¬ (MonthFromTime t = 1 ∧ DateFromTime t = 29)) :
    YearFromTime (t + yearStep t * msPerDay) = YearFromTime t + 1 ∧
    MonthFromTime (t + yearStep t * msPerDay) = MonthFromTime t ∧
    DateFromTime (t + yearStep t * msPerDay) = DateFromTime t ∧
    TimeWithinDay (t + yearStep t * msPerDay) = TimeWithinDay t := by
  obtain ⟨hm0, hm1⟩ := MonthFromTime_bounds t
  obtain ⟨hd0, hd1⟩ := DateFromTime_bounds t
  obtain ⟨hw0, hw1⟩ := TimeWithinDay_bounds t
  rw [← MakeDate_add_days]
  obtain ⟨hDay, hTime⟩ := Day_MakeDate (Day t + yearStep t) (TimeWithinDay t) hw0 hw1
  obtain ⟨hi1, hi2⟩ := daysInMonth_other_year (InLeapYear t) (isLeapYear (YearFromTime t + 1))
    (MonthFromTime t) hm0 hm1
  have hlen : DateFromTime t ≤ daysInMonth (isLeapYear (YearFromTime t + 1)) (MonthFromTime t) := by
    by_cases h1 : MonthFromTime t = 1
    · have := hi2 h1
      have : DateFromTime t ≠ 29 := fun h => hfeb ⟨h1, h⟩
      omega
    · rw [← hi1 h1]; exact hd1
  have hf := fields_of_Day (MakeDate (Day t + yearStep t) (TimeWithinDay t)) (YearFromTime t + 1)
    (MonthFromTime t) (DateFromTime t) hm0 hm1 hd0 hlen
    (by rw [hDay, ← MakeDay_of_month _ _ _ hm0 hm1]; unfold yearStep; omega)
  exact ⟨hf.1, hf.2.1, hf.2.2, hTime⟩

theorem renewalDateDefaultIn_fixed (tza : Int) (doc : Subscription) :
    renewalDateDefaultIn (TimeZone.fixed tza) doc = renewalDateDefault tza doc := rfl

/-- With a constant offset, and a default that does not return an Invalid
Date, building a document with the cast gives the document of
`applyDefaults` and no error. -/
theorem applyDefaultsIn_fixed (tza : Int) (doc : Subscription)
    (h : renewalDateDefault tza doc ≠ some ⟨none⟩) :
    applyDefaultsIn (TimeZone.fixed tza) doc = (applyDefaults tza doc, []) := by
  unfold applyDefaultsIn applyDefaults
  rw [renewalDateDefaultIn_fixed]
  cases hr : doc.renewalDate with
  | some r => rfl
  | none =>
    cases hd : renewalDateDefault tza doc with
    | none =>
      simp only
      cases doc
      simp only at hr
      rw [hr]
    | some value =>
      cases value with
      | mk tv =>
        cases tv with
        | none => exact absurd hd h
        | some t => rfl

/-- The call `d.setDate(d.getDate() + k)` in a zone: the local time moves by
`k` days and is read back as an instant. -/
theorem setDateIn_getDateIn_add (zone : TimeZone) (tv k : Int) :
    JSDate.setDateIn zone ⟨some tv⟩ ((JSDate.getDateIn zone ⟨some tv⟩).map (· + k)) =
      ⟨TimeClip (zone.UTC (zone.LocalTime tv + k * msPerDay))⟩ := by
  have e0 : (JSDate.getDateIn zone ⟨some tv⟩).map (· + k) =
      some (DateFromTime (zone.LocalTime tv) + k) := rfl
  have e1 : JSDate.setDateIn zone ⟨some tv⟩ (some (DateFromTime (zone.LocalTime tv) + k)) =
      ⟨TimeClip (zone.UTC (MakeDate (MakeDay (YearFromTime (zone.LocalTime tv))
        (MonthFromTime (zone.LocalTime tv)) (DateFromTime (zone.LocalTime tv) + k))
        (TimeWithinDay (zone.LocalTime tv))))⟩ := rfl
  rw [e0, e1, MakeDay_fields_add, MakeDate_add_days]

/-- The call `d.setMonth(d.getMonth() + 1)` in a zone: the local time moves by
the length of its month and is read back as an instant. -/
theorem setMonthIn_getMonthIn_succ (zone : TimeZone) (tv : Int) :
    JSDate.setMonthIn zone ⟨some tv⟩ ((JSDate.getMonthIn zone ⟨some tv⟩).map (· + 1)) =
      ⟨TimeClip (zone.UTC (zone.LocalTime tv + daysInMonth (InLeapYear (zone.LocalTime tv))
        (MonthFromTime (zone.LocalTime tv)) * msPerDay))⟩ := by
  have e0 : (JSDate.getMonthIn zone ⟨some tv⟩).map (· + 1) =
      some (MonthFromTime (zone.LocalTime tv) + 1) := rfl
  have e1 : JSDate.setMonthIn zone ⟨some tv⟩ (some (MonthFromTime (zone.LocalTime tv) + 1)) =
      ⟨TimeClip (zone.UTC (MakeDate (MakeDay (YearFromTime (zone.LocalTime tv))
        (MonthFromTime (zone.LocalTime tv) + 1) (DateFromTime (zone.LocalTime tv)))
        (TimeWithinDay (zone.LocalTime tv))))⟩ := rfl
  rw [e0, e1, MakeDay_next_month, MakeDate_add_days]

/-- The call `d.setFullYear(d.getFullYear() + 1)` in a zone: the local time
moves by `yearStep` days and is read back as an instant. -/
theorem setFullYearIn_getFullYearIn_succ (zone : TimeZone) (tv : Int) :
    JSDate.setFullYearIn zone ⟨some tv⟩ ((JSDate.getFullYearIn zone ⟨some tv⟩).map (· + 1)) =
      ⟨TimeClip (zone.UTC (zone.LocalTime tv + yearStep (zone.LocalTime tv) * msPerDay))⟩ := by
  have e0 : (JSDate.getFullYearIn zone ⟨some tv⟩).map (· + 1) =
      some (YearFromTime (zone.LocalTime tv) + 1) := rfl
  have e1 : JSDate.setFullYearIn zone ⟨some tv⟩ (some (YearFromTime (zone.LocalTime tv) + 1)) =
      ⟨TimeClip (zone.UTC (MakeDate (MakeDay (YearFromTime (zone.LocalTime tv) + 1)
        (MonthFromTime (zone.LocalTime tv)) (DateFromTime (zone.LocalTime tv)))
        (TimeWithinDay (zone.LocalTime tv))))⟩ := rfl
  have e : MakeDay (YearFromTime (zone.LocalTime tv) + 1) (MonthFromTime (zone.LocalTime tv))
      (DateFromTime (zone.LocalTime tv)) =
      Day (zone.LocalTime tv) + yearStep (zone.LocalTime tv) := by
    unfold yearStep; omega
  rw [e0, e1, e, MakeDate_add_days]

theorem renewalDateDefaultIn_daily (zone : TimeZone) (D : Int) (doc : Subscription)
    (hs : doc.startDate = some (JSDate.ofTime D)) (hf : doc.frequency = some "daily") :
    renewalDateDefaultIn zone doc =
      some ⟨TimeClip (zone.UTC (zone.LocalTime D + 1 * msPerDay))⟩ := by
  unfold renewalDateDefaultIn
  rw [hs]
  simp only [hf]
  rw [if_neg (by decide), if_pos (by decide)]
  exact congrArg some (setDateIn_getDateIn_add zone D 1)

theorem renewalDateDefaultIn_weekly (zone : TimeZone) (D : Int) (doc : Subscription)
    (hs : doc.startDate = some (JSDate.ofTime D)) (hf : doc.frequency = some "weekly") :
    renewalDateDefaultIn zone doc =
      some ⟨TimeClip (zone.UTC (zone.LocalTime D + 7 * msPerDay))⟩ := by
  unfold renewalDateDefaultIn
  rw [hs]
  simp only [hf]
  rw [if_neg (by decide), if_neg (by decide), if_pos (by decide)]
  exact congrArg some (setDateIn_getDateIn_add zone D 7)

theorem renewalDateDefaultIn_monthly (zone : TimeZone) (D : Int) (doc : Subscription)
    (hs : doc.startDate = some (JSDate.ofTime D)) (hf : doc.frequency = some "monthly") :
    renewalDateDefaultIn zone doc =
      some ⟨TimeClip (zone.UTC (zone.LocalTime D + daysInMonth (InLeapYear (zone.LocalTime D))
        (MonthFromTime (zone.LocalTime D)) * msPerDay))⟩ := by
  unfold renewalDateDefaultIn
  rw [hs]
  simp only [hf]
  rw [if_neg (by decide), if_neg (by decide), if_neg (by decide), if_pos (by decide)]
  exact congrArg some (setMonthIn_getMonthIn_succ zone D)

theorem renewalDateDefaultIn_yearly (zone : TimeZone) (D : Int) (doc : Subscription)
    (hs : doc.startDate = some (JSDate.ofTime D)) (hf : doc.frequency = some "yearly") :
    renewalDateDefaultIn zone doc =
      some ⟨TimeClip (zone.UTC (zone.LocalTime D + yearStep (zone.LocalTime D) * msPerDay))⟩ := by
  unfold renewalDateDefaultIn
  rw [hs]
  simp only [hf]
  rw [if_neg (by decide), if_neg (by decide), if_neg (by decide), if_neg (by decide),
    if_pos (by decide)]
  exact congrArg some (setFullYearIn_getFullYearIn_succ zone D)

/-- Building a document whose default computes the local time `w`: within the
Date range the renewal date is the instant the zone gives for `w`. -/
theorem applyDefaultsIn_of_local (zone : TimeZone) (doc : Subscription) (w : Int)
    (hn : doc.renewalDate = none)
    (hd : renewalDateDefaultIn zone doc = some ⟨TimeClip (zone.UTC w)⟩)
    (hlo : -maxTime ≤ zone.UTC w) (hhi : zone.UTC w ≤ maxTime) :
    applyDefaultsIn zone doc =
      ({ doc with renewalDate := some (JSDate.ofTime (zone.UTC w)) }, []) := by
  unfold applyDefaultsIn
  rw [hn, hd, TimeClip_of_range _ hlo hhi]
  rfl

/-- Building a document whose default computes the local time `w`: outside the
Date range the renewal date stays unset and the path has a cast error. -/
theorem applyDefaultsIn_of_local_invalid (zone : TimeZone) (doc : Subscription) (w : Int)
    (hn : doc.renewalDate = none)
    (hd : renewalDateDefaultIn zone doc = some ⟨TimeClip (zone.UTC w)⟩)
    (hout : zone.UTC w < -maxTime ∨ maxTime < zone.UTC w) :
    applyDefaultsIn zone doc = (doc, ["renewalDate"]) := by
  have hc : TimeClip (zone.UTC w) = none := by
    unfold TimeClip
    rw [if_pos hout]
  unfold applyDefaultsIn
  rw [hn, hd, hc]

theorem zone_LocalTime_UTC (zone : TimeZone) (w : Int)
    (h : zone.offsetAtUTC (zone.UTC w) = zone.offsetAtLocal w) :
    zone.LocalTime (zone.UTC w) = w := by
  unfold TimeZone.LocalTime
  rw [h]
  unfold TimeZone.UTC
  ring

theorem zone_UTC_LocalTime_add (zone : TimeZone) (D x : Int)
    (h : zone.offsetAtLocal (zone.LocalTime D + x) = zone.offsetAtUTC D) :
    zone.UTC (zone.LocalTime D + x) = D + x := by
  unfold TimeZone.UTC
  rw [h]
  unfold TimeZone.LocalTime
  ring

/-- C3 (amended): with no renewal date supplied and frequency `monthly`, for a
start date `D` whose day of the month, in the server's local time, exists in
the following month, the default computes the local time `w` with the same
day of the month and time of day in the following month.  When the instant
the zone gives for `w` lies within the Date range, the derived renewal date
is that instant and no error is recorded; it is outside the range exactly
when the renewal date stays unset with a cast error.  Where the zone's offset
at the derived instant is the one by which `w` was read back, the derived
date is `D` plus one calendar month in local time; where `w` is read back by
the offset in force at `D`, the derived date is `D` plus the days of the month
of `D` and is later than `D`. -/
theorem C3_monthly_renewal (zone : TimeZone) (D : Int) (doc : Subscription)
    (hn : doc.renewalDate = none) (hs : doc.startDate = some (JSDate.ofTime D))
    (hf : doc.frequency = some "monthly")
    (hday : DateFromTime (zone.LocalTime D) ≤ daysInFollowingMonth (zone.LocalTime D)) :
    ∃ w, IsNextMonthSameDay (zone.LocalTime D) w ∧
      (-maxTime ≤ zone.UTC w → zone.UTC w ≤ maxTime →
        applyDefaultsIn zone doc =
          ({ doc with renewalDate := some (JSDate.ofTime (zone.UTC w)) }, [])) ∧
      (zone.UTC w < -maxTime ∨ maxTime < zone.UTC w →
        applyDefaultsIn zone doc = (doc, ["renewalDate"])) ∧
      (zone.offsetAtUTC (zone.UTC w) = zone.offsetAtLocal w →
        IsPlusOneCalendarMonth zone D (zone.UTC w)) ∧
      (zone.offsetAtLocal w = zone.offsetAtUTC D →
        zone.UTC w = D + daysInMonth (InLeapYear (zone.LocalTime D))
          (MonthFromTime (zone.LocalTime D)) * msPerDay ∧ D < zone.UTC w) := by
  obtain ⟨hm0, hm1⟩ := MonthFromTime_bounds (zone.LocalTime D)
  obtain ⟨_, h28, h31, _⟩ := daysBeforeMonth_bounds (InLeapYear (zone.LocalTime D))
    (MonthFromTime (zone.LocalTime D)) hm0 hm1
  have hfields := next_month_fields (zone.LocalTime D) hday
  have hd := renewalDateDefaultIn_monthly zone D doc hs hf
  refine ⟨zone.LocalTime D + daysInMonth (InLeapYear (zone.LocalTime D))
    (MonthFromTime (zone.LocalTime D)) * msPerDay, hfields, ?_, ?_, ?_, ?_⟩
  · exact applyDefaultsIn_of_local zone doc _ hn hd
  · exact applyDefaultsIn_of_local_invalid zone doc _ hn hd
  · intro h
    unfold IsPlusOneCalendarMonth
    rw [zone_LocalTime_UTC zone _ h]
    exact hfields
  · intro h
    rw [zone_UTC_LocalTime_add zone D _ h]
    refine ⟨rfl, ?_⟩
    unfold msPerDay
    omega

theorem C3_monthly_renewal_witness :
    ∃ w, IsNextMonthSameDay ((TimeZone.fixed 0).LocalTime 1705276800000) w ∧
      (-maxTime ≤ (TimeZone.fixed 0).UTC w → (TimeZone.fixed 0).UTC w ≤ maxTime →
        applyDefaultsIn (TimeZone.fixed 0) jan15Doc =
          ({ jan15Doc with renewalDate := some (JSDate.ofTime ((TimeZone.fixed 0).UTC w)) },
            [])) ∧
      ((TimeZone.fixed 0).UTC w < -maxTime ∨ maxTime < (TimeZone.fixed 0).UTC w →
        applyDefaultsIn (TimeZone.fixed 0) jan15Doc = (jan15Doc, ["renewalDate"])) ∧
      ((TimeZone.fixed 0).offsetAtUTC ((TimeZone.fixed 0).UTC w) =
          (TimeZone.fixed 0).offsetAtLocal w →
        IsPlusOneCalendarMonth (TimeZone.fixed 0) 1705276800000 ((TimeZone.fixed 0).UTC w)) ∧
      ((TimeZone.fixed 0).offsetAtLocal w = (TimeZone.fixed 0).offsetAtUTC 1705276800000 →
        (TimeZone.fixed 0).UTC w = 1705276800000 +
          daysInMonth (InLeapYear ((TimeZone.fixed 0).LocalTime 1705276800000))
            (MonthFromTime ((TimeZone.fixed 0).LocalTime 1705276800000)) * msPerDay ∧
          1705276800000 < (TimeZone.fixed 0).UTC w) :=
  C3_monthly_renewal (TimeZone.fixed 0) 1705276800000 jan15Doc rfl rfl rfl (by decide)

theorem C3_counterexample :
    applyDefaultsIn (TimeZone.fixed 0) jan31Doc =
      ({ jan31Doc with renewalDate := some (JSDate.ofTime 1709337600000) }, []) ∧
    ¬ IsPlusOneCalendarMonth (TimeZone.fixed 0) 1706659200000 1709337600000 ∧
    MonthFromTime ((TimeZone.fixed 0).LocalTime 1706659200000) = 0 ∧
    DateFromTime ((TimeZone.fixed 0).LocalTime 1706659200000) = 31 ∧
    MonthFromTime ((TimeZone.fixed 0).LocalTime 1709337600000) = 2 ∧
    DateFromTime ((TimeZone.fixed 0).LocalTime 1709337600000) = 2 ∧
    DateFromTime ((TimeZone.fixed 0).LocalTime 8640000000000000) ≤
      daysInFollowingMonth ((TimeZone.fixed 0).LocalTime 8640000000000000) ∧
    applyDefaultsIn (TimeZone.fixed 0) (lastDayDoc "monthly") =
      (lastDayDoc "monthly", ["renewalDate"]) ∧
    DateFromTime (easternZone2024.LocalTime 1707550200000) ≤
      daysInFollowingMonth (easternZone2024.LocalTime 1707550200000) ∧
    applyDefaultsIn easternZone2024 dstMonthlyDoc =
      ({ dstMonthlyDoc with renewalDate := some (JSDate.ofTime 1710055800000) }, []) ∧
    TimeWithinDay (easternZone2024.LocalTime 1707550200000) = 9000000 ∧
    TimeWithinDay (easternZone2024.LocalTime 1710055800000) = 12600000 ∧
    ¬ IsPlusOneCalendarMonth easternZone2024 1707550200000 1710055800000 := by
  refine ⟨by decide, ?_, by decide, by decide, by decide, by decide, by decide, by decide,
    by decide, by decide, by decide, by decide, ?_⟩
  · unfold IsPlusOneCalendarMonth IsNextMonthSameDay
    decide
  · unfold IsPlusOneCalendarMonth IsNextMonthSameDay
    decide

/-- C4 (amended): with no renewal date supplied, frequency `daily` moves the
server's local time of the start date `D` by one day, `weekly` by seven days,
and `yearly`, when `D` is not on 29 February in local time, to the local time
with the same month, day and time of day in the following year.  When the
instant the zone gives for that local time lies within the Date range, the
derived renewal date is that instant and no error is recorded; it is outside
the range exactly when the renewal date stays unset with a cast error.  Where
the local time is read back by the offset in force at `D`, `daily` yields `D`
plus 86 400 000 ms and `weekly` `D` plus seven times that; where the zone's
offset at the derived instant is the one by which the local time was read
back, `yearly` yields `D` plus one calendar year in local time. -/
theorem C4_other_frequencies (zone : TimeZone) (D : Int) (doc : Subscription)
    (hn : doc.renewalDate = none) (hs : doc.startDate = some (JSDate.ofTime D)) :
    (doc.frequency = some "daily" →
      (-maxTime ≤ zone.UTC (zone.LocalTime D + msPerDay) →
        zone.UTC (zone.LocalTime D + msPerDay) ≤ maxTime →
        applyDefaultsIn zone doc =
          ({ doc with
              renewalDate := some (JSDate.ofTime (zone.UTC (zone.LocalTime D + msPerDay))) },
            [])) ∧
      (zone.UTC (zone.LocalTime D + msPerDay) < -maxTime ∨
          maxTime < zone.UTC (zone.LocalTime D + msPerDay) →
        applyDefaultsIn zone doc = (doc, ["renewalDate"])) ∧
      (zone.offsetAtLocal (zone.LocalTime D + msPerDay) = zone.offsetAtUTC D →
        zone.UTC (zone.LocalTime D + msPerDay) = D + msPerDay)) ∧
    (doc.frequency = some "weekly" →
      (-maxTime ≤ zone.UTC (zone.LocalTime D + 7 * msPerDay) →
        zone.UTC (zone.LocalTime D + 7 * msPerDay) ≤ maxTime →
        applyDefaultsIn zone doc =
          ({ doc with
              renewalDate :=
                some (JSDate.ofTime (zone.UTC (zone.LocalTime D + 7 * msPerDay))) },
            [])) ∧
      (zone.UTC (zone.LocalTime D + 7 * msPerDay) < -maxTime ∨
          maxTime < zone.UTC (zone.LocalTime D + 7 * msPerDay) →
        applyDefaultsIn zone doc = (doc, ["renewalDate"])) ∧
      (zone.offsetAtLocal (zone.LocalTime D + 7 * msPerDay) = zone.offsetAtUTC D →
        zone.UTC (zone.LocalTime D + 7 * msPerDay) = D + 7 * msPerDay)) ∧
    (doc.frequency = some "yearly" → ¬ IsFeb29 zone D →
      ∃ w, IsNextYearSameDay (zone.LocalTime D) w ∧
        (-maxTime ≤ zone.UTC w → zone.UTC w ≤ maxTime →
          applyDefaultsIn zone doc =
            ({ doc with renewalDate := some (JSDate.ofTime (zone.UTC w)) }, [])) ∧
        (zone.UTC w < -maxTime ∨ maxTime < zone.UTC w →
          applyDefaultsIn zone doc = (doc, ["renewalDate"])) ∧
        (zone.offsetAtUTC (zone.UTC w) = zone.offsetAtLocal w →
          IsPlusOneCalendarYear zone D (zone.UTC w))) := by
  refine ⟨fun hf => ?_, fun hf => ?_, fun hf hfeb => ?_⟩
  · have hd := renewalDateDefaultIn_daily zone D doc hs hf
    rw [one_mul] at hd
    exact ⟨applyDefaultsIn_of_local zone doc _ hn hd,
      applyDefaultsIn_of_local_invalid zone doc _ hn hd,
      zone_UTC_LocalTime_add zone D _⟩
  · have hd := renewalDateDefaultIn_weekly zone D doc hs hf
    exact ⟨applyDefaultsIn_of_local zone doc _ hn hd,
      applyDefaultsIn_of_local_invalid zone doc _ hn hd,
      zone_UTC_LocalTime_add zone D _⟩
  · have hd := renewalDateDefaultIn_yearly zone D doc hs hf
    have hfields := next_year_fields (zone.LocalTime D) hfeb
    refine ⟨zone.LocalTime D + yearStep (zone.LocalTime D) * msPerDay, hfields,
      applyDefaultsIn_of_local zone doc _ hn hd,
      applyDefaultsIn_of_local_invalid zone doc _ hn hd, ?_⟩
    intro h
    unfold IsPlusOneCalendarYear
    rw [zone_LocalTime_UTC zone _ h]
    exact hfields

theorem C4_other_frequencies_witness :
    applyDefaultsIn (TimeZone.fixed 0) dailyDoc =
      ({ dailyDoc with
          renewalDate := some (JSDate.ofTime ((TimeZone.fixed 0).UTC
            ((TimeZone.fixed 0).LocalTime 1705276800000 + msPerDay))) }, []) ∧
    (TimeZone.fixed 0).UTC ((TimeZone.fixed 0).LocalTime 1705276800000 + msPerDay) =
      1705276800000 + msPerDay ∧
    applyDefaultsIn (TimeZone.fixed 0) weeklyDoc =
      ({ weeklyDoc with
          renewalDate := some (JSDate.ofTime ((TimeZone.fixed 0).UTC
            ((TimeZone.fixed 0).LocalTime 1705276800000 + 7 * msPerDay))) }, []) ∧
    (TimeZone.fixed 0).UTC ((TimeZone.fixed 0).LocalTime 1705276800000 + 7 * msPerDay) =
      1705276800000 + 7 * msPerDay ∧
    ∃ w, IsNextYearSameDay ((TimeZone.fixed 0).LocalTime 1705276800000) w ∧
      (-maxTime ≤ (TimeZone.fixed 0).UTC w → (TimeZone.fixed 0).UTC w ≤ maxTime →
        applyDefaultsIn (TimeZone.fixed 0) yearlyDoc =
          ({ yearlyDoc with renewalDate := some (JSDate.ofTime ((TimeZone.fixed 0).UTC w)) },
            [])) ∧
      ((TimeZone.fixed 0).UTC w < -maxTime ∨ maxTime < (TimeZone.fixed 0).UTC w →
        applyDefaultsIn (TimeZone.fixed 0) yearlyDoc = (yearlyDoc, ["renewalDate"])) ∧
      ((TimeZone.fixed 0).offsetAtUTC ((TimeZone.fixed 0).UTC w) =
          (TimeZone.fixed 0).offsetAtLocal w →
        IsPlusOneCalendarYear (TimeZone.fixed 0) 1705276800000 ((TimeZone.fixed 0).UTC w)) :=
  ⟨((C4_other_frequencies (TimeZone.fixed 0) 1705276800000 dailyDoc rfl rfl).1 rfl).1
     (by decide) (by decide),
   ((C4_other_frequencies (TimeZone.fixed 0) 1705276800000 dailyDoc rfl rfl).1 rfl).2.2 rfl,
   ((C4_other_frequencies (TimeZone.fixed 0) 1705276800000 weeklyDoc rfl rfl).2.1 rfl).1
     (by decide) (by decide),
   ((C4_other_frequencies (TimeZone.fixed 0) 1705276800000 weeklyDoc rfl rfl).2.1 rfl).2.2 rfl,
   (C4_other_frequencies (TimeZone.fixed 0) 1705276800000 yearlyDoc rfl rfl).2.2 rfl
     (by unfold IsFeb29; decide)⟩

theorem C4_counterexample :
    applyDefaultsIn (TimeZone.fixed 0) feb29Doc =
      ({ feb29Doc with renewalDate := some (JSDate.ofTime 1740787200000) }, []) ∧
    ¬ IsPlusOneCalendarYear (TimeZone.fixed 0) 1709164800000 1740787200000 ∧
    MonthFromTime ((TimeZone.fixed 0).LocalTime 1709164800000) = 1 ∧
    DateFromTime ((TimeZone.fixed 0).LocalTime 1709164800000) = 29 ∧
    MonthFromTime ((TimeZone.fixed 0).LocalTime 1740787200000) = 2 ∧
    DateFromTime ((TimeZone.fixed 0).LocalTime 1740787200000) = 1 ∧
    applyDefaultsIn easternZone2024 dstDailyDoc =
      ({ dstDailyDoc with renewalDate := some (JSDate.ofTime 1710086400000) }, []) ∧
    (1710086400000 : Int) ≠ 1710003600000 + msPerDay ∧
    applyDefaultsIn (TimeZone.fixed 0) (lastDayDoc "daily") =
      (lastDayDoc "daily", ["renewalDate"]) ∧
    applyDefaultsIn (TimeZone.fixed 0) (lastDayDoc "weekly") =
      (lastDayDoc "weekly", ["renewalDate"]) ∧
    applyDefaultsIn (TimeZone.fixed 0) (lastDayDoc "yearly") =
      (lastDayDoc "yearly", ["renewalDate"]) := by
  refine ⟨by decide, ?_, by decide, by decide, by decide, by decide, by decide, by decide,
    by decide, by decide, by decide⟩
  unfold IsPlusOneCalendarYear IsNextYearSameDay
  decide

/-! ## The invariant `renewalDate > startDate` -/

theorem numGt_eq_true (a b : Option Int) (h : numGt a b = true) :
    ∃ x y, a = some x ∧ b = some y ∧ y < x := by
  unfold numGt numLt at h
  cases a with
  | none => cases b <;> simp at h
  | some x =>
    cases b with
    | none => simp at h
    | some y => exact ⟨x, y, rfl, rfl, by simpa using h⟩

theorem renewalDateValidator_true (doc : Subscription) (r : JSDate) (now : Int)
    (h : renewalDateValidator doc r now = true) :
    ∃ tr ts, r = JSDate.ofTime tr ∧ doc.startDate = some (JSDate.ofTime ts) ∧ ts < tr ∧
      now < tr := by
  unfold renewalDateValidator at h
  rw [Bool.and_eq_true] at h
  obtain ⟨x, y, hx, hy, hxy⟩ := numGt_eq_true _ _ h.1
  obtain ⟨x', s, hx', hs, hlt⟩ := numGt_eq_true _ _ h.2
  obtain ⟨rtv⟩ := r
  simp only at hx hx'
  subst hx
  cases hsd : doc.startDate with
  | none => rw [hsd] at hs; simp [dateToNumber] at hs
  | some sd =>
    obtain ⟨stv⟩ := sd
    rw [hsd] at hs
    simp only [dateToNumber] at hs
    subst hs
    simp only [Option.some.injEq] at hx' hy
    subst hx' hy
    exact ⟨x, s, rfl, rfl, hlt, hxy⟩

theorem preSave_dates (doc : Subscription) (now : Int) :
    (preSave doc now).renewalDate = doc.renewalDate ∧
      (preSave doc now).startDate = doc.startDate := by
  unfold preSave
  split
  · split_ifs <;> exact ⟨rfl, rfl⟩
  · exact ⟨rfl, rfl⟩

theorem validateDatePaths_nil (doc : Subscription) (now : Int)
    (h : validateDatePaths doc now = []) :
    (∃ s, doc.startDate = some s ∧ startDateValidator s now = true) ∧
    (∀ r, doc.renewalDate = some r → renewalDateValidator doc r now = true) := by
  unfold validateDatePaths at h
  rw [List.append_eq_nil] at h
  obtain ⟨h1, h2⟩ := h
  constructor
  · cases hs : doc.startDate with
    | none => rw [hs] at h1; simp at h1
    | some s =>
      rw [hs] at h1
      refine ⟨s, rfl, ?_⟩
      by_contra hv
      simp [hv] at h1
  · intro r hr
    rw [hr] at h2
    by_contra hv
    simp [hv] at h2

theorem save_ok (doc doc' : Subscription) (now : Int) (h : save doc now = .ok doc') :
    validateDatePaths doc now = [] ∧ doc' = preSave doc now := by
  unfold save at h
  split_ifs at h with he
  · rw [List.isEmpty_iff] at he
    simp only [Except.ok.injEq] at h
    exact ⟨he, h.symm⟩

/-- The default's date for a recurring frequency is the start date moved
forward by a positive number of days, at most 366. -/
theorem renewalDateDefault_step (tza D : Int) (doc : Subscription)
    (hs : doc.startDate = some (JSDate.ofTime D))
    (hf : doc.frequency = some "daily" ∨ doc.frequency = some "weekly" ∨
      doc.frequency = some "monthly" ∨ doc.frequency = some "yearly") :
    ∃ k, 1 ≤ k ∧ k ≤ 366 ∧ renewalDateDefault tza doc = some ⟨TimeClip (D + k * msPerDay)⟩ := by
  rcases hf with hf | hf | hf | hf
  · exact ⟨1, by omega, by omega, renewalDateDefault_daily tza D doc hs hf⟩
  · exact ⟨7, by omega, by omega, renewalDateDefault_weekly tza D doc hs hf⟩
  · obtain ⟨hm0, hm1⟩ := MonthFromTime_bounds (LocalTime tza D)
    obtain ⟨_, h28, h31, _⟩ := daysBeforeMonth_bounds (InLeapYear (LocalTime tza D))
      (MonthFromTime (LocalTime tza D)) hm0 hm1
    exact ⟨_, by omega, by omega, renewalDateDefault_monthly tza D doc hs hf⟩
  · obtain ⟨hy0, hy1⟩ := yearStep_bounds (LocalTime tza D)
    exact ⟨_, by omega, by omega, renewalDateDefault_yearly tza D doc hs hf⟩

/-- C6: a renewal date that is present on a document accepted by the model is
strictly later than the start date.  The date derived by the default for a
recurring frequency is, when it is a valid date, strictly later than the start
date (and it is a valid date for every start date at least 366 days before the
end of the Date range), and a supplied date that passes the validator is
strictly later than the start date. -/
theorem C6_renewal_after_start :
    (∀ (doc doc' : Subscription) (now : Int), save doc now = .ok doc' →
      ∀ r, doc'.renewalDate = some r →
        ∃ tr ts, r = JSDate.ofTime tr ∧ doc'.startDate = some (JSDate.ofTime ts) ∧ ts < tr) ∧
    (∀ (tza D : Int) (doc : Subscription), doc.startDate = some (JSDate.ofTime D) →
      (doc.frequency = some "daily" ∨ doc.frequency = some "weekly" ∨
        doc.frequency = some "monthly" ∨ doc.frequency = some "yearly") →
      ∃ r, renewalDateDefault tza doc = some r ∧ (∀ t, r = JSDate.ofTime t → D < t) ∧
        (-maxTime ≤ D → D + 366 * msPerDay ≤ maxTime → ∃ t, r = JSDate.ofTime t)) ∧
    (∀ (doc : Subscription) (r : JSDate) (now : Int), renewalDateValidator doc r now = true →
      ∃ tr ts, r = JSDate.ofTime tr ∧ doc.startDate = some (JSDate.ofTime ts) ∧ ts < tr) := by
  refine ⟨?_, ?_, ?_⟩
  · intro doc doc' now hsave r hr
    obtain ⟨hnil, hdoc⟩ := save_ok doc doc' now hsave
    obtain ⟨hrd, hsd⟩ := preSave_dates doc now
    rw [hdoc, hrd] at hr
    rw [hdoc, hsd]
    obtain ⟨tr, ts, h1, h2, h3, _⟩ :=
      renewalDateValidator_true doc r now ((validateDatePaths_nil doc now hnil).2 r hr)
    exact ⟨tr, ts, h1, h2, h3⟩
  · intro tza D doc hs hf
    obtain ⟨k, hk1, hk2, hdef⟩ := renewalDateDefault_step tza D doc hs hf
    refine ⟨_, hdef, ?_, ?_⟩
    · intro t ht
      have htv : TimeClip (D + k * msPerDay) = some t := congrArg JSDate.tv ht
      have := TimeClip_eq_some _ _ htv
      unfold msPerDay at this
      omega
    · intro hlo hhi
      refine ⟨D + k * msPerDay, ?_⟩
      rw [TimeClip_of_range]
      · rfl
      · unfold msPerDay at *; omega
      · unfold msPerDay at *; omega
  · intro doc r now h
    obtain ⟨tr, ts, h1, h2, h3, _⟩ := renewalDateValidator_true doc r now h
    exact ⟨tr, ts, h1, h2, h3⟩

theorem C6_renewal_after_start_witness :
    (∃ tr ts, JSDate.ofTime 2000 = JSDate.ofTime tr ∧
      (preSave exampleDoc 1500).startDate = some (JSDate.ofTime ts) ∧ ts < tr) ∧
    (∃ r, renewalDateDefault 0 jan31Doc = some r ∧
      ∃ t, r = JSDate.ofTime t ∧ 1706659200000 < t) ∧
    (∃ tr ts, JSDate.ofTime 2000 = JSDate.ofTime tr ∧
      exampleDoc.startDate = some (JSDate.ofTime ts) ∧ ts < tr) :=
  ⟨C6_renewal_after_start.1 exampleDoc (preSave exampleDoc 1500) 1500 rfl
      (JSDate.ofTime 2000) (by decide),
   (C6_renewal_after_start.2.1 0 1706659200000 jan31Doc rfl
      (Or.inr (Or.inr (Or.inl rfl)))).elim
     (fun r h => ⟨r, h.1, (h.2.2 (by decide) (by decide)).elim
       (fun t ht => ⟨t, ht, h.2.1 t ht⟩)⟩),
   C6_renewal_after_start.2.2 exampleDoc (JSDate.ofTime 2000) 1500 (by decide)⟩

/-! ## Start-date validation -/

theorem startDateCustom_eq (tza s now : Int) :
    startDateCustom tza (JSDate.ofTime s) now =
      if numGt (TimeClip (UTC tza (MakeDate (Day (LocalTime tza s)) 0)))
          (TimeClip (UTC tza (MakeDate (Day (LocalTime tza now)) 0))) then
        some "Start date cannot be in the future"
      else none := rfl

/-- The middleware's start-date check accepts every start date that is not
later than `now`. -/
theorem startDateCustom_of_le (tza s now : Int) (h : s ≤ now) :
    startDateCustom tza (JSDate.ofTime s) now = none := by
  rw [startDateCustom_eq, if_neg]
  intro hgt
  obtain ⟨x, y, hx, hy, hlt⟩ := numGt_eq_true _ _ hgt
  have ex := TimeClip_eq_some _ _ hx
  have ey := TimeClip_eq_some _ _ hy
  unfold UTC MakeDate Day LocalTime msPerDay at ex ey
  omega

/-- The middleware's start-date check rejects a start date on a later local
day than `now`, in particular one that is a day or more in the future. -/
theorem startDateCustom_of_next_day (tza s now : Int) (h : now + msPerDay ≤ s)
    (hlo : -maxTime ≤ now - msPerDay) (hhi : s ≤ maxTime) :
    startDateCustom tza (JSDate.ofTime s) now = some "Start date cannot be in the future" := by
  rw [startDateCustom_eq, if_pos]
  rw [TimeClip_of_range, TimeClip_of_range]
  · unfold numGt numLt
    simp only [decide_eq_true_eq]
    unfold UTC MakeDate Day LocalTime msPerDay at *
    omega
  · unfold UTC MakeDate Day LocalTime msPerDay maxTime at *
    omega
  · unfold UTC MakeDate Day LocalTime msPerDay maxTime at *
    omega
  · unfold UTC MakeDate Day LocalTime msPerDay maxTime at *
    omega
  · unfold UTC MakeDate Day LocalTime msPerDay maxTime at *
    omega

/-- C8: a start date later than the current time is rejected by the model's
validator and the save fails with a validation error on the `startDate` path
(a start date at least one day ahead is also rejected by the request
validation, for field `startDate`); a start date that is not in the future is
accepted by the validator and by the request validation's check. -/
theorem C8_startDate_validation (tza : Int) (doc : Subscription) (s now : Int)
    (hs : doc.startDate = some (JSDate.ofTime s)) :
    (now < s →
      startDateValidator (JSDate.ofTime s) now = false ∧
      ∃ errors, save doc now = .error errors ∧
        ("startDate", "Start Date cannot be in the future") ∈ errors) ∧
    (now + msPerDay ≤ s → -maxTime ≤ now - msPerDay → s ≤ maxTime →
      startDateCustom tza (JSDate.ofTime s) now = some "Start date cannot be in the future") ∧
    (s ≤ now →
      startDateValidator (JSDate.ofTime s) now = true ∧
      startDateCustom tza (JSDate.ofTime s) now = none ∧
      ∀ message, ("startDate", message) ∉ validateDatePaths doc now) := by
  refine ⟨fun h => ?_, startDateCustom_of_next_day tza s now, fun h => ?_⟩
  · have hv : startDateValidator (JSDate.ofTime s) now = false := by
      unfold startDateValidator JSDate.ofTime numLe
      simp only [decide_eq_false_iff_not]
      omega
    have hmem : ("startDate", "Start Date cannot be in the future") ∈
        validateDatePaths doc now := by
      unfold validateDatePaths
      rw [hs]
      simp only [hv, Bool.false_eq_true, if_false]
      exact List.mem_append_left _ (List.mem_singleton.mpr rfl)
    refine ⟨hv, validateDatePaths doc now, ?_, hmem⟩
    unfold save
    rw [if_neg]
    intro he
    rw [List.isEmpty_iff] at he
    rw [he] at hmem
    exact absurd hmem (List.not_mem_nil _)
  · have hv : startDateValidator (JSDate.ofTime s) now = true := by
      unfold startDateValidator JSDate.ofTime numLe
      simp only [decide_eq_true_eq]
      exact h
    refine ⟨hv, startDateCustom_of_le tza s now h, ?_⟩
    intro message hmem
    unfold validateDatePaths at hmem
    rw [hs] at hmem
    simp only [hv, if_true, List.nil_append] at hmem
    cases hr : doc.renewalDate with
    | none => rw [hr] at hmem; simp at hmem
    | some r =>
      rw [hr] at hmem
      simp only at hmem
      split_ifs at hmem
      · simp at hmem
      · simp at hmem

theorem C8_startDate_validation_witness :
    (startDateValidator (JSDate.ofTime 1705363200000) 1705276800000 = false ∧
      ∃ errors, save futureStartDoc 1705276800000 = .error errors ∧
        ("startDate", "Start Date cannot be in the future") ∈ errors) ∧
    startDateCustom 0 (JSDate.ofTime 1705363200000) 1705276800000 =
      some "Start date cannot be in the future" ∧
    (startDateValidator (JSDate.ofTime 1000) 1500 = true ∧
      startDateCustom 0 (JSDate.ofTime 1000) 1500 = none ∧
      ∀ message, ("startDate", message) ∉ validateDatePaths exampleDoc 1500) :=
  ⟨(C8_startDate_validation 0 futureStartDoc 1705363200000 1705276800000 rfl).1 (by decide),
   (C8_startDate_validation 0 futureStartDoc 1705363200000 1705276800000 rfl).2.1
     (by decide) (by decide) (by decide),
   (C8_startDate_validation 0 exampleDoc 1000 1500 rfl).2.2 (by decide)⟩

/-! ## The list operations -/

theorem mem_find (rx : String → String → Bool) (collection : List Subscription)
    (filter : Filter) (sort : SortObject) (skip limit : Nat) (s : Subscription)
    (h : s ∈ find rx collection filter sort skip limit) :
    s ∈ collection ∧ matchesFilter rx filter s = true := by
  unfold find at h
  have h1 := List.mem_of_mem_drop (List.mem_of_mem_take h)
  have h2 := (List.perm_insertionSort (fun a b => sortLe sort a b = true) _).mem_iff.mp h1
  exact List.mem_filter.mp h2

theorem matchesFilter_user (rx : String → String → Bool) (f : Filter) (s : Subscription)
    (u : ObjectId) (hu : f.user = some u) (h : matchesFilter rx f s = true) : s.user = u := by
  unfold matchesFilter at h
  rw [hu] at h
  simp only [Bool.and_eq_true, beq_iff_eq] at h
  exact h.1.1.1.1.1.1

theorem buildFilterObject_user (query : Query) (userId : Option ObjectId) :
    (buildFilterObject query userId).user = userId := by
  unfold buildFilterObject
  cases userId <;> cases truthyStr query.name <;> cases truthyStr query.currency <;>
    cases truthyStr query.frequency <;> cases truthyStr query.category <;>
    cases truthyStr query.paymentMethod <;> cases truthyStr query.status <;> rfl

/-- C9: evaluation of `getSubscriptionsByUserId` for a non-admin principal and
another user's id: the request is answered with status 200 and that user's
subscriptions, not refused with 403. -/
theorem C9_listing_by_user_id_is_not_forbidden (rx : String → String → Bool) :
    bob.role = "user" ∧ bob._id ≠ alice._id ∧
    getSubscriptionsByUserId rx sampleDb bobListsAlice =
      .json 200
        { user := some (alice._id, "Alice", "alice@example.com")
          subscriptions := [aliceSubscription]
          pagination :=
            { currentPage := 1, totalPages := 1, totalItems := 1, itemsPerPage := 10,
              hasNextPage := false, hasPrevPage := false }
          filters := {}
          sortBy := "createdAt"
          sortOrder := "desc" } := by
  refine ⟨rfl, by decide, ?_⟩
  have hu : findUserById sampleDb.users bobListsAlice.paramsId = some alice := by decide
  have hq : bobListsAlice.query = {} := rfl
  have h1 : pageNumberOf ({} : Query).page = some 1 := by decide
  have h2 : pageSizeOf ({} : Query).limit = some 10 := by decide
  have hb : buildFilterObject {} (some bobListsAlice.paramsId) = { user := some alice._id } := by
    decide
  have hs : buildSortObject (some ((none : Option String).getD "createdAt"))
      (some ((none : Option String).getD "desc")) = ⟨"createdAt", -1⟩ := by decide
  have hf : find rx sampleDb.subscriptions { user := some alice._id } ⟨"createdAt", -1⟩
      ((1 - 1) * 10 : Int).toNat (Int.toNat 10) = [aliceSubscription] := rfl
  have hc : countDocuments rx sampleDb.subscriptions { user := some alice._id } = 1 := rfl
  unfold getSubscriptionsByUserId
  simp only [bobListsAlice] at hu hb ⊢
  rw [hu]
  simp only [hb]
  unfold listResponse
  rw [h1, h2]
  simp only [hs, hf, hc]
  rfl

theorem listResponse_subscriptions (rx : String → String → Bool) (db : Db) (query : Query)
    (filter : Filter) (user : Option (ObjectId × String × String)) (status : Nat)
    (data : ListData) (h : listResponse rx db query filter user = .json status data) :
    ∀ s ∈ data.subscriptions, s ∈ db.subscriptions ∧ matchesFilter rx filter s = true := by
  unfold listResponse at h
  cases hp : pageNumberOf query.page with
  | none => rw [hp] at h; simp at h
  | some n =>
    cases hl : pageSizeOf query.limit with
    | none => rw [hp, hl] at h; simp at h
    | some m =>
      rw [hp, hl] at h
      simp only [Outcome.json.injEq] at h
      obtain ⟨_, hd⟩ := h
      intro s hs
      rw [← hd] at hs
      exact mem_find rx _ _ _ _ _ s hs

theorem listResponse_json (rx : String → String → Bool) (db : Db) (query : Query)
    (filter : Filter) (user : Option (ObjectId × String × String)) (n m : Int)
    (hp : pageNumberOf query.page = some n) (hl : pageSizeOf query.limit = some m) :
    ∃ data, listResponse rx db query filter user = .json 200 data := by
  unfold listResponse
  rw [hp, hl]
  exact ⟨_, rfl⟩

/-- C10: for an authenticated principal, the filter built by
`getUserSubscriptions` carries `user` = the principal's id whatever the query
holds; with a numeric page and limit the request is answered with status 200,
and every record of a response belongs to the principal. -/
theorem C10_own_listing_is_scoped (rx : String → String → Bool) (db : Db) (req : Request)
    (p : User) (hp : req.user = some p) :
    (∀ query : Query, (buildFilterObject query (some p._id)).user = some p._id) ∧
    (∀ n m, pageNumberOf req.query.page = some n → pageSizeOf req.query.limit = some m →
      ∃ data, getUserSubscriptions rx db req = .json 200 data) ∧
    (∀ status data, getUserSubscriptions rx db req = .json status data →
      ∀ s ∈ data.subscriptions, s.user = p._id ∧ s ∈ db.subscriptions) := by
  refine ⟨fun query => buildFilterObject_user query _, ?_, ?_⟩
  · intro n m hn hm
    unfold getUserSubscriptions
    rw [hp]
    exact listResponse_json rx db req.query _ none n m hn hm
  · intro status data h s hs
    unfold getUserSubscriptions at h
    rw [hp] at h
    obtain ⟨hmem, hmatch⟩ := listResponse_subscriptions rx db req.query _ none status data h s hs
    exact ⟨matchesFilter_user rx _ s p._id (buildFilterObject_user _ _) hmatch, hmem⟩

theorem C10_own_listing_is_scoped_witness :
    (buildFilterObject { name := some "Streaming" } (some bob._id)).user = some bob._id ∧
    (∃ data, getUserSubscriptions (fun _ _ => true) sampleDb bobListsOwn = .json 200 data) ∧
    (∀ status data,
      getUserSubscriptions (fun _ _ => true) sampleDb bobListsOwn = .json status data →
      ∀ s ∈ data.subscriptions, s.user = bob._id ∧ s ∈ sampleDb.subscriptions) :=
  ⟨(C10_own_listing_is_scoped (fun _ _ => true) sampleDb bobListsOwn bob rfl).1 _,
   (C10_own_listing_is_scoped (fun _ _ => true) sampleDb bobListsOwn bob rfl).2.1 1 10
     (by decide) (by decide),
   (C10_own_listing_is_scoped (fun _ _ => true) sampleDb bobListsOwn bob rfl).2.2⟩

/-! ## Sort and filter construction -/

theorem buildFilterObject_eq (query : Query) (owner : Option ObjectId) :
    buildFilterObject query owner =
      { user := owner
        name := if truthyStr query.name then query.name else none
        currency := if truthyStr query.currency then query.currency else none
        frequency := if truthyStr query.frequency then query.frequency else none
        category := if truthyStr query.category then query.category else none
        paymentMethod := if truthyStr query.paymentMethod then query.paymentMethod else none
        status := if truthyStr query.status then query.status else none } := by
  unfold buildFilterObject
  cases owner <;> cases truthyStr query.name <;> cases truthyStr query.currency <;>
    cases truthyStr query.frequency <;> cases truthyStr query.category <;>
    cases truthyStr query.paymentMethod <;> cases truthyStr query.status <;> rfl

theorem truthyStr_iff (o : Option String) (v : String) :
    (if truthyStr o then o else none) = some v ↔ (o = some v ∧ v ≠ "") := by
  cases o with
  | none => simp [truthyStr]
  | some x =>
    by_cases hx : x = ""
    · subst hx
      simp [truthyStr]
      intro h; exact h.symm
    · simp [truthyStr, hx]
      intro h; subst h; exact hx

/-- A record matches a filter exactly when it satisfies every key present. -/
theorem matchesFilter_iff (rx : String → String → Bool) (f : Filter) (s : Subscription) :
    matchesFilter rx f s = true ↔
      ((∀ u, f.user = some u → s.user = u) ∧
       (∀ v, f.name = some v → rx v s.name = true) ∧
       (∀ v, f.currency = some v → s.currency = v) ∧
       (∀ v, f.frequency = some v → s.frequency = some v) ∧
       (∀ v, f.category = some v → s.category = v) ∧
       (∀ v, f.paymentMethod = some v → s.paymentMethod = v) ∧
       (∀ v, f.status = some v → s.status = v)) := by
  obtain ⟨u, n, c, fr, ca, pm, st⟩ := f
  unfold matchesFilter
  simp only [Bool.and_eq_true, and_assoc]
  refine and_congr ?_ (and_congr ?_ (and_congr ?_ (and_congr ?_ (and_congr ?_
    (and_congr ?_ ?_)))))
  · cases u <;> simp
  · cases n <;> simp
  · cases c <;> simp
  · cases fr <;> simp
  · cases ca <;> simp
  · cases pm <;> simp
  · cases st <;> simp

/-- C19: for a `sortBy` that is absent or outside the allow-list the sort
object is `createdAt` descending whatever `sortOrder` is; for a `sortBy` in the
allow-list it has that single key, ascending exactly when `sortOrder` is
`asc` and descending otherwise. -/
theorem C19_sort_fallback (sortBy sortOrder : Option String) :
    ((∀ key, sortBy = some key →
        key ∉ ["startDate", "renewalDate", "createdAt", "updatedAt", "name", "price"]) →
      buildSortObject sortBy sortOrder = ⟨"createdAt", -1⟩) ∧
    (∀ key, sortBy = some key →
      key ∈ ["startDate", "renewalDate", "createdAt", "updatedAt", "name", "price"] →
      (buildSortObject sortBy sortOrder).key = key ∧
      ((buildSortObject sortBy sortOrder).order = 1 ↔ sortOrder = some "asc") ∧
      ((buildSortObject sortBy sortOrder).order = -1 ↔ sortOrder ≠ some "asc")) := by
  constructor
  · intro h
    unfold buildSortObject
    cases sortBy with
    | none => rfl
    | some key =>
      simp only
      rw [if_pos (Or.inr (h key rfl))]
  · intro key hk hmem
    subst hk
    have hne : key ≠ "" := by
      intro he
      subst he
      revert hmem
      decide
    have hb : buildSortObject (some key) sortOrder =
        ⟨key, if sortOrder = some "asc" then 1 else -1⟩ := by
      unfold buildSortObject
      simp only
      rw [if_neg]
      intro hc
      rcases hc with hc | hc
      · exact hne hc
      · exact hc hmem
    rw [hb]
    refine ⟨rfl, ?_, ?_⟩
    · by_cases ho : sortOrder = some "asc" <;> simp [ho]
    · by_cases ho : sortOrder = some "asc" <;> simp [ho]

theorem C19_sort_fallback_witness :
    buildSortObject (some "owner") (some "asc") = ⟨"createdAt", -1⟩ ∧
    ((buildSortObject (some "price") (some "asc")).key = "price" ∧
      ((buildSortObject (some "price") (some "asc")).order = 1 ↔
        (some "asc" : Option String) = some "asc") ∧
      ((buildSortObject (some "price") (some "asc")).order = -1 ↔
        (some "asc" : Option String) ≠ some "asc")) :=
  ⟨(C19_sort_fallback (some "owner") (some "asc")).1 (by
      intro key hk
      have : key = "owner" := (Option.some.inj hk).symm
      subst this
      decide),
   (C19_sort_fallback (some "price") (some "asc")).2 "price" rfl (by decide)⟩

/-- C20: the filter built from a query and an optional owner id constrains
`user` exactly when an owner id is given and each of name, currency,
frequency, category, paymentMethod and status exactly when the query holds a
non-empty value for it, with that value; a record matches the filter exactly
when it satisfies every constraint present, and with no criteria and no owner
every record matches. -/
theorem C20_filter_construction (rx : String → String → Bool) (query : Query)
    (owner : Option ObjectId) :
    (buildFilterObject query owner).user = owner ∧
    (∀ v, (buildFilterObject query owner).name = some v ↔ (query.name = some v ∧ v ≠ "")) ∧
    (∀ v, (buildFilterObject query owner).currency = some v ↔
      (query.currency = some v ∧ v ≠ "")) ∧
    (∀ v, (buildFilterObject query owner).frequency = some v ↔
      (query.frequency = some v ∧ v ≠ "")) ∧
    (∀ v, (buildFilterObject query owner).category = some v ↔
      (query.category = some v ∧ v ≠ "")) ∧
    (∀ v, (buildFilterObject query owner).paymentMethod = some v ↔
      (query.paymentMethod = some v ∧ v ≠ "")) ∧
    (∀ v, (buildFilterObject query owner).status = some v ↔
      (query.status = some v ∧ v ≠ "")) ∧
    (∀ s : Subscription, matchesFilter rx (buildFilterObject query owner) s = true ↔
      ((∀ u, owner = some u → s.user = u) ∧
       (∀ v, query.name = some v → v ≠ "" → rx v s.name = true) ∧
       (∀ v, query.currency = some v → v ≠ "" → s.currency = v) ∧
       (∀ v, query.frequency = some v → v ≠ "" → s.frequency = some v) ∧
       (∀ v, query.category = some v → v ≠ "" → s.category = v) ∧
       (∀ v, query.paymentMethod = some v → v ≠ "" → s.paymentMethod = v) ∧
       (∀ v, query.status = some v → v ≠ "" → s.status = v))) ∧
    (∀ s : Subscription, matchesFilter rx (buildFilterObject {} none) s = true) := by
  rw [buildFilterObject_eq]
  refine ⟨rfl, fun v => truthyStr_iff _ v, fun v => truthyStr_iff _ v,
    fun v => truthyStr_iff _ v, fun v => truthyStr_iff _ v, fun v => truthyStr_iff _ v,
    fun v => truthyStr_iff _ v, ?_, ?_⟩
  · intro s
    rw [matchesFilter_iff]
    simp only [truthyStr_iff]
    constructor
    · rintro ⟨h1, h2, h3, h4, h5, h6, h7⟩
      exact ⟨h1, fun v a b => h2 v ⟨a, b⟩, fun v a b => h3 v ⟨a, b⟩, fun v a b => h4 v ⟨a, b⟩,
        fun v a b => h5 v ⟨a, b⟩, fun v a b => h6 v ⟨a, b⟩, fun v a b => h7 v ⟨a, b⟩⟩
    · rintro ⟨h1, h2, h3, h4, h5, h6, h7⟩
      exact ⟨h1, fun v a => h2 v a.1 a.2, fun v a => h3 v a.1 a.2, fun v a => h4 v a.1 a.2,
        fun v a => h5 v a.1 a.2, fun v a => h6 v a.1 a.2, fun v a => h7 v a.1 a.2⟩
  · intro s
    rfl

theorem C20_filter_construction_witness :
    (buildFilterObject { status := some "active" } (some bob._id)).user = some bob._id ∧
    ((buildFilterObject { status := some "active" } (some bob._id)).status = some "active") ∧
    matchesFilter (fun _ _ => true) (buildFilterObject { status := some "active" } (some bob._id))
      bobSubscription = true :=
  ⟨(C20_filter_construction (fun _ _ => true) { status := some "active" } (some bob._id)).1,
   ((C20_filter_construction (fun _ _ => true) { status := some "active" }
      (some bob._id)).2.2.2.2.2.2.1 "active").mpr ⟨rfl, by decide⟩,
   ((C20_filter_construction (fun _ _ => true) { status := some "active" }
      (some bob._id)).2.2.2.2.2.2.2.1 bobSubscription).mpr
     ⟨fun u hu => (by cases hu; rfl), fun v hv _ => (by cases hv),
      fun v hv _ => (by cases hv), fun v hv _ => (by cases hv), fun v hv _ => (by cases hv),
      fun v hv _ => (by cases hv), fun v hv _ => (by cases hv; rfl)⟩⟩

/-! ## Pagination -/

theorem ceilDiv_spec (a b : Int) (hb : 0 < b) :
    (ceilDiv a b - 1) * b < a ∧ a ≤ ceilDiv a b * b := by
  unfold ceilDiv
  have h1 := Int.emod_add_ediv (-a) b
  have h2 := Int.emod_nonneg (-a) (ne_of_gt hb)
  have h3 := Int.emod_lt_of_pos (-a) hb
  constructor <;> nlinarith

theorem ceilDiv_eq_ceil (a b : Int) (hb : 0 < b) : ceilDiv a b = ⌈(a : ℚ) / (b : ℚ)⌉ := by
  obtain ⟨h1, h2⟩ := ceilDiv_spec a b hb
  symm
  rw [Int.ceil_eq_iff]
  have hbq : (0 : ℚ) < (b : ℚ) := by exact_mod_cast hb
  constructor
  · rw [lt_div_iff₀ hbq]
    have : (((ceilDiv a b - 1) * b : Int) : ℚ) < (a : ℚ) := by exact_mod_cast h1
    push_cast at this
    linarith
  · rw [div_le_iff₀ hbq]
    have : ((a : Int) : ℚ) ≤ ((ceilDiv a b * b : Int) : ℚ) := by exact_mod_cast h2
    push_cast at this
    linarith

theorem lt_ceilDiv_iff (a b p : Int) (hb : 0 < b) : p < ceilDiv a b ↔ p * b < a := by
  obtain ⟨h1, h2⟩ := ceilDiv_spec a b hb
  constructor
  · intro h
    have : p ≤ ceilDiv a b - 1 := by omega
    nlinarith
  · intro h
    by_contra hc
    have : ceilDiv a b ≤ p := by omega
    nlinarith

theorem pageNumberOf_ge (page : Option String) (p : Int) (h : pageNumberOf page = some p) :
    1 ≤ p := by
  unfold pageNumberOf at h
  cases hp : parseInt (page.getD "1") with
  | nan => rw [hp] at h; simp [JSNumber.max1, JSNumber.toInt?] at h
  | finite n =>
    rw [hp] at h
    simp only [JSNumber.max1, JSNumber.toInt?, Option.some.injEq] at h
    omega
  | infinity negative =>
    rw [hp] at h
    cases negative
    · simp [JSNumber.max1, JSNumber.toInt?] at h
    · simp only [JSNumber.max1, JSNumber.toInt?, Option.some.injEq] at h
      omega

theorem pageSizeOf_bounds (limit : Option String) (l : Int) (h : pageSizeOf limit = some l) :
    1 ≤ l ∧ l ≤ 100 := by
  unfold pageSizeOf at h
  cases hp : parseInt (limit.getD "10") with
  | nan => rw [hp] at h; simp [JSNumber.max1, JSNumber.min100, JSNumber.toInt?] at h
  | finite n =>
    rw [hp] at h
    simp only [JSNumber.max1, JSNumber.min100, JSNumber.toInt?, Option.some.injEq] at h
    omega
  | infinity negative =>
    rw [hp] at h
    cases negative <;>
      simp only [JSNumber.max1, JSNumber.min100, JSNumber.toInt?, Option.some.injEq] at h <;>
      omega

/-- The response of the shared list code for a numeric page and limit. -/
theorem listResponse_eq (rx : String → String → Bool) (db : Db) (query : Query)
    (filter : Filter) (user : Option (ObjectId × String × String)) (p l : Int)
    (hp : pageNumberOf query.page = some p) (hl : pageSizeOf query.limit = some l) :
    ∃ data, listResponse rx db query filter user = .json 200 data ∧
      data.subscriptions = find rx db.subscriptions filter
        (buildSortObject (some (query.sortBy.getD "createdAt"))
          (some (query.sortOrder.getD "desc"))) ((p - 1) * l).toNat l.toNat ∧
      IsPaginationOf data.pagination (countDocuments rx db.subscriptions filter) p l := by
  obtain ⟨hl1, hl100⟩ := pageSizeOf_bounds _ _ hl
  unfold listResponse
  rw [hp, hl]
  refine ⟨_, rfl, rfl, rfl, rfl, rfl, ?_, ?_, ?_, ?_⟩
  · exact ceilDiv_eq_ceil _ _ (by omega)
  · simp
  · simp
  · simp only [decide_eq_true_eq]
    exact lt_ceilDiv_iff _ _ _ (by omega)

theorem getAllSubscriptions_eq (rx : String → String → Bool) (db : Db) (req : Request)
    (admin : User) (hu : req.user = some admin) (hr : admin.role = "admin") (data : ListData)
    (h : listResponse rx db req.query (buildFilterObject req.query) none = .json 200 data) :
    getAllSubscriptions rx db req =
      .json 200 { data with
        owners := data.subscriptions.map (fun s =>
          (findUserById db.users s.user).map (fun u => (u._id, u.name, u.email))) } := by
  unfold getAllSubscriptions
  rw [hu]
  simp only [hr, ne_eq, not_true_eq_false, if_false]
  rw [h]

/-- C16: for a numeric page and limit, each list operation that answers
reports `currentPage` = page, `itemsPerPage` = limit, `totalItems` = the
number of matching records, `totalPages` = ceil(total / limit),
`hasPrevPage` = (page > 1) and `hasNextPage` = (page < totalPages), which
holds exactly when page * limit < total; the page is at least 1 and the limit
lies in 1..100. -/
theorem C16_pagination_metadata (rx : String → String → Bool) (db : Db) (req : Request)
    (p l : Int) (hp : pageNumberOf req.query.page = some p)
    (hl : pageSizeOf req.query.limit = some l) :
    (1 ≤ p ∧ 1 ≤ l ∧ l ≤ 100) ∧
    (∀ admin, req.user = some admin → admin.role = "admin" →
      ∃ data, getAllSubscriptions rx db req = .json 200 data ∧
        IsPaginationOf data.pagination
          (countDocuments rx db.subscriptions (buildFilterObject req.query)) p l) ∧
    (∀ u, req.user = some u →
      ∃ data, getUserSubscriptions rx db req = .json 200 data ∧
        IsPaginationOf data.pagination
          (countDocuments rx db.subscriptions (buildFilterObject req.query (some u._id))) p l) ∧
    (∀ u target, req.user = some u → findUserById db.users req.paramsId = some target →
      ∃ data, getSubscriptionsByUserId rx db req = .json 200 data ∧
        IsPaginationOf data.pagination
          (countDocuments rx db.subscriptions
            (buildFilterObject req.query (some req.paramsId))) p l) := by
  obtain ⟨hl1, hl100⟩ := pageSizeOf_bounds _ _ hl
  refine ⟨⟨pageNumberOf_ge _ _ hp, hl1, hl100⟩, ?_, ?_, ?_⟩
  · intro admin hu hr
    obtain ⟨data, hd, _, hpg⟩ :=
      listResponse_eq rx db req.query (buildFilterObject req.query) none p l hp hl
    exact ⟨_, getAllSubscriptions_eq rx db req admin hu hr data hd, hpg⟩
  · intro u hu
    obtain ⟨data, hd, _, hpg⟩ :=
      listResponse_eq rx db req.query (buildFilterObject req.query (some u._id)) none p l hp hl
    refine ⟨data, ?_, hpg⟩
    unfold getUserSubscriptions
    rw [hu]
    exact hd
  · intro u target hu ht
    obtain ⟨data, hd, _, hpg⟩ :=
      listResponse_eq rx db req.query (buildFilterObject req.query (some req.paramsId))
        (some (target._id, target.name, target.email)) p l hp hl
    refine ⟨data, ?_, hpg⟩
    unfold getSubscriptionsByUserId
    rw [hu]
    simp only [ht]
    exact hd

theorem C16_pagination_metadata_witness :
    ((1 : Int) ≤ 1 ∧ (1 : Int) ≤ 10 ∧ (10 : Int) ≤ 100) ∧
    ∃ data, getUserSubscriptions (fun _ _ => true) sampleDb bobListsOwn = .json 200 data ∧
      IsPaginationOf data.pagination
        (countDocuments (fun _ _ => true) sampleDb.subscriptions
          (buildFilterObject bobListsOwn.query (some bob._id))) 1 10 :=
  ⟨(C16_pagination_metadata (fun _ _ => true) sampleDb bobListsOwn 1 10
      (by decide) (by decide)).1,
   (C16_pagination_metadata (fun _ _ => true) sampleDb bobListsOwn 1 10
      (by decide) (by decide)).2.2.1 bob rfl⟩

/-! ## Page contents -/

theorem pagesUpTo_slices {α : Type} (xs : List α) (l k : Nat) :
    pagesUpTo (fun p => (xs.drop ((p - 1) * l)).take l) k = xs.take (k * l) := by
  induction k with
  | zero => simp [pagesUpTo]
  | succ n ih =>
    unfold pagesUpTo
    rw [ih, Nat.add_sub_cancel, Nat.succ_mul, List.take_add]

theorem find_zero_all (rx : String → String → Bool) (collection : List Subscription)
    (filter : Filter) (sort : SortObject) :
    find rx collection filter sort 0 (countDocuments rx collection filter) =
      (collection.filter (matchesFilter rx filter)).insertionSort
        (fun a b => sortLe sort a b = true) := by
  unfold find countDocuments
  rw [List.drop_zero]
  apply List.take_of_length_le
  rw [(List.perm_insertionSort _ _).length_eq]

theorem find_eq_slice (rx : String → String → Bool) (collection : List Subscription)
    (filter : Filter) (sort : SortObject) (skip limit : Nat) :
    find rx collection filter sort skip limit =
      ((find rx collection filter sort 0 (countDocuments rx collection filter)).drop skip).take
        limit := by
  rw [find_zero_all]
  rfl

theorem length_find_zero (rx : String → String → Bool) (collection : List Subscription)
    (filter : Filter) (sort : SortObject) :
    (find rx collection filter sort 0 (countDocuments rx collection filter)).length =
      countDocuments rx collection filter := by
  rw [find_zero_all, (List.perm_insertionSort _ _).length_eq]
  rfl

theorem toNat_ceilDiv_mul (total l : Nat) (hl : 1 ≤ l) :
    total ≤ (ceilDiv (total : Int) (l : Int)).toNat * l := by
  obtain ⟨_, h2⟩ := ceilDiv_spec (total : Int) (l : Int) (by omega)
  have hnn : 0 ≤ ceilDiv (total : Int) (l : Int) := by
    by_contra hc
    have : ceilDiv (total : Int) (l : Int) ≤ -1 := by omega
    nlinarith
  have e : ((ceilDiv (total : Int) (l : Int)).toNat : Int) = ceilDiv (total : Int) (l : Int) :=
    Int.toNat_of_nonneg hnn
  have : ((total : Nat) : Int) ≤ (((ceilDiv (total : Int) (l : Int)).toNat * l : Nat) : Int) := by
    push_cast
    rw [e]
    exact h2
  exact_mod_cast this

/-- C17: with the matching records in sorted order, the page `p` for limit `l`
is the slice of the records at positions `(p-1)*l` to `(p-1)*l + l - 1` and has
`min(l, total - (p-1)*l)` records (none when `(p-1)*l` exceeds the total); the
pages 1 to `totalPages`, put end to end, are the sorted records, which are the
matching records each exactly once; a later page is non-empty exactly when
`p < totalPages`, the value of `hasNextPage`; and a response carries the page
of its page number and limit. -/
theorem C17_page_contents (rx : String → String → Bool) (collection : List Subscription)
    (filter : Filter) (sort : SortObject) (l : Nat) (hl : 1 ≤ l) :
    (find rx collection filter sort 0 (countDocuments rx collection filter)).Perm
      (collection.filter (matchesFilter rx filter)) ∧
    (∀ p : Nat, 1 ≤ p →
      find rx collection filter sort ((p - 1) * l) l =
        ((find rx collection filter sort 0 (countDocuments rx collection filter)).drop
          ((p - 1) * l)).take l ∧
      (find rx collection filter sort ((p - 1) * l) l).length =
        min l (countDocuments rx collection filter - (p - 1) * l)) ∧
    pagesUpTo (fun p => find rx collection filter sort ((p - 1) * l) l)
        (ceilDiv (countDocuments rx collection filter : Int) (l : Int)).toNat =
      find rx collection filter sort 0 (countDocuments rx collection filter) ∧
    (∀ p : Nat, 1 ≤ p →
      ((p : Int) < ceilDiv (countDocuments rx collection filter : Int) (l : Int) ↔
        find rx collection filter sort (p * l) l ≠ [])) ∧
    (∀ (users : List User) (query : Query) (user : Option (ObjectId × String × String))
      (p : Int), pageNumberOf query.page = some p → pageSizeOf query.limit = some (l : Int) →
      ∃ data, listResponse rx ⟨users, collection⟩ query filter user = .json 200 data ∧
        data.subscriptions = find rx collection filter
          (buildSortObject (some (query.sortBy.getD "createdAt"))
            (some (query.sortOrder.getD "desc"))) ((p.toNat - 1) * l) l ∧
        (data.pagination.hasNextPage = true ↔
          find rx collection filter
            (buildSortObject (some (query.sortBy.getD "createdAt"))
              (some (query.sortOrder.getD "desc"))) (p.toNat * l) l ≠ [])) := by
  have hlen := length_find_zero rx collection filter sort
  refine ⟨?_, ?_, ?_, ?_, ?_⟩
  · rw [find_zero_all]
    exact List.perm_insertionSort _ _
  · intro p _
    refine ⟨find_eq_slice rx collection filter sort _ _, ?_⟩
    rw [find_eq_slice, List.length_take, List.length_drop, hlen]
  · have e : (fun p => find rx collection filter sort ((p - 1) * l) l) =
        (fun p => ((find rx collection filter sort 0
          (countDocuments rx collection filter)).drop ((p - 1) * l)).take l) := by
      funext p
      exact find_eq_slice rx collection filter sort _ _
    rw [e, pagesUpTo_slices]
    apply List.take_of_length_le
    rw [hlen]
    exact toNat_ceilDiv_mul _ _ hl
  · intro p _
    rw [lt_ceilDiv_iff _ _ _ (by omega), find_eq_slice, Ne, List.take_eq_nil_iff,
      List.drop_eq_nil_iff, hlen]
    constructor
    · intro h hc
      have h' : p * l < countDocuments rx collection filter := by exact_mod_cast h
      omega
    · intro h
      have h' : p * l < countDocuments rx collection filter := by
        by_contra hc
        exact h (Or.inr (by omega))
      exact_mod_cast h'
  · intro users query user p hp hq
    obtain ⟨data, hd, hsub, hpg⟩ := listResponse_eq rx ⟨users, collection⟩ query filter user p
      (l : Int) hp hq
    have hp1 := pageNumberOf_ge _ _ hp
    have hlen' := length_find_zero rx collection filter
      (buildSortObject (some (query.sortBy.getD "createdAt"))
        (some (query.sortOrder.getD "desc")))
    refine ⟨data, hd, ?_, ?_⟩
    · rw [hsub]
      have e1 : ((p - 1) * (l : Int)).toNat = (p.toNat - 1) * l := by
        have : ((p - 1) * (l : Int)) = (((p.toNat - 1) * l : Nat) : Int) := by
          push_cast
          have : ((p.toNat - 1 : Nat) : Int) = p - 1 := by omega
          rw [this]
        rw [this, Int.toNat_natCast]
      rw [e1, Int.toNat_natCast]
    · obtain ⟨_, _, _, _, _, _, hnext⟩ := hpg
      rw [hnext, find_eq_slice, Ne, List.take_eq_nil_iff, List.drop_eq_nil_iff, hlen']
      have hpn : (p.toNat : Int) = p := Int.toNat_of_nonneg (by omega)
      constructor
      · intro h hc
        have h' : p.toNat * l < countDocuments rx collection filter := by
          have : ((p.toNat * l : Nat) : Int) < (countDocuments rx collection filter : Int) := by
            push_cast; rw [hpn]; exact h
          exact_mod_cast this
        omega
      · intro h
        have h' : p.toNat * l < countDocuments rx collection filter := by
          by_contra hc
          exact h (Or.inr (by omega))
        have : ((p.toNat * l : Nat) : Int) < (countDocuments rx collection filter : Int) := by
          exact_mod_cast h'
        push_cast at this
        rw [hpn] at this
        exact this

theorem C17_page_contents_witness :
    (find (fun _ _ => true) twentyFiveRecords { user := some bob._id } ⟨"createdAt", -1⟩
      ((1 - 1) * 10) 10).length = 10 ∧
    (find (fun _ _ => true) twentyFiveRecords { user := some bob._id } ⟨"createdAt", -1⟩
      ((3 - 1) * 10) 10).length = 5 ∧
    (∃ data, getUserSubscriptions (fun _ _ => true) twentyFiveDb (bobPage "1") = .json 200 data ∧
      data.subscriptions.length = 10 ∧ data.pagination.hasNextPage = true ∧
      data.pagination.hasPrevPage = false) ∧
    (∃ data, getUserSubscriptions (fun _ _ => true) twentyFiveDb (bobPage "3") = .json 200 data ∧
      data.subscriptions.length = 5 ∧ data.pagination.hasNextPage = false ∧
      data.pagination.hasPrevPage = true) := by
  have hc : countDocuments (fun _ _ => true) twentyFiveRecords { user := some bob._id } = 25 := by
    decide
  have h := C17_page_contents (fun _ _ => true) twentyFiveRecords { user := some bob._id }
    ⟨"createdAt", -1⟩ 10 (by decide)
  have h1 := (h.2.1 1 (by decide)).2
  have h3 := (h.2.1 3 (by decide)).2
  rw [hc] at h1 h3
  refine ⟨h1, h3, ?_, ?_⟩
  · obtain ⟨data, hd, hs, hn⟩ := h.2.2.2.2 [alice, bob] (bobPage "1").query none 1
      (by decide) (by decide)
    refine ⟨data, hd, ?_, ?_, ?_⟩
    · rw [hs]; exact h1
    · rw [hn]; decide
    · have := congrArg (fun o => match o with
        | Outcome.json _ d => d.pagination.hasPrevPage
        | _ => false) hd
      exact this.symm.trans (by decide)
  · obtain ⟨data, hd, hs, hn⟩ := h.2.2.2.2 [alice, bob] (bobPage "3").query none 3
      (by decide) (by decide)
    refine ⟨data, hd, ?_, ?_, ?_⟩
    · rw [hs]; exact h3
    · rw [← Bool.not_eq_true, hn]; decide
    · have := congrArg (fun o => match o with
        | Outcome.json _ d => d.pagination.hasPrevPage
        | _ => false) hd
      exact this.symm.trans (by decide)

/-! ## Page and limit normalisation -/

theorem digitValue_of_digit (c : Char) (h : isAsciiDigit c = true) :
    digitValue 10 c = some (c.toNat - 48) := by
  unfold isAsciiDigit at h
  simp only [Bool.and_eq_true, decide_eq_true_eq] at h
  unfold digitValue
  simp only
  rw [if_pos h]
  simp only
  rw [if_pos (by omega)]

theorem readDigits_of_digits (ds : List Char) (h : ds.all isAsciiDigit = true)
    (acc count : Nat) :
    readDigits 10 ds acc count =
      (ds.foldl (fun a c => a * 10 + (c.toNat - 48)) acc, count + ds.length) := by
  induction ds generalizing acc count with
  | nil => rfl
  | cons c cs ih =>
    rw [List.all_cons, Bool.and_eq_true] at h
    unfold readDigits
    rw [digitValue_of_digit c h.1]
    simp only
    rw [ih h.2]
    simp only [List.foldl_cons, List.length_cons]
    congr 1
    omega

theorem not_whiteSpace_of_digit (c : Char) (h : isAsciiDigit c = true) :
    isStrWhiteSpace c = false := by
  unfold isAsciiDigit at h
  simp only [Bool.and_eq_true, decide_eq_true_eq] at h
  unfold isStrWhiteSpace
  simp only [List.mem_cons, List.mem_singleton, List.not_mem_nil, or_false, Bool.or_eq_false_iff,
    decide_eq_false_iff_not, Bool.and_eq_false_iff]
  omega

theorem digit_ne_x (d : Char) (h : isAsciiDigit d = true) : ¬ (d = 'x' ∨ d = 'X') := by
  intro hc
  rcases hc with hc | hc <;> subst hc <;> revert h <;> decide

theorem digit_ne_sign (d : Char) (h : isAsciiDigit d = true) : d ≠ '-' ∧ d ≠ '+' := by
  constructor <;> intro hc <;> subst hc <;> revert h <;> decide

/-- On a string made of an optional sign and decimal digits, `parseInt` gives
the Number value of the signed decimal value. -/
theorem parseInt_of_signAndDigits (s : String) (hne : (signAndDigits s).2 ≠ [])
    (hd : (signAndDigits s).2.all isAsciiDigit = true) :
    parseInt s = numberOfInteger (signAndDigits s).1 (decimalValue (signAndDigits s).2) := by
  unfold signAndDigits at hne hd ⊢
  unfold parseInt
  cases hs : s.toList with
  | nil => rw [hs] at hne; exact absurd rfl hne
  | cons c rest =>
    rw [hs] at hne hd
    simp only at hne hd ⊢
    by_cases hm : c = '-'
    · subst hm
      rw [if_pos rfl] at hne hd ⊢
      simp only at hne hd ⊢
      have hw : isStrWhiteSpace '-' = false := by decide
      rw [List.dropWhile_cons_of_neg (by simp [hw])]
      simp only [if_true]
      have hr := readDigits_of_digits rest hd 0 0
      rcases rest with _ | ⟨d1, _ | ⟨d2, rest2⟩⟩
      · exact absurd rfl hne
      · simp only
        rw [hr]
        rfl
      · simp only [List.all_cons, Bool.and_eq_true] at hd
        have hx : ∀ x : Char, ¬ (x = '0' ∧ (d2 = 'x' ∨ d2 = 'X')) :=
          fun _ hc => digit_ne_x d2 hd.2.1 hc.2
        simp only [hx, if_false]
        rw [hr]
        rfl
    · rw [if_neg hm] at hne hd ⊢
      by_cases hp : c = '+'
      · subst hp
        rw [if_pos rfl] at hne hd ⊢
        simp only at hne hd ⊢
        have hw : isStrWhiteSpace '+' = false := by decide
        rw [List.dropWhile_cons_of_neg (by simp [hw])]
        simp only [if_true, if_neg hm]
        have hr := readDigits_of_digits rest hd 0 0
        rcases rest with _ | ⟨d1, _ | ⟨d2, rest2⟩⟩
        · exact absurd rfl hne
        · simp only
          rw [hr]
          rfl
        · simp only [List.all_cons, Bool.and_eq_true] at hd
          have hx : ∀ x : Char, ¬ (x = '0' ∧ (d2 = 'x' ∨ d2 = 'X')) :=
            fun _ hc => digit_ne_x d2 hd.2.1 hc.2
          simp only [hx, if_false]
          rw [hr]
          rfl
      · rw [if_neg hp] at hne hd ⊢
        simp only at hne hd ⊢
        have hc : isAsciiDigit c = true := by
          simp only [List.all_cons, Bool.and_eq_true] at hd
          exact hd.1
        have hw := not_whiteSpace_of_digit c hc
        rw [List.dropWhile_cons_of_neg (by simp [hw])]
        simp only [if_neg hm, if_neg hp]
        have hr := readDigits_of_digits (c :: rest) hd 0 0
        rcases rest with _ | ⟨d2, rest2⟩
        · simp only
          rw [hr]
          rfl
        · simp only [List.all_cons, Bool.and_eq_true] at hd
          have hx : ∀ x : Char, ¬ (x = '0' ∧ (d2 = 'x' ∨ d2 = 'X')) :=
            fun _ hc => digit_ne_x d2 hd.2.1 hc.2
          simp only [hx, if_false]
          rw [hr]
          rfl

theorem parseInt_of_isInt (s : String) (min : Int) (max : Option Int)
    (h : isInt s min max = true) :
    parseInt s = numberOfInteger (signAndDigits s).1 (decimalValue (signAndDigits s).2) ∧
      min ≤ (signAndDigits s).1 * (decimalValue (signAndDigits s).2 : Int) ∧
      ∀ m, max = some m → (signAndDigits s).1 * (decimalValue (signAndDigits s).2 : Int) ≤ m := by
  unfold isInt at h
  simp only [Bool.and_eq_true, Bool.not_eq_true', decide_eq_true_eq] at h
  obtain ⟨⟨⟨hne, hd⟩, hmin⟩, hmax⟩ := h
  have hne' : (signAndDigits s).2 ≠ [] := by
    intro hc
    rw [hc] at hne
    simp at hne
  refine ⟨parseInt_of_signAndDigits s hne' hd, hmin, ?_⟩
  intro m hm
  rw [hm] at hmax
  simpa using hmax

theorem doubleLimit_gt : 9007199254740992 < doubleLimit := by
  unfold doubleLimit
  norm_num

/-- Below 2^53 every natural number is a double. -/
theorem roundToDouble_of_lt (n : Nat) (h : n < 9007199254740992) : roundToDouble n = n := by
  have hs : doubleScale n n = 1 := by
    cases n with
    | zero => rfl
    | succ k =>
      unfold doubleScale
      rw [if_pos h]
  unfold roundToDouble
  simp only [hs, Nat.div_one, Nat.mod_one, Nat.mul_one]
  rw [if_neg]
  intro hc
  rcases hc with hc | ⟨_, hc, _⟩
  · omega
  · exact hc rfl

theorem numberOfInteger_of_lt (sign : Int) (n : Nat) (h : n < 9007199254740992) :
    numberOfInteger sign n = .finite (sign * (n : Int)) := by
  have hl := doubleLimit_gt
  unfold numberOfInteger
  rw [roundToDouble_of_lt n h, if_neg (by omega)]

theorem signAndDigits_sign (s : String) :
    (signAndDigits s).1 = 1 ∨ (signAndDigits s).1 = -1 := by
  unfold signAndDigits
  split
  · split_ifs <;> simp
  · simp

/-- The page size for a string whose number is not NaN lies in 1..100. -/
theorem pageSizeOf_of_number (s : String) (h : parseInt s ≠ .nan) :
    ∃ l, pageSizeOf (some s) = some l ∧ 1 ≤ l ∧ l ≤ 100 := by
  unfold pageSizeOf
  simp only [Option.getD_some]
  cases hp : parseInt s with
  | nan => exact absurd hp h
  | finite n => exact ⟨min 100 (max 1 n), rfl, by omega, by omega⟩
  | infinity negative =>
    cases negative
    · exact ⟨100, rfl, by omega, by omega⟩
    · exact ⟨1, rfl, by omega, by omega⟩

theorem numberOfInteger_ne_nan (sign : Int) (n : Nat) : numberOfInteger sign n ≠ .nan := by
  unfold numberOfInteger
  split_ifs <;> simp

theorem numberOfInt_of_nonneg (z : Int) (h0 : 0 ≤ z) :
    numberOfInt z = .infinity false ∨ ∃ k, numberOfInt z = .finite k ∧ 0 ≤ k := by
  have hz : ¬ z < 0 := by omega
  unfold numberOfInt
  rw [if_neg hz]
  unfold numberOfInteger
  split_ifs
  · left
    simp
  · right
    exact ⟨_, rfl, by rw [one_mul]; exact Int.natCast_nonneg _⟩

theorem numberOfInt_of_lt (z : Int) (h0 : 0 ≤ z) (h : z < 9007199254740992) :
    numberOfInt z = .finite z := by
  have hz : ¬ z < 0 := by omega
  unfold numberOfInt
  rw [if_neg hz, numberOfInteger_of_lt _ _ (by omega), one_mul]
  congr 1
  omega

/-- C18 (amended): an absent page gives page number 1 and an absent limit page
size 10.  A limit from which `parseInt` reads a number gives a page size in
1..100: `min(100, max(1, n))` for a finite `n` (100 above 100, 1 below 1).  A
page from which `parseInt` reads a finite `n` gives page number `max(1, n)`,
at least 1.  On an optional sign and decimal digits whose value is below 2^53
`parseInt` reads exactly that value.  Every limit that passes the check of
`validateSubscriptionQuery` gives a page size in 1..100; a page that passes
it gives an integer page number of at least 1 or is read as Infinity, and
below 2^53 it gives the page written.  Whenever page number and page size
are integers, `(page - 1) * limit` is a non-negative integer or Infinity, and
for a page number of at most 2^53 / 100 it is the exact product. -/
theorem C18_page_limit_normalisation (page limit : Option String) :
    (page = none → pageNumberOf page = some 1) ∧
    (limit = none → pageSizeOf limit = some 10) ∧
    (∀ s, limit = some s → parseInt s ≠ .nan →
      ∃ l, pageSizeOf limit = some l ∧ 1 ≤ l ∧ l ≤ 100) ∧
    (∀ s n, limit = some s → parseInt s = .finite n →
      pageSizeOf limit = some (min 100 (max 1 n)) ∧
      (100 < n → pageSizeOf limit = some 100) ∧ (n < 1 → pageSizeOf limit = some 1)) ∧
    (∀ s n, page = some s → parseInt s = .finite n →
      pageNumberOf page = some (max 1 n) ∧ 1 ≤ max 1 n) ∧
    (∀ s : String, (signAndDigits s).2 ≠ [] → (signAndDigits s).2.all isAsciiDigit = true →
      decimalValue (signAndDigits s).2 < 9007199254740992 →
      parseInt s = .finite ((signAndDigits s).1 * (decimalValue (signAndDigits s).2 : Int))) ∧
    (limitQueryValid limit = true → ∃ l, pageSizeOf limit = some l ∧ 1 ≤ l ∧ l ≤ 100) ∧
    (∀ s, page = some s → pageQueryValid page = true →
      ((∃ p, pageNumberOf page = some p ∧ 1 ≤ p) ∨ parseInt s = .infinity false) ∧
      (decimalValue (signAndDigits s).2 < 9007199254740992 →
        pageNumberOf page = some (decimalValue (signAndDigits s).2 : Int) ∧
          (1 : Int) ≤ (decimalValue (signAndDigits s).2 : Int))) ∧
    (∀ p l, pageNumberOf page = some p → pageSizeOf limit = some l →
      1 ≤ p ∧ 1 ≤ l ∧ l ≤ 100 ∧
      (skipOf p l = .infinity false ∨ ∃ k, skipOf p l = .finite k ∧ 0 ≤ k) ∧
      (p * 100 ≤ 9007199254740992 →
        skipOf p l = .finite ((p - 1) * l) ∧ 0 ≤ (p - 1) * l)) := by
  refine ⟨?_, ?_, ?_, ?_, ?_, ?_, ?_, ?_, ?_⟩
  · intro h; subst h; decide
  · intro h; subst h; decide
  · intro s hs hn
    subst hs
    exact pageSizeOf_of_number s hn
  · intro s n hs hn
    subst hs
    have e : pageSizeOf (some s) = some (min 100 (max 1 n)) := by
      unfold pageSizeOf
      simp only [Option.getD_some, hn, JSNumber.max1, JSNumber.min100, JSNumber.toInt?]
    refine ⟨e, ?_, ?_⟩
    · intro h
      rw [e]
      congr 1
      omega
    · intro h
      rw [e]
      congr 1
      omega
  · intro s n hs hn
    subst hs
    refine ⟨?_, le_max_left _ _⟩
    unfold pageNumberOf
    simp only [Option.getD_some, hn, JSNumber.max1, JSNumber.toInt?]
  · intro s hne hd hlt
    rw [parseInt_of_signAndDigits s hne hd, numberOfInteger_of_lt _ _ hlt]
  · intro h
    cases limit with
    | none => exact ⟨10, by decide, by decide, by decide⟩
    | some s =>
      obtain ⟨hn, _, _⟩ := parseInt_of_isInt s 1 (some 100) h
      exact pageSizeOf_of_number s (by rw [hn]; exact numberOfInteger_ne_nan _ _)
  · intro s hs h
    subst hs
    obtain ⟨hn, h1, _⟩ := parseInt_of_isInt s 1 none h
    have hsign : (signAndDigits s).1 = 1 := by
      rcases signAndDigits_sign s with hp | hm
      · exact hp
      · rw [hm] at h1
        have : (0 : Int) ≤ (decimalValue (signAndDigits s).2 : Int) := Int.natCast_nonneg _
        omega
    rw [hsign, one_mul] at h1
    rw [hsign] at hn
    refine ⟨?_, ?_⟩
    · by_cases hbig : doubleLimit ≤ roundToDouble (decimalValue (signAndDigits s).2)
      · right
        rw [hn]
        unfold numberOfInteger
        rw [if_pos hbig]
        simp
      · left
        refine ⟨max 1 (1 * (roundToDouble (decimalValue (signAndDigits s).2) : Int)), ?_,
          le_max_left _ _⟩
        unfold pageNumberOf
        simp only [Option.getD_some, hn]
        unfold numberOfInteger
        rw [if_neg hbig]
        rfl
    · intro hlt
      refine ⟨?_, h1⟩
      unfold pageNumberOf
      simp only [Option.getD_some, hn, numberOfInteger_of_lt _ _ hlt, one_mul,
        JSNumber.max1, JSNumber.toInt?]
      congr 1
      omega
  · intro p l hp hl
    have h1 := pageNumberOf_ge _ _ hp
    obtain ⟨h2, h3⟩ := pageSizeOf_bounds _ _ hl
    refine ⟨h1, h2, h3, ?_, ?_⟩
    · unfold skipOf
      rcases numberOfInt_of_nonneg (p - 1) (by omega) with hi | ⟨k, hk, hk0⟩
      · left
        rw [hi]
      · rw [hk]
        exact numberOfInt_of_nonneg (k * l) (by nlinarith)
    · intro hb
      have hnn : 0 ≤ (p - 1) * l := by nlinarith
      refine ⟨?_, hnn⟩
      unfold skipOf
      rw [numberOfInt_of_lt (p - 1) (by omega) (by omega)]
      exact numberOfInt_of_lt _ hnn (by nlinarith)

theorem C18_page_limit_normalisation_witness :
    pageNumberOf (none : Option String) = some 1 ∧
    pageSizeOf (none : Option String) = some 10 ∧
    (∃ l, pageSizeOf (some "250 items") = some l ∧ 1 ≤ l ∧ l ≤ 100) ∧
    pageSizeOf (some "250") = some 100 ∧
    pageNumberOf (some "0") = some (max 1 0) ∧
    parseInt "-12" = .finite (-1 * ((12 : Nat) : Int)) ∧
    (∃ l, pageSizeOf (some "25") = some l ∧ 1 ≤ l ∧ l ≤ 100) ∧
    pageNumberOf (some "3") = some ((3 : Nat) : Int) ∧
    skipOf 3 25 = .finite ((3 - 1) * 25) :=
  ⟨(C18_page_limit_normalisation none none).1 rfl,
   (C18_page_limit_normalisation none none).2.1 rfl,
   (C18_page_limit_normalisation none (some "250 items")).2.2.1 "250 items" rfl (by decide),
   ((C18_page_limit_normalisation none (some "250")).2.2.2.1 "250" 250 rfl (by decide)).2.1
     (by decide),
   ((C18_page_limit_normalisation (some "0") none).2.2.2.2.1 "0" 0 rfl (by decide)).1,
   (C18_page_limit_normalisation none none).2.2.2.2.2.1 "-12" (by decide) (by decide)
     (by decide),
   (C18_page_limit_normalisation none (some "25")).2.2.2.2.2.2.1 (by decide),
   (((C18_page_limit_normalisation (some "3") none).2.2.2.2.2.2.2.1 "3" rfl (by decide)).2
     (by decide)).1,
   (((C18_page_limit_normalisation (some "3") (some "25")).2.2.2.2.2.2.2.2 3 25 (by decide)
     (by decide)).2.2.2.2 (by decide)).1⟩

/-- Above 2^53 `parseInt` gives the nearest double, not the integer written. -/
theorem parseInt_rounds :
    parseInt "9007199254740993" = .finite 9007199254740992 ∧
    pageNumberOf (some "9007199254740993") = some 9007199254740992 := by
  decide

set_option maxRecDepth 100000 in
theorem C18_counterexample :
    pageNumberOf (some "abc") = none ∧ pageSizeOf (some "abc") = none ∧
    pageQueryValid (some pageOf310Digits) = true ∧
    parseInt pageOf310Digits = .infinity false ∧
    pageNumberOf (some pageOf310Digits) = none ∧
    pageQueryValid (some pageOf308Digits) = true ∧
    (pageNumberOf (some pageOf308Digits)).isSome = true ∧
    (pageNumberOf (some pageOf308Digits)).map (fun p => skipOf p 10) =
      some (.infinity false) := by
  decide

/-! ## Creating a subscription -/

theorem findUserById_id (users : List User) (id : ObjectId) (u : User)
    (h : findUserById users id = some u) : u._id = id := by
  unfold findUserById at h
  have := List.find?_some h
  simpa using this

theorem preSave_user (doc : Subscription) (now : Int) : (preSave doc now).user = doc.user := by
  unfold preSave
  split
  · split_ifs <;> rfl
  · rfl

theorem newSubscription_user (tza : Int) (body : SubscriptionBody) (owner : ObjectId)
    (now : Int) : (newSubscription tza body owner now).user = owner := by
  unfold newSubscription applyDefaults
  split <;> rfl

/-- A creation that succeeds stores one subscription, owned by the principal;
for an admin principal the body's user id is the admin's own. -/
theorem createSubscription_created (cfg : SchemaConfig) (tza : Int) (db : Db)
    (req : CreateRequest) (now : Int) (p : User) (hu : req.user = some p) (sub : Subscription)
    (db' : Db) (h : createSubscription cfg tza db req now = (.created sub, db')) :
    sub.user = p._id ∧ db'.subscriptions = db.subscriptions ++ [sub] ∧ db'.users = db.users ∧
      (p.role = "admin" → req.body.user = some p._id.toString) := by
  unfold createSubscription at h
  rw [hu] at h
  simp only at h
  split_ifs at h with h1 h2
  · simp at h
  · simp at h
  · cases hf : findUserById db.users p._id with
    | none => rw [hf] at h; simp at h
    | some user =>
      rw [hf] at h
      simp only at h
      have hid := findUserById_id _ _ _ hf
      split at h
      · rename_i saved hv hs
        simp only [Prod.mk.injEq, CreateOutcome.created.injEq] at h
        obtain ⟨hsub, hdb⟩ := h
        obtain ⟨_, hsaved⟩ := save_ok _ _ _ hs
        refine ⟨?_, ?_, ?_, ?_⟩
        · rw [← hsub, hsaved, preSave_user, newSubscription_user, hid]
        · rw [← hdb, hsub]
        · rw [← hdb]
        · intro hadmin
          by_contra hc
          exact h1 ⟨hadmin, fun e => hc e.symm⟩
      · simp at h
      · simp at h

/-- A request that passes the guards, finds the principal's record and
validates is answered with the stored subscription. -/
theorem createSubscription_succeeds (cfg : SchemaConfig) (tza : Int) (db : Db)
    (req : CreateRequest) (now : Int) (p found : User) (hu : req.user = some p)
    (hauth : ¬ (p.role = "admin" ∧ some p._id.toString ≠ req.body.user))
    (hreq : requiredFieldsPresent req.body = true)
    (hf : findUserById db.users p._id = some found)
    (hv : validateOtherPaths cfg db.users (newSubscription tza req.body p._id now) = [])
    (hd : validateDatePaths (newSubscription tza req.body p._id now) now = []) :
    createSubscription cfg tza db req now =
      (.created (preSave (newSubscription tza req.body p._id now) now),
        { db with subscriptions := db.subscriptions ++
            [preSave (newSubscription tza req.body p._id now) now] }) := by
  have hid := findUserById_id _ _ _ hf
  have hs : save (newSubscription tza req.body p._id now) now =
      .ok (preSave (newSubscription tza req.body p._id now) now) := by
    unfold save
    rw [hd]
    rfl
  unfold createSubscription
  rw [hu]
  simp only
  rw [if_neg hauth, if_neg (by simp [hreq]), hf]
  simp only [hid, hv, hs]

/-- C11 (amended): for an admin principal, a request whose `user` field is not
the admin's own id is refused with 403 and nothing is stored; with the
admin's own id the request passes the guard, and when it carries the required
fields, the admin's record is found and the document validates, the
subscription is created with the admin as owner.  Every subscription an admin
creates is owned by that admin. -/
theorem C11_admin_creation (cfg : SchemaConfig) (tza : Int) (db : Db) (req : CreateRequest)
    (now : Int) (a : User) (hu : req.user = some a) (hr : a.role = "admin") :
    (req.body.user ≠ some a._id.toString →
      createSubscription cfg tza db req now =
        (.next ⟨some 403,
          "You are not allowed to create subscriptions at this time. Please contact support for assistance."⟩,
          db)) ∧
    (req.body.user = some a._id.toString →
      ∀ found, requiredFieldsPresent req.body = true →
        findUserById db.users a._id = some found →
        validateOtherPaths cfg db.users (newSubscription tza req.body a._id now) = [] →
        validateDatePaths (newSubscription tza req.body a._id now) now = [] →
        ∃ sub, createSubscription cfg tza db req now =
            (.created sub, { db with subscriptions := db.subscriptions ++ [sub] }) ∧
          sub.user = a._id) ∧
    (∀ sub db', createSubscription cfg tza db req now = (.created sub, db') →
      sub.user = a._id ∧ req.body.user = some a._id.toString) := by
  refine ⟨?_, ?_, ?_⟩
  · intro hne
    unfold createSubscription
    rw [hu]
    simp only
    rw [if_pos ⟨hr, fun e => hne e.symm⟩]
  · intro heq found hreq hf hv hd
    refine ⟨_, createSubscription_succeeds cfg tza db req now a found hu ?_ hreq hf hv hd, ?_⟩
    · intro hc
      exact hc.2 heq.symm
    · rw [preSave_user, newSubscription_user]
  · intro sub db' h
    obtain ⟨h1, _, _, h4⟩ := createSubscription_created cfg tza db req now a hu sub db' h
    exact ⟨h1, h4 hr⟩

theorem C11_admin_creation_witness :
    createSubscription defaultConfig 0 usersDb ⟨some adminUser, creationBody bob._id.toString⟩
        1705300000000 =
      (.next ⟨some 403,
        "You are not allowed to create subscriptions at this time. Please contact support for assistance."⟩,
        usersDb) ∧
    ∃ sub, createSubscription defaultConfig 0 usersDb
          ⟨some adminUser, creationBody adminUser._id.toString⟩ 1705300000000 =
        (.created sub, { usersDb with subscriptions := usersDb.subscriptions ++ [sub] }) ∧
      sub.user = adminUser._id :=
  ⟨(C11_admin_creation defaultConfig 0 usersDb ⟨some adminUser, creationBody bob._id.toString⟩
      1705300000000 adminUser rfl rfl).1 (by decide),
   (C11_admin_creation defaultConfig 0 usersDb
      ⟨some adminUser, creationBody adminUser._id.toString⟩ 1705300000000 adminUser rfl rfl).2.1
      rfl adminUser (by decide) (by decide) (by decide) (by decide)⟩

theorem C11_counterexample :
    adminUser.role = "admin" ∧ findUserById usersDb.users bob._id = some bob ∧
    bob._id ≠ adminUser._id ∧
    (createSubscription defaultConfig 0 usersDb ⟨some adminUser, creationBody bob._id.toString⟩
        1705300000000).1 =
      .next ⟨some 403,
        "You are not allowed to create subscriptions at this time. Please contact support for assistance."⟩ ∧
    (createSubscription defaultConfig 0 usersDb ⟨some adminUser, creationBody bob._id.toString⟩
        1705300000000).2.subscriptions = [] := by
  refine ⟨rfl, by decide, by decide, by decide, by decide⟩

/-- C12: for a principal that is not an admin, every subscription that
`createSubscription` stores is owned by the principal; the outcome does not
depend on the `user` field of the body; and a request with the required
fields, whose principal's record is found and whose document validates, does
store the subscription. -/
theorem C12_non_admin_creation (cfg : SchemaConfig) (tza : Int) (db : Db)
    (req : CreateRequest) (now : Int) (p : User) (hu : req.user = some p)
    (hr : p.role ≠ "admin") :
    (∀ sub db', createSubscription cfg tza db req now = (.created sub, db') →
      sub.user = p._id ∧ db'.subscriptions = db.subscriptions ++ [sub] ∧
        db'.users = db.users) ∧
    (∀ bodyUser : Option String,
      createSubscription cfg tza db { req with body := { req.body with user := bodyUser } } now =
        createSubscription cfg tza db req now) ∧
    (∀ found, requiredFieldsPresent req.body = true →
      findUserById db.users p._id = some found →
      validateOtherPaths cfg db.users (newSubscription tza req.body p._id now) = [] →
      validateDatePaths (newSubscription tza req.body p._id now) now = [] →
      createSubscription cfg tza db req now =
        (.created (preSave (newSubscription tza req.body p._id now) now),
          { db with subscriptions := db.subscriptions ++
              [preSave (newSubscription tza req.body p._id now) now] })) := by
  refine ⟨?_, ?_, ?_⟩
  · intro sub db' h
    obtain ⟨h1, h2, h3, _⟩ := createSubscription_created cfg tza db req now p hu sub db' h
    exact ⟨h1, h2, h3⟩
  · intro bodyUser
    unfold createSubscription
    simp only [hu, hr, false_and, if_false]
    rfl
  · intro found hreq hf hv hd
    exact createSubscription_succeeds cfg tza db req now p found hu (fun hc => hr hc.1) hreq hf
      hv hd

theorem C12_non_admin_creation_witness :
    ∃ sub, createSubscription defaultConfig 0 usersDb ⟨some bob, creationBody alice._id.toString⟩
        1705300000000 =
      (.created sub, { usersDb with subscriptions := usersDb.subscriptions ++ [sub] }) ∧
      sub.user = bob._id ∧
      createSubscription defaultConfig 0 usersDb
          { (⟨some bob, creationBody alice._id.toString⟩ : CreateRequest) with
            body := { creationBody alice._id.toString with user := none } } 1705300000000 =
        createSubscription defaultConfig 0 usersDb ⟨some bob, creationBody alice._id.toString⟩
          1705300000000 :=
  ⟨_, (C12_non_admin_creation defaultConfig 0 usersDb ⟨some bob, creationBody alice._id.toString⟩
      1705300000000 bob rfl (by decide)).2.2 bob (by decide) (by decide) (by decide) (by decide),
    ((C12_non_admin_creation defaultConfig 0 usersDb
      ⟨some bob, creationBody alice._id.toString⟩ 1705300000000 bob rfl (by decide)).1 _ _
      ((C12_non_admin_creation defaultConfig 0 usersDb
        ⟨some bob, creationBody alice._id.toString⟩ 1705300000000 bob rfl (by decide)).2.2 bob
        (by decide) (by decide) (by decide) (by decide))).1,
    (C12_non_admin_creation defaultConfig 0 usersDb ⟨some bob, creationBody alice._id.toString⟩
      1705300000000 bob rfl (by decide)).2.1 none⟩

/-! ## User records and passwords -/

/-- C13 (amended): `resetPassword` by an admin principal is refused with 403
whatever the passwords are, and leaves the store as it was.  For a target
record whose role is admin, whoever the principal is, `deleteUserAccount` is
refused with 403 and `updateUserDetails` fails, both leaving the store as it
was; `updateUserDetails` fails with 403, except that it fails with 400 when
the body has an `email` key and the principal is the target itself. -/
theorem C13_admin_accounts_immutable (db : Db) :
    (∀ (compare : String → String → Bool) (hash : String → String) (req : PasswordRequest)
      (a : User), req.user = some a → a.role = "admin" →
      resetPassword compare hash db req =
        (.next ⟨some 403, "Admin users cannot reset passwords."⟩, db)) ∧
    (∀ (req : UserRequest) (p target : User), req.user = some p →
      findUserById db.users (castObjectId req.paramsId) = some target →
      target.role = "admin" →
      (∃ message, deleteUserAccount db req = (.next ⟨some 403, message⟩, db)) ∧
      (updateUserDetails db req).2 = db ∧
      (∃ status message, (updateUserDetails db req).1 = .next ⟨some status, message⟩ ∧
        (status = 403 ∨
          (status = 400 ∧ req.bodyHasEmail = true ∧ p._id.toString = req.paramsId))) ∧
      (¬ (req.bodyHasEmail = true ∧ p._id.toString = req.paramsId) →
        ∃ message, updateUserDetails db req = (.next ⟨some 403, message⟩, db))) := by
  constructor
  · intro compare hash req a hu hr
    unfold resetPassword
    rw [hu]
    simp only
    rw [if_pos hr]
  · intro req p target hu hf hr
    have hdel : ∃ message, deleteUserAccount db req = (.next ⟨some 403, message⟩, db) := by
      unfold deleteUserAccount
      rw [hu]
      simp only
      by_cases hid : p._id.toString ≠ req.paramsId
      · rw [if_pos hid]
        exact ⟨_, rfl⟩
      · rw [if_neg hid, hf]
        simp only
        rw [if_pos hr]
        exact ⟨_, rfl⟩
    have hupd : ∃ status message,
        updateUserDetails db req = (.next ⟨some status, message⟩, db) ∧
        (status = 403 ∨
          (status = 400 ∧ req.bodyHasEmail = true ∧ p._id.toString = req.paramsId)) := by
      unfold updateUserDetails
      rw [hu]
      simp only
      by_cases hid : p._id.toString ≠ req.paramsId
      · rw [if_pos hid]
        exact ⟨_, _, rfl, Or.inl rfl⟩
      · rw [if_neg hid]
        by_cases he : req.bodyHasEmail = true
        · rw [if_pos he]
          exact ⟨_, _, rfl, Or.inr ⟨rfl, he, not_not.mp hid⟩⟩
        · rw [if_neg he, hf]
          simp only
          rw [if_pos hr]
          exact ⟨_, _, rfl, Or.inl rfl⟩
    obtain ⟨status, message, hu', hst⟩ := hupd
    refine ⟨hdel, ?_, ⟨status, message, ?_, hst⟩, ?_⟩
    · rw [hu']
    · rw [hu']
    · intro hne
      rcases hst with h403 | ⟨_, he, hself⟩
      · subst h403
        exact ⟨message, hu'⟩
      · exact absurd ⟨he, hself⟩ hne

theorem C13_admin_accounts_immutable_witness :
    resetPassword (fun _ _ => true) (fun s => s) usersDb
        { user := some adminUser, oldPassword := some "old-Secret1", newPassword := some "new-Secret1" } =
      (.next ⟨some 403, "Admin users cannot reset passwords."⟩, usersDb) ∧
    (∃ message, deleteUserAccount usersDb adminTargetsSelf = (.next ⟨some 403, message⟩, usersDb)) ∧
    (∃ message, updateUserDetails usersDb adminTargetsSelf =
      (.next ⟨some 403, message⟩, usersDb)) :=
  ⟨(C13_admin_accounts_immutable usersDb).1 _ _ _ adminUser rfl rfl,
   ((C13_admin_accounts_immutable usersDb).2 adminTargetsSelf adminUser adminUser rfl
      (by decide) rfl).1,
   ((C13_admin_accounts_immutable usersDb).2 adminTargetsSelf adminUser adminUser rfl
      (by decide) rfl).2.2.2 (by decide)⟩

theorem C13_counterexample :
    adminUser.role = "admin" ∧
    findUserById usersDb.users (castObjectId adminUpdatesSelfEmail.paramsId) = some adminUser ∧
    (updateUserDetails usersDb adminUpdatesSelfEmail).1 =
      .next ⟨some 400, "Email cannot be updated!"⟩ := by
  refine ⟨rfl, by decide, by decide⟩

/-- C14: for a principal that is not an admin and a route id other than the
principal's own, `getUserbyId`, `updateUserDetails` and `deleteUserAccount`
are each refused with 403, return no record and leave the store as it was.
For an admin principal `getUserbyId` is never refused: it returns the record
of any id that exists (404 when none does); `updateUserDetails` and
`deleteUserAccount` with an id other than the admin's own are refused with
403. -/
theorem C14_user_record_access (db : Db) (req : UserRequest) (p : User)
    (hu : req.user = some p) :
    (p.role ≠ "admin" → p._id.toString ≠ req.paramsId →
      getUserbyId db req = .next ⟨some 403,
        "Unauthorized access! Only admin or the user themselves can access their own data."⟩ ∧
      updateUserDetails db req =
        (.next ⟨some 403, "Unauthorized access! You can only update your own details."⟩, db) ∧
      deleteUserAccount db req =
        (.next ⟨some 403, "Unauthorized access! You can only delete your own account."⟩, db)) ∧
    (p.role = "admin" →
      (∀ target, findUserById db.users (castObjectId req.paramsId) = some target →
        getUserbyId db req =
          .ok "User retrieved successfully" (some { target with password := "" })) ∧
      (findUserById db.users (castObjectId req.paramsId) = none →
        getUserbyId db req = .next ⟨some 404, "User not found"⟩) ∧
      (p._id.toString ≠ req.paramsId →
        updateUserDetails db req =
          (.next ⟨some 403, "Unauthorized access! You can only update your own details."⟩,
            db) ∧
        deleteUserAccount db req =
          (.next ⟨some 403, "Unauthorized access! You can only delete your own account."⟩,
            db))) := by
  have hupd : p._id.toString ≠ req.paramsId → updateUserDetails db req =
      (.next ⟨some 403, "Unauthorized access! You can only update your own details."⟩, db) := by
    intro hid
    unfold updateUserDetails
    rw [hu]
    simp only
    rw [if_pos hid]
  have hdel : p._id.toString ≠ req.paramsId → deleteUserAccount db req =
      (.next ⟨some 403, "Unauthorized access! You can only delete your own account."⟩, db) := by
    intro hid
    unfold deleteUserAccount
    rw [hu]
    simp only
    rw [if_pos hid]
  constructor
  · intro hr hid
    refine ⟨?_, hupd hid, hdel hid⟩
    unfold getUserbyId
    rw [hu]
    simp only
    rw [if_pos ⟨hr, hid⟩]
  · intro hr
    refine ⟨?_, ?_, fun hid => ⟨hupd hid, hdel hid⟩⟩
    · intro target hf
      unfold getUserbyId
      rw [hu]
      simp only
      rw [if_neg (fun hc => hc.1 hr), hf]
    · intro hf
      unfold getUserbyId
      rw [hu]
      simp only
      rw [if_neg (fun hc => hc.1 hr), hf]

theorem C14_user_record_access_witness :
    (getUserbyId sampleDb bobTargetsAlice = .next ⟨some 403,
        "Unauthorized access! Only admin or the user themselves can access their own data."⟩ ∧
      updateUserDetails sampleDb bobTargetsAlice =
        (.next ⟨some 403, "Unauthorized access! You can only update your own details."⟩,
          sampleDb) ∧
      deleteUserAccount sampleDb bobTargetsAlice =
        (.next ⟨some 403, "Unauthorized access! You can only delete your own account."⟩,
          sampleDb)) ∧
    getUserbyId usersDb adminTargetsBob =
      .ok "User retrieved successfully" (some { bob with password := "" }) ∧
    (updateUserDetails usersDb adminTargetsBob =
        (.next ⟨some 403, "Unauthorized access! You can only update your own details."⟩,
          usersDb) ∧
      deleteUserAccount usersDb adminTargetsBob =
        (.next ⟨some 403, "Unauthorized access! You can only delete your own account."⟩,
          usersDb)) :=
  ⟨(C14_user_record_access sampleDb bobTargetsAlice bob rfl).1 (by decide) (by decide),
   ((C14_user_record_access usersDb adminTargetsBob adminUser rfl).2 rfl).1 bob (by decide),
   ((C14_user_record_access usersDb adminTargetsBob adminUser rfl).2 rfl).2.2 (by decide)⟩

/-! ## Requests without a principal -/

theorem authorize_without_token (verify : String → Option String) (users : List User)
    (authorization : Option String) (h : truthyStr (bearerToken authorization) = false) :
    authorize verify users authorization = .respond 401 "Unauthorized access" := by
  unfold authorize
  rw [if_neg (by simp [h])]

theorem runRoute_authorize_first (verify : String → Option String) (users : List User)
    (authorization : Option String) (passes : Middleware → Bool) (route : Route)
    (rest : List Middleware) (hc : route.chain = .authorize :: rest)
    (h : truthyStr (bearerToken authorization) = false) :
    runRoute verify users authorization passes route = .respond 401 "Unauthorized access" := by
  unfold runRoute
  rw [hc]
  unfold runChain
  rw [authorize_without_token verify users authorization h]

/-- C15 (amended): a request without a bearer token is answered 401 by
`authorize` before any controller runs, whatever the store holds, on every
route that mounts `authorize`: changing the password, the four user routes,
creating a subscription, listing all subscriptions and listing by user id,
which are all the routes whose handler is a controller other than sign-up and
sign-in.  When `req.user` is absent, `createSubscription`, `resetPassword` and
`getUserSubscriptions` fail with 401 and `getAllSubscriptions` fails with 403,
the store being left as it was. -/
theorem C15_unauthenticated_access (verify : String → Option String) (users : List User)
    (authorization : Option String) (passes : Middleware → Bool)
    (h : truthyStr (bearerToken authorization) = false) :
    bearerToken none = none ∧
    (∀ route ∈ authRoutes ++ userRoutes ++ subscriptionRoutes,
      route.handler ≠ .signUp → route.handler ≠ .signIn →
      (∀ title, route.handler ≠ .stub title) →
      runRoute verify users authorization passes route = .respond 401 "Unauthorized access") ∧
    (∀ (cfg : SchemaConfig) (tza : Int) (db : Db) (body : SubscriptionBody) (now : Int),
      createSubscription cfg tza db ⟨none, body⟩ now =
        (.next ⟨some 401, "Authentication required"⟩, db)) ∧
    (∀ (compare : String → String → Bool) (hash : String → String) (db : Db)
      (oldPassword newPassword : Option String),
      resetPassword compare hash db ⟨none, oldPassword, newPassword⟩ =
        (.next ⟨some 401,
          "Unauthorized access! You must be signed in to reset your password."⟩, db)) ∧
    (∀ (rx : String → String → Bool) (db : Db) (id : ObjectId) (query : Query),
      getUserSubscriptions rx db ⟨none, id, query⟩ =
        .next ⟨some 401, "Authentication required"⟩ ∧
      getAllSubscriptions rx db ⟨none, id, query⟩ =
        .next ⟨some 403, "Access denied. Admin privileges required."⟩) := by
  refine ⟨rfl, ?_, fun _ _ _ _ _ => rfl, fun _ _ _ _ _ => rfl, fun _ _ _ _ => ⟨rfl, rfl⟩⟩
  intro route hmem h1 h2 h3
  simp only [authRoutes, userRoutes, subscriptionRoutes, List.cons_append, List.nil_append,
    List.mem_cons, List.mem_singleton, List.not_mem_nil, or_false] at hmem
  rcases hmem with rfl | rfl | rfl | rfl | rfl | rfl | rfl | rfl | rfl | rfl | rfl | rfl | rfl |
    rfl | rfl
  · exact absurd rfl h1
  · exact absurd rfl h2
  · exact runRoute_authorize_first verify users authorization passes _ _ rfl h
  · exact runRoute_authorize_first verify users authorization passes _ _ rfl h
  · exact runRoute_authorize_first verify users authorization passes _ _ rfl h
  · exact runRoute_authorize_first verify users authorization passes _ _ rfl h
  · exact runRoute_authorize_first verify users authorization passes _ _ rfl h
  · exact runRoute_authorize_first verify users authorization passes _ _ rfl h
  · exact runRoute_authorize_first verify users authorization passes _ _ rfl h
  · exact runRoute_authorize_first verify users authorization passes _ _ rfl h
  · exact absurd rfl (h3 _)
  · exact absurd rfl (h3 _)
  · exact absurd rfl (h3 _)
  · exact absurd rfl (h3 _)
  · exact absurd rfl (h3 _)

theorem C15_unauthenticated_access_witness :
    bearerToken none = none ∧
    runRoute (fun _ => none) sampleDb.users none (fun _ => true)
        ⟨"GET", "/", [.authorize, .validateSubscriptionQuery], .getAllSubscriptions⟩ =
      .respond 401 "Unauthorized access" ∧
    createSubscription defaultConfig 0 usersDb ⟨none, creationBody bob._id.toString⟩ 0 =
      (.next ⟨some 401, "Authentication required"⟩, usersDb) :=
  ⟨(C15_unauthenticated_access (fun _ => none) sampleDb.users none (fun _ => true) rfl).1,
   (C15_unauthenticated_access (fun _ => none) sampleDb.users none (fun _ => true) rfl).2.1
     ⟨"GET", "/", [.authorize, .validateSubscriptionQuery], .getAllSubscriptions⟩
     (by decide) (by decide) (by decide) (by intro title hc; cases hc),
   (C15_unauthenticated_access (fun _ => none) sampleDb.users none (fun _ => true) rfl).2.2.1
     defaultConfig 0 usersDb _ 0⟩

theorem C15_counterexample :
    (⟨"GET", "/:id", [.validateSubscriptionId], .stub "GET subscription details"⟩ : Route) ∈
      subscriptionRoutes ∧
    runRoute (fun _ => none) sampleDb.users none (fun _ => true)
        ⟨"GET", "/:id", [.validateSubscriptionId], .stub "GET subscription details"⟩ =
      .respond 200 "GET subscription details" ∧
    runRoute (fun _ => none) sampleDb.users none (fun _ => true)
        ⟨"DELETE", "/:id", [.validateSubscriptionId], .stub "DELETE subscription"⟩ =
      .respond 200 "DELETE subscription" ∧
    getAllSubscriptions (fun _ _ => true) sampleDb ⟨none, alice._id, {}⟩ =
      .next ⟨some 403, "Access denied. Admin privileges required."⟩ := by
  refine ⟨by decide, by decide, by decide, by decide⟩

/-! ## The name criterion -/

theorem parsePattern_ordinary (cs : List Char)
    (h : ∀ c ∈ cs, isPrintableAscii c = true ∧ isRegexOperator c = false) :
    parsePattern cs = some (cs.map PatternItem.literal) := by
  induction cs with
  | nil => rfl
  | cons c rest ih =>
    obtain ⟨hp, ho⟩ := h c (List.mem_cons_self _ _)
    have hdot : c ≠ '.' := by
      intro hc
      rw [hc] at ho
      exact absurd ho (by decide)
    unfold parsePattern
    rw [if_neg hdot, if_neg (by simp [hp, ho]), ih (fun d hd => h d (List.mem_cons_of_mem _ hd))]
    rfl

theorem matchesAt_literal (qs ns : List Char) :
    matchesAt (qs.map PatternItem.literal) ns = true ↔
      qs.map Char.toLower <+: ns.map Char.toLower := by
  induction qs generalizing ns with
  | nil => simp [matchesAt]
  | cons q qs ih =>
    cases ns with
    | nil => simp [matchesAt]
    | cons n ns =>
      simp only [List.map_cons, matchesAt, itemMatches, Bool.and_eq_true, beq_iff_eq,
        List.cons_prefix_cons, ih]

theorem searchFrom_literal (qs ns : List Char) :
    searchFrom (qs.map PatternItem.literal) ns = true ↔
      qs.map Char.toLower <:+: ns.map Char.toLower := by
  induction ns with
  | nil =>
    simp only [searchFrom, matchesAt_literal, List.map_nil, List.prefix_nil, List.infix_nil]
  | cons n ns ih =>
    simp only [searchFrom, Bool.or_eq_true, matchesAt_literal, ih, List.map_cons,
      List.infix_cons_iff]

theorem occursIgnoringCase_iff (q n : String) :
    occursIgnoringCase q n ↔ q.toList.map Char.toLower <:+: n.toList.map Char.toLower := by
  unfold occursIgnoringCase
  constructor
  · rintro ⟨before, after, h⟩
    exact ⟨before, after, h.symm⟩
  · rintro ⟨before, after, h⟩
    exact ⟨before, after, h.symm⟩

theorem storeRegex_ordinary (q n : String)
    (hq : ∀ c ∈ q.toList, isPrintableAscii c = true ∧ isRegexOperator c = false)
    (hn : ∀ c ∈ n.toList, isPrintableAscii c = true) :
    ∃ b, storeRegex q n = some b ∧ (b = true ↔ occursIgnoringCase q n) := by
  refine ⟨searchFrom (q.toList.map PatternItem.literal) n.toList, ?_, ?_⟩
  · unfold storeRegex
    rw [if_pos (List.all_eq_true.mpr hn), parsePattern_ordinary _ hq]
    rfl
  · rw [searchFrom_literal, occursIgnoringCase_iff]

theorem matchesFilter_name_only (rx : String → String → Bool) (q : String) (s : Subscription) :
    matchesFilter rx (buildFilterObject { name := some q }) s = true ↔
      (q ≠ "" → rx q s.name = true) := by
  rw [buildFilterObject_eq, matchesFilter_iff]
  by_cases hq : q = ""
  · subst hq
    simp [truthyStr]
  · simp [truthyStr, hq]

/-- C21: the name constraint that `buildFilterObject` builds is the query
string used as a regular expression pattern.  For a store whose `$regex`
match is the standard one on patterns of ordinary characters and `.`, and a
name of printable ASCII characters: when the query string holds printable
ASCII characters none of which is an operator, a record matches exactly when
the string occurs in its name ignoring letter case; for the query string `.`
the record named `abc` matches although `.` does not occur in `abc`. -/
theorem C21_name_criterion (rx : String → String → Bool) (hrx : ImplementsRegex rx)
    (s : Subscription) :
    (∀ q : String, (∀ c ∈ q.toList, isPrintableAscii c = true ∧ isRegexOperator c = false) →
      (∀ c ∈ s.name.toList, isPrintableAscii c = true) →
      (matchesFilter rx (buildFilterObject { name := some q }) s = true ↔
        occursIgnoringCase q s.name)) ∧
    (matchesFilter rx (buildFilterObject { name := some "." }) { s with name := "abc" } = true ∧
      ¬ occursIgnoringCase "." "abc") := by
  constructor
  · intro q hq hn
    obtain ⟨b, hb, hiff⟩ := storeRegex_ordinary q s.name hq hn
    rw [matchesFilter_name_only, hrx q s.name b hb, hiff]
    constructor
    · intro h
      by_cases he : q = ""
      · subst he
        exact ⟨[], s.name.toList.map Char.toLower, rfl⟩
      · exact h he
    · intro h _
      exact h
  · constructor
    · rw [matchesFilter_name_only]
      intro _
      exact hrx "." "abc" true (by decide)
    · rintro ⟨before, after, h⟩
      have hmem : '.' ∈ before ++ ".".toList.map Char.toLower ++ after := by
        simp
      rw [← h] at hmem
      revert hmem
      decide

theorem C21_name_criterion_witness :
    matchesFilter fragmentRegex (buildFilterObject { name := some "." })
        { aliceSubscription with name := "abc" } = true ∧
      ¬ occursIgnoringCase "." "abc" :=
  (C21_name_criterion fragmentRegex
    (fun pattern value b h => by unfold fragmentRegex; rw [h]; rfl) aliceSubscription).2

/-! ## Errors surfaced to the caller -/

theorem errorMiddleware_validationError (model : String) (errors : List (String × String)) :
    errorMiddleware (validationError model errors) =
      ⟨400, false, jsJoin ", " (errors.map (fun e => e.2))⟩ := rfl

theorem validateUser_join_ne (emailMatch : String → Bool) (user : User) :
    jsJoin ", " ((validateUser emailMatch user).map (fun e => e.2)) ≠
      "Duplicate field value entered" := by
  unfold validateUser
  split_ifs <;> decide

/-- C22: a sign-up whose email, as the schema stores it, is the email of an
existing user ends in `next(error)` with the error built for a duplicate
(status code 409), and leaves the store as it was: no user is created.
`errorMiddleware` answers it with status 409 and the message "User already
exists with this email", and answers a unique-index violation (code 11000)
with status 400 and the message "Duplicate field value entered".  Neither
response is the response given to a validation failure of a sign-up: the one
of `validateRegister` has status 400 and the message "Validation failed", the
one of schema validation has status 400 and the joined messages of the failing
paths, which never read "Duplicate field value entered". -/
theorem C22_duplicate_email (castEmail : String → String) (emailMatch : String → Bool)
    (hash : String → String) (sign : ObjectId → String) (newId : ObjectId) (db : Db)
    (body : SignUpBody) (u : User) (hu : u ∈ db.users) (he : u.email = castEmail body.email) :
    signUp castEmail emailMatch hash sign newId db body =
      (.next { message := "User already exists with this email", statusCode := some 409 }, db) ∧
    (signUp castEmail emailMatch hash sign newId db body).1.errorResponse =
      some ⟨409, false, "User already exists with this email"⟩ ∧
    (∀ message : String, errorMiddleware (duplicateKeyError message) =
      ⟨400, false, "Duplicate field value entered"⟩) ∧
    (∀ data : List FieldError, data ≠ [] →
      ∃ error, validationResultHandler "Validation failed" data = some error ∧
        errorMiddleware error = ⟨400, false, "Validation failed"⟩) ∧
    (∀ user : User, validateUser emailMatch user ≠ [] →
      errorMiddleware (validationError "User" (validateUser emailMatch user)) ≠
        ⟨409, false, "User already exists with this email"⟩ ∧
      errorMiddleware (validationError "User" (validateUser emailMatch user)) ≠
        ⟨400, false, "Duplicate field value entered"⟩) := by
  have hfind : ∃ v, db.users.find? (fun u => u.email == castEmail body.email) = some v := by
    cases hf : db.users.find? (fun u => u.email == castEmail body.email) with
    | some v => exact ⟨v, rfl⟩
    | none =>
      rw [List.find?_eq_none] at hf
      exact absurd (by simpa using he) (hf u hu)
  obtain ⟨v, hv⟩ := hfind
  have hsign : signUp castEmail emailMatch hash sign newId db body =
      (.next { message := "User already exists with this email", statusCode := some 409 }, db) := by
    unfold signUp
    rw [hv]
  refine ⟨hsign, ?_, fun _ => rfl, ?_, ?_⟩
  · rw [hsign]
    rfl
  · intro data hdata
    cases data with
    | nil => exact absurd rfl hdata
    | cons a rest => exact ⟨_, rfl, rfl⟩
  · intro user _
    rw [errorMiddleware_validationError]
    constructor
    · intro h
      have hs : (400 : Nat) = 409 := congrArg ErrorResponse.status h
      exact absurd hs (by decide)
    · intro h
      exact validateUser_join_ne emailMatch user (congrArg ErrorResponse.error h)

theorem C22_duplicate_email_witness :
    signUp (fun s => s) (fun _ => true) (fun s => s) (fun id => id.hex) ⟨"64b00000000000000000000f"⟩
        usersDb { name := "Alice Again", email := "alice@example.com", password := "Secret-123" } =
      (.next { message := "User already exists with this email", statusCode := some 409 },
        usersDb) :=
  (C22_duplicate_email (fun s => s) (fun _ => true) (fun s => s) (fun id => id.hex)
    ⟨"64b00000000000000000000f"⟩ usersDb
    { name := "Alice Again", email := "alice@example.com", password := "Secret-123" } alice
    (by decide) rfl).1

theorem createSubscription_invalid (cfg : SchemaConfig) (tza : Int) (db : Db)
    (req : CreateRequest) (now : Int) (errors : List (String × String)) (db' : Db)
    (h : createSubscription cfg tza db req now = (.invalid errors, db')) : db' = db := by
  unfold createSubscription at h
  cases hu : req.user with
  | none => rw [hu] at h; simp at h
  | some p =>
    rw [hu] at h
    simp only at h
    split_ifs at h with h1 h2
    · simp at h
    · simp at h
    · cases hf : findUserById db.users p._id with
      | none => rw [hf] at h; simp at h
      | some user =>
        rw [hf] at h
        simp only at h
        split at h
        · simp at h
        · simp only [Prod.mk.injEq] at h
          exact h.2.symm
        · simp only [Prod.mk.injEq] at h
          exact h.2.symm

/-- C23 (amended): a write rejected by schema validation is answered with
status 400, `success` false and, as the only other content of the body, the
messages of the failing paths joined by a comma and a space: for every
`ValidationError`, whatever the model and the failing paths, and so for every
creation of a subscription that the schema rejects, which also leaves the
store as it was. -/
theorem C23_validation_error_response :
    (∀ (model : String) (errors : List (String × String)),
      errorMiddleware (validationError model errors) =
        ⟨400, false, jsJoin ", " (errors.map (fun e => e.2))⟩) ∧
    (∀ (cfg : SchemaConfig) (tza : Int) (db : Db) (req : CreateRequest) (now : Int)
      (errors : List (String × String)) (db' : Db),
      createSubscription cfg tza db req now = (.invalid errors, db') →
      (createSubscription cfg tza db req now).1.errorResponse =
        some ⟨400, false, jsJoin ", " (errors.map (fun e => e.2))⟩ ∧ db' = db) := by
  refine ⟨fun _ _ => rfl, ?_⟩
  intro cfg tza db req now errors db' h
  refine ⟨?_, createSubscription_invalid cfg tza db req now errors db' h⟩
  rw [h]
  rfl

theorem C23_validation_error_response_witness :
    (createSubscription defaultConfig 0 usersDb ⟨some alice, startingAt 1705363200000⟩
        1705276800000).1.errorResponse =
      some ⟨400, false, jsJoin ", " ([("startDate", startDateMessage)].map (fun e => e.2))⟩ ∧
    usersDb = usersDb :=
  C23_validation_error_response.2 defaultConfig 0 usersDb
    ⟨some alice, startingAt 1705363200000⟩ 1705276800000
    [("startDate", startDateMessage)] usersDb (Prod.ext (by decide) rfl)

theorem C23_counterexample :
    (startingAt 1705363200000).startDate ≠ (startingAt 1706659200000).startDate ∧
    (createSubscription defaultConfig 0 usersDb ⟨some alice, startingAt 1705363200000⟩
        1705276800000).1 = .invalid [("startDate", "Start Date cannot be in the future")] ∧
    (createSubscription defaultConfig 0 usersDb ⟨some alice, startingAt 1706659200000⟩
        1705276800000).1 = .invalid [("startDate", "Start Date cannot be in the future")] ∧
    (createSubscription defaultConfig 0 usersDb ⟨some alice, startingAt 1705363200000⟩
        1705276800000).1.errorResponse =
      some ⟨400, false, "Start Date cannot be in the future"⟩ ∧
    (createSubscription defaultConfig 0 usersDb ⟨some alice, startingAt 1706659200000⟩
        1705276800000).1.errorResponse =
      some ⟨400, false, "Start Date cannot be in the future"⟩ := by
  refine ⟨by decide, by decide, by decide, by decide, by decide⟩

/-! ## Listing and the lifecycle pass -/

theorem getAllSubscriptions_subscriptions (rx : String → String → Bool) (db : Db)
    (req : Request) (status : Nat) (data : ListData)
    (h : getAllSubscriptions rx db req = .json status data) :
    ∀ s ∈ data.subscriptions, s ∈ db.subscriptions := by
  unfold getAllSubscriptions at h
  cases hu : req.user with
  | none => rw [hu] at h; simp at h
  | some user =>
    rw [hu] at h
    dsimp only at h
    split_ifs at h with hr
    cases hl : listResponse rx db req.query (buildFilterObject req.query) none with
    | next error => rw [hl] at h; simp at h
    | json status' data' =>
      rw [hl] at h
      simp only [Outcome.json.injEq] at h
      obtain ⟨_, hd⟩ := h
      intro s hs
      rw [← hd] at hs
      exact (listResponse_subscriptions rx db req.query _ none status' data' hl s hs).1

/-- C24 (amended): every subscription that `getAllSubscriptions`,
`getUserSubscriptions` or `getSubscriptionsByUserId` returns is a record of
the store, returned as it is stored: the list operations take no current time
and apply no lifecycle pass.  The pass runs when a subscription is saved: the
document written by a save that validates is the result of the pass at the
time of the save. -/
theorem C24_listed_as_stored (rx : String → String → Bool) (db : Db) (req : Request)
    (status : Nat) (data : ListData) :
    (getAllSubscriptions rx db req = .json status data →
      ∀ s ∈ data.subscriptions, s ∈ db.subscriptions) ∧
    (getUserSubscriptions rx db req = .json status data →
      ∀ s ∈ data.subscriptions, s ∈ db.subscriptions) ∧
    (getSubscriptionsByUserId rx db req = .json status data →
      ∀ s ∈ data.subscriptions, s ∈ db.subscriptions) ∧
    (∀ (doc doc' : Subscription) (now : Int), save doc now = .ok doc' →
      doc' = preSave doc now) := by
  refine ⟨getAllSubscriptions_subscriptions rx db req status data, ?_, ?_, ?_⟩
  · intro h s hs
    unfold getUserSubscriptions at h
    cases hu : req.user with
    | none => rw [hu] at h; simp at h
    | some user =>
      rw [hu] at h
      exact (listResponse_subscriptions rx db req.query _ none status data h s hs).1
  · intro h s hs
    unfold getSubscriptionsByUserId at h
    cases hu : req.user with
    | none => rw [hu] at h; simp at h
    | some user =>
      rw [hu] at h
      simp only at h
      cases hf : findUserById db.users req.paramsId with
      | none => rw [hf] at h; simp at h
      | some target =>
        rw [hf] at h
        exact (listResponse_subscriptions rx db req.query _ _ status data h s hs).1
  · intro doc doc' now h
    exact (save_ok doc doc' now h).2

theorem C24_listed_as_stored_witness :
    ∀ s ∈ bobsListing.subscriptions, s ∈ sampleDb.subscriptions :=
  (C24_listed_as_stored (fun _ _ => true) sampleDb bobListsOwn 200 bobsListing).2.1 (by decide)

theorem C24_counterexample :
    getUserSubscriptions (fun _ _ => true) sampleDb bobListsOwn = .json 200 bobsListing ∧
    bobsListing.subscriptions = [bobSubscription] ∧
    bobSubscription.renewalDate = some (JSDate.ofTime 9500) ∧ (9500 : Int) < 10000 ∧
    bobSubscription.status = "active" ∧ (preSave bobSubscription 10000).status = "expired" := by
  refine ⟨by decide, rfl, rfl, by decide, rfl, by decide⟩

/-! ## The price constraint -/

theorem newSubscription_price (tza : Int) (body : SubscriptionBody) (owner : ObjectId)
    (now : Int) : (newSubscription tza body owner now).price = body.price.getD 0 := by
  unfold newSubscription applyDefaults
  split <;> rfl

theorem validateOtherPaths_price_neg (cfg : SchemaConfig) (users : List User)
    (doc : Subscription) (h : doc.price < 0) :
    ("price", "Price must be a positive number") ∈ validateOtherPaths cfg users doc := by
  unfold validateOtherPaths
  rw [if_pos h]
  simp

theorem validateOtherPaths_price_nonneg (cfg : SchemaConfig) (users : List User)
    (doc : Subscription) (h : 0 ≤ doc.price) :
    ∀ e ∈ validateOtherPaths cfg users doc, e.1 ≠ "price" := by
  intro e he
  unfold validateOtherPaths at he
  rw [if_neg (not_lt.mpr h)] at he
  simp only [List.append_nil, List.mem_append] at he
  rcases he with ((((((he | he) | he) | he) | he) | he) | he)
  · split_ifs at he <;> simp at he <;> subst he <;> simp
  · split_ifs at he <;> simp at he
    subst he
    simp
  · split at he
    · simp at he; subst he; simp
    · split_ifs at he <;> simp at he <;> subst he <;> simp
  · split_ifs at he <;> simp at he
    subst he
    simp
  · split_ifs at he <;> simp at he <;> subst he <;> simp
  · split_ifs at he <;> simp at he <;> subst he <;> simp
  · split_ifs at he <;> simp at he
    subst he
    simp

theorem validateDatePaths_paths (doc : Subscription) (now : Int) :
    ∀ e ∈ validateDatePaths doc now, e.1 = "startDate" ∨ e.1 = "renewalDate" := by
  intro e he
  unfold validateDatePaths at he
  rw [List.mem_append] at he
  rcases he with he | he
  · left
    split at he
    · simp at he; subst he; rfl
    · split_ifs at he <;> simp at he
      subst he; rfl
  · right
    split at he
    · simp at he
    · split_ifs at he <;> simp at he
      subst he; rfl

/-- The failures a creation is rejected with are those of the schema's paths
on the new document: the other paths first, then the date paths. -/
theorem createSubscription_invalid_errors (cfg : SchemaConfig) (tza : Int) (db : Db)
    (req : CreateRequest) (now : Int) (p : User) (hu : req.user = some p)
    (errors : List (String × String)) (db' : Db)
    (h : createSubscription cfg tza db req now = (.invalid errors, db')) :
    ∃ dateErrors, errors =
        validateOtherPaths cfg db.users (newSubscription tza req.body p._id now) ++ dateErrors ∧
      (∀ e ∈ dateErrors, e ∈ validateDatePaths (newSubscription tza req.body p._id now) now) := by
  unfold createSubscription at h
  rw [hu] at h
  simp only at h
  split_ifs at h with h1 h2
  · simp at h
  · simp at h
  · cases hf : findUserById db.users p._id with
    | none => rw [hf] at h; simp at h
    | some user =>
      rw [hf] at h
      simp only at h
      have hid := findUserById_id _ _ _ hf
      rw [hid] at h
      cases hv : validateOtherPaths cfg db.users (newSubscription tza req.body p._id now) with
      | nil =>
        cases hs : save (newSubscription tza req.body p._id now) now with
        | ok saved => rw [hv, hs] at h; simp at h
        | error dateErrors =>
          rw [hv, hs] at h
          simp only [Prod.mk.injEq, CreateOutcome.invalid.injEq] at h
          refine ⟨dateErrors, h.1.symm, ?_⟩
          intro e he
          unfold save at hs
          split_ifs at hs
          simp only [Except.error.injEq] at hs
          rw [hs]
          exact he
      | cons e es =>
        cases hs : save (newSubscription tza req.body p._id now) now with
        | ok saved =>
          rw [hv, hs] at h
          simp only [Prod.mk.injEq, CreateOutcome.invalid.injEq] at h
          exact ⟨[], by rw [List.append_nil]; exact h.1.symm, fun e he => by cases he⟩
        | error dateErrors =>
          rw [hv, hs] at h
          simp only [Prod.mk.injEq, CreateOutcome.invalid.injEq] at h
          refine ⟨dateErrors, h.1.symm, ?_⟩
          intro e he
          unfold save at hs
          split_ifs at hs
          simp only [Except.error.injEq] at hs
          rw [hs]
          exact he

/-- A request that passes the guards and whose document fails one of the
other paths is rejected with those failures, and nothing is stored. -/
theorem createSubscription_rejects (cfg : SchemaConfig) (tza : Int) (db : Db)
    (req : CreateRequest) (now : Int) (p found : User) (hu : req.user = some p)
    (hauth : ¬ (p.role = "admin" ∧ some p._id.toString ≠ req.body.user))
    (hreq : requiredFieldsPresent req.body = true)
    (hfound : findUserById db.users p._id = some found)
    (hne : validateOtherPaths cfg db.users (newSubscription tza req.body p._id now) ≠ []) :
    ∃ dateErrors, createSubscription cfg tza db req now =
      (.invalid (validateOtherPaths cfg db.users (newSubscription tza req.body p._id now) ++
        dateErrors), db) := by
  have hid := findUserById_id _ _ _ hfound
  unfold createSubscription
  rw [hu]
  simp only
  rw [if_neg hauth, if_neg (by simp [hreq]), hfound]
  simp only [hid]
  cases hv : validateOtherPaths cfg db.users (newSubscription tza req.body p._id now) with
  | nil => exact absurd hv hne
  | cons e es =>
    cases hs : save (newSubscription tza req.body p._id now) now with
    | ok saved => exact ⟨[], by simp⟩
    | error dateErrors => exact ⟨dateErrors, rfl⟩

theorem not_digit_point : isAsciiDigit '.' = false := by decide

theorem digit_ne_point (c : Char) (h : isAsciiDigit c = true) : (c != '.') = true := by
  rw [bne_iff_ne]
  intro hc
  subst hc
  exact absurd h (by decide)

theorem utf16_digits (ds : List Char) (h : ∀ c ∈ ds, isAsciiDigit c = true) :
    (ds.map (fun c => if c.toNat < 65536 then 1 else 2)).sum = ds.length := by
  induction ds with
  | nil => rfl
  | cons d ds ih =>
    have hd := h d (List.mem_cons_self _ _)
    unfold isAsciiDigit at hd
    simp only [Bool.and_eq_true, decide_eq_true_eq] at hd
    simp only [List.map_cons, List.sum_cons, List.length_cons]
    rw [if_pos (by omega), ih (fun c hc => h c (List.mem_cons_of_mem _ hc))]
    omega

theorem jsLength_digits (ds : List Char) (h : ∀ c ∈ ds, isAsciiDigit c = true) :
    jsLength (String.mk ds) = ds.length := utf16_digits ds h

theorem signAndDigits_decimalText (whole fraction : List Char) (hw : whole ≠ [])
    (hwd : ∀ c ∈ whole, isAsciiDigit c = true) :
    signAndDigits (decimalText whole fraction) =
      (1, whole ++ (if fraction.isEmpty then [] else '.' :: fraction)) := by
  cases whole with
  | nil => exact absurd rfl hw
  | cons w ws =>
    obtain ⟨h1, h2⟩ := digit_ne_sign w (hwd w (List.mem_cons_self _ _))
    unfold signAndDigits decimalText
    simp only [String.toList, List.cons_append]
    rw [if_neg h1, if_neg h2]

theorem floatValue_denominator_pos (str : String) (n : Int) (d : Nat)
    (h : floatValue str = some (n, d)) : 0 < d := by
  unfold floatValue at h
  simp only at h
  split at h
  · simp at h
  · split_ifs at h <;> simp only [Option.some.injEq, Prod.mk.injEq] at h <;>
      (rw [← h.2]; positivity)

/-- A price that passes the three checks is a decimal number of at least 0.01
written with at most two digits after the point. -/
theorem validatePrice_nil (text : String) (h : validatePrice text = []) :
    isNumeric text = true ∧ priceDecimalPlaces text ≤ 2 ∧
      ∃ n d, floatValue text = some (n, d) ∧ 0 < d ∧ (1 : ℚ) / 100 ≤ (n : ℚ) / (d : ℚ) := by
  unfold validatePrice at h
  simp only [List.append_eq_nil] at h
  obtain ⟨⟨h1, h2⟩, h3⟩ := h
  have hn : isNumeric text = true := by
    by_contra hc
    rw [if_neg hc] at h1
    exact absurd h1 (by simp)
  have hf : isFloat text 1 100 = true := by
    by_contra hc
    rw [if_neg hc] at h2
    exact absurd h2 (by simp)
  have hp : priceDecimalPlaces text ≤ 2 := by
    by_contra hc
    rw [if_pos (by omega)] at h3
    exact absurd h3 (by simp)
  refine ⟨hn, hp, ?_⟩
  unfold isFloat at hf
  cases hv : floatValue text with
  | none => rw [hv] at hf; simp at hf
  | some v =>
    obtain ⟨n, d⟩ := v
    rw [hv] at hf
    simp only [decide_eq_true_eq] at hf
    have hd := floatValue_denominator_pos text n d hv
    refine ⟨n, d, rfl, hd, ?_⟩
    rw [div_le_div_iff₀ (by norm_num) (by exact_mod_cast hd)]
    exact_mod_cast hf

/-- A plain decimal text with a value above 0 and at most two digits after
the point passes the three checks. -/
theorem validatePrice_decimalText (whole fraction : List Char) (hw : whole ≠ [])
    (hwd : ∀ c ∈ whole, isAsciiDigit c = true) (hfd : ∀ c ∈ fraction, isAsciiDigit c = true)
    (hlen : fraction.length ≤ 2)
    (hpos : 0 < decimalValue whole * 10 ^ fraction.length + decimalValue fraction) :
    validatePrice (decimalText whole fraction) = [] := by
  have hsd := signAndDigits_decimalText whole fraction hw hwd
  have hwd' : ∀ c ∈ whole, (c != '.') = true := fun c hc => digit_ne_point c (hwd c hc)
  have hfd' : ∀ c ∈ fraction, (c != '.') = true := fun c hc => digit_ne_point c (hfd c hc)
  have hpow : 10 ^ fraction.length ≤ 100 := by
    calc 10 ^ fraction.length ≤ 10 ^ 2 := Nat.pow_le_pow_right (by norm_num) hlen
      _ = 100 := by norm_num
  cases fraction with
  | nil =>
    have hnum : isNumeric (decimalText whole []) = true := by
      unfold isNumeric
      simp only [hsd, List.isEmpty_nil, if_true, List.append_nil,
        List.dropWhile_eq_nil_iff.mpr hwd]
      cases whole with
      | nil => exact absurd rfl hw
      | cons w ws => rfl
    have hval : floatValue (decimalText whole []) = some ((decimalValue whole : Int) * 1, 1) := by
      unfold floatValue
      simp only [hsd, List.isEmpty_nil, if_true, List.append_nil,
        List.dropWhile_eq_nil_iff.mpr hwd, List.takeWhile_eq_self_iff.mpr hwd]
      cases whole with
      | nil => exact absurd rfl hw
      | cons w ws => simp [decimalValue]
    have hdec : priceDecimalPlaces (decimalText whole []) = 0 := by
      unfold priceDecimalPlaces decimalText
      simp only [String.toList, List.isEmpty_nil, if_true, List.append_nil,
        List.dropWhile_eq_nil_iff.mpr hwd', List.drop_nil, List.takeWhile_nil]
      rfl
    have hfl : isFloat (decimalText whole []) 1 100 = true := by
      unfold isFloat
      rw [hval]
      simp only [decide_eq_true_eq]
      simp only [List.length_nil, pow_zero, mul_one, decimalValue, List.foldl_nil,
        add_zero] at hpos
      have : (1 : Int) ≤ (decimalValue whole : Int) := by exact_mod_cast hpos
      unfold decimalValue at this ⊢
      omega
    unfold validatePrice
    rw [hnum, hfl, hdec]
    rfl
  | cons f fs =>
    have hdrop : (whole ++ '.' :: f :: fs).dropWhile isAsciiDigit = '.' :: f :: fs := by
      rw [List.dropWhile_append_of_pos hwd, List.dropWhile_cons_of_neg (by decide)]
    have htake : (whole ++ '.' :: f :: fs).takeWhile isAsciiDigit = whole := by
      rw [List.takeWhile_append_of_pos hwd, List.takeWhile_cons_of_neg (by decide),
        List.append_nil]
    have hnum : isNumeric (decimalText whole (f :: fs)) = true := by
      unfold isNumeric
      simp only [hsd, List.isEmpty_cons, Bool.false_eq_true, if_false, hdrop]
      simp only [beq_self_eq_true, Bool.not_false, Bool.and_self, Bool.true_and,
        List.all_eq_true]
      exact hfd
    have hval : floatValue (decimalText whole (f :: fs)) =
        some (1 * ((decimalValue whole : Int) * 10 ^ (f :: fs).length +
          (decimalValue (f :: fs) : Int)) * 10 ^ (0 : Int).toNat, 10 ^ (f :: fs).length) := by
      unfold floatValue
      simp only [hsd, List.isEmpty_cons, Bool.false_eq_true, if_false, hdrop, htake, if_true,
        List.dropWhile_eq_nil_iff.mpr hfd, List.takeWhile_eq_self_iff.mpr hfd]
      simp
    have hdec : priceDecimalPlaces (decimalText whole (f :: fs)) = (f :: fs).length := by
      unfold priceDecimalPlaces decimalText
      simp only [String.toList, List.isEmpty_cons, Bool.false_eq_true, if_false]
      rw [List.dropWhile_append_of_pos hwd', List.dropWhile_cons_of_neg (by decide),
        List.drop_one, List.tail_cons, List.takeWhile_eq_self_iff.mpr hfd']
      exact jsLength_digits _ hfd
    have hfl : isFloat (decimalText whole (f :: fs)) 1 100 = true := by
      unfold isFloat
      rw [hval]
      simp only [decide_eq_true_eq]
      have h1 : (1 : Int) ≤ (decimalValue whole : Int) * 10 ^ (f :: fs).length +
          (decimalValue (f :: fs) : Int) := by exact_mod_cast hpos
      have h2 : (10 : Int) ^ (f :: fs).length ≤ 100 := by exact_mod_cast hpow
      simp only [Int.toNat_zero, pow_zero, mul_one, one_mul]
      push_cast
      linarith
    unfold validatePrice
    rw [hnum, hfl, hdec, if_neg (not_lt.mpr hlen)]
    rfl

/-- C25 (amended): the schema rejects every write whose price is below 0, with
the validation error "Price must be a positive number" on `price`, and
`createSubscription` then stores nothing; for a price above 0, whatever its
digits, no failure is on `price`, in the schema as in a rejected creation.
The minimum of 0.01 and the limit of two digits after the point belong to the
price checks of `validateCreateSubscription`: a price text that passes them is
a decimal number of at least 0.01 with at most two digits after the point, a
text with more digits after the point fails with "Price cannot have more than
2 decimal places", and every plain decimal text with a value above 0 and at
most two digits after the point passes. -/
theorem C25_price_constraint :
    (∀ (cfg : SchemaConfig) (users : List User) (doc : Subscription), doc.price < 0 →
      ("price", "Price must be a positive number") ∈ validateOtherPaths cfg users doc) ∧
    (∀ (cfg : SchemaConfig) (tza : Int) (db : Db) (req : CreateRequest) (now : Int)
      (p found : User) (price : Rat), req.user = some p →
      ¬ (p.role = "admin" ∧ some p._id.toString ≠ req.body.user) →
      requiredFieldsPresent req.body = true → findUserById db.users p._id = some found →
      req.body.price = some price → price < 0 →
      ∃ errors, createSubscription cfg tza db req now = (.invalid errors, db) ∧
        ("price", "Price must be a positive number") ∈ errors) ∧
    (∀ (cfg : SchemaConfig) (users : List User) (doc : Subscription), 0 < doc.price →
      ∀ e ∈ validateOtherPaths cfg users doc, e.1 ≠ "price") ∧
    (∀ (cfg : SchemaConfig) (tza : Int) (db : Db) (req : CreateRequest) (now : Int) (p : User)
      (price : Rat) (errors : List (String × String)) (db' : Db), req.user = some p →
      req.body.price = some price → 0 < price →
      createSubscription cfg tza db req now = (.invalid errors, db') →
      ∀ e ∈ errors, e.1 ≠ "price") ∧
    (∀ text : String, validatePrice text = [] →
      isNumeric text = true ∧ priceDecimalPlaces text ≤ 2 ∧
        ∃ n d, floatValue text = some (n, d) ∧ 0 < d ∧ (1 : ℚ) / 100 ≤ (n : ℚ) / (d : ℚ)) ∧
    (∀ text : String, 2 < priceDecimalPlaces text →
      (⟨"price", "Price cannot have more than 2 decimal places", some text⟩ : FieldError) ∈
        validatePrice text) ∧
    (∀ whole fraction : List Char, whole ≠ [] → (∀ c ∈ whole, isAsciiDigit c = true) →
      (∀ c ∈ fraction, isAsciiDigit c = true) → fraction.length ≤ 2 →
      0 < decimalValue whole * 10 ^ fraction.length + decimalValue fraction →
      validatePrice (decimalText whole fraction) = []) := by
  refine ⟨validateOtherPaths_price_neg, ?_, ?_, ?_, validatePrice_nil, ?_,
    validatePrice_decimalText⟩
  · intro cfg tza db req now p found price hu hauth hreq hfound hprice hneg
    have hp : (newSubscription tza req.body p._id now).price < 0 := by
      rw [newSubscription_price, hprice]
      exact hneg
    have hmem := validateOtherPaths_price_neg cfg db.users _ hp
    obtain ⟨dateErrors, hc⟩ := createSubscription_rejects cfg tza db req now p found hu hauth
      hreq hfound (List.ne_nil_of_mem hmem)
    exact ⟨_, hc, List.mem_append_left _ hmem⟩
  · intro cfg users doc hpos
    exact validateOtherPaths_price_nonneg cfg users doc (le_of_lt hpos)
  · intro cfg tza db req now p price errors db' hu hprice hpos h e he
    obtain ⟨dateErrors, herr, hdate⟩ :=
      createSubscription_invalid_errors cfg tza db req now p hu errors db' h
    rw [herr, List.mem_append] at he
    rcases he with he | he
    · refine validateOtherPaths_price_nonneg cfg db.users _ ?_ e he
      rw [newSubscription_price, hprice]
      exact le_of_lt hpos
    · rcases validateDatePaths_paths _ now e (hdate e he) with hs | hs <;> rw [hs] <;> decide
  · intro text h
    unfold validatePrice
    rw [if_pos h]
    simp

theorem C25_price_constraint_witness :
    (∃ errors, createSubscription defaultConfig 0 usersDb
        ⟨some alice, { creationBody alice._id.toString with price := some (-5) }⟩
        1705300000000 = (.invalid errors, usersDb) ∧
      ("price", "Price must be a positive number") ∈ errors) ∧
    validatePrice (decimalText ['1', '0'] ['5']) = [] ∧
    (⟨"price", "Price cannot have more than 2 decimal places", some "0.001"⟩ : FieldError) ∈
      validatePrice "0.001" :=
  ⟨C25_price_constraint.2.1 defaultConfig 0 usersDb
      ⟨some alice, { creationBody alice._id.toString with price := some (-5) }⟩ 1705300000000
      alice alice (-5) rfl (by decide) (by decide) (by decide) rfl (by decide),
   C25_price_constraint.2.2.2.2.2.2 ['1', '0'] ['5'] (by decide) (by decide) (by decide)
     (by decide) (by decide),
   C25_price_constraint.2.2.2.2.2.1 "0.001" (by decide)⟩

theorem C25_counterexample :
    oneThousandth * 1000 = 1 ∧
    (createSubscription defaultConfig 0 usersDb
        ⟨some alice, { creationBody alice._id.toString with price := some oneThousandth }⟩
        1705300000000).1 =
      .created (preSave (newSubscription 0
        { creationBody alice._id.toString with price := some oneThousandth } alice._id
        1705300000000) 1705300000000) ∧
    ((createSubscription defaultConfig 0 usersDb
        ⟨some alice, { creationBody alice._id.toString with price := some oneThousandth }⟩
        1705300000000).2.subscriptions.map (fun s => s.price)) = [oneThousandth] := by
  refine ⟨?_, by decide, by decide⟩
  have h := Rat.num_div_den oneThousandth
  have hn : oneThousandth.num = 1 := rfl
  have hd : oneThousandth.den = 1000 := rfl
  rw [hn, hd] at h
  rw [← h]
  norm_num

/-! ## Back-dated subscriptions -/

theorem renewalDateDefault_period (tza D : Int) (f : String) (doc : Subscription)
    (hs : doc.startDate = some (JSDate.ofTime D))
    (hf : f ∈ ["daily", "weekly", "monthly", "yearly"]) (hfreq : doc.frequency = some f) :
    renewalDateDefault tza doc =
      some ⟨TimeClip (D + periodDays f (LocalTime tza D) * msPerDay)⟩ := by
  simp only [List.mem_cons, List.mem_singleton, List.not_mem_nil, or_false] at hf
  rcases hf with hf | hf | hf | hf <;> subst hf
  · exact renewalDateDefault_daily tza D doc hs hfreq
  · exact renewalDateDefault_weekly tza D doc hs hfreq
  · exact renewalDateDefault_monthly tza D doc hs hfreq
  · exact renewalDateDefault_yearly tza D doc hs hfreq

theorem numGt_TimeClip_false (t now : Int) (h : t ≤ now) :
    numGt (TimeClip t) (some now) = false := by
  unfold TimeClip
  split_ifs
  · rfl
  · simp only [numGt, numLt, decide_eq_false_iff_not]
    omega

/-- A document without a supplied renewal date whose start date is not in
the future and whose period has already ended is rejected by the save, with
the message of the `renewalDate` validator as the only failure of the date
paths. -/
theorem save_backdated (tza D now : Int) (f : String) (doc : Subscription)
    (hs : doc.startDate = some (JSDate.ofTime D)) (hD : D ≤ now)
    (hf : f ∈ ["daily", "weekly", "monthly", "yearly"]) (hfreq : doc.frequency = some f)
    (hn : doc.renewalDate = none)
    (hlate : D + periodDays f (LocalTime tza D) * msPerDay ≤ now) :
    (applyDefaults tza doc).renewalDate =
      some ⟨TimeClip (D + periodDays f (LocalTime tza D) * msPerDay)⟩ ∧
    renewalDateValidator (applyDefaults tza doc)
      ⟨TimeClip (D + periodDays f (LocalTime tza D) * msPerDay)⟩ now = false ∧
    save (applyDefaults tza doc) now = .error [("renewalDate", renewalDateMessage)] := by
  have hr := renewalDateDefault_period tza D f doc hs hf hfreq
  have hrd : (applyDefaults tza doc).renewalDate =
      some ⟨TimeClip (D + periodDays f (LocalTime tza D) * msPerDay)⟩ := by
    rw [applyDefaults_renewalDate tza doc hn, hr]
  have hsd : (applyDefaults tza doc).startDate = some (JSDate.ofTime D) := by
    unfold applyDefaults
    rw [hn]
    exact hs
  have hv : renewalDateValidator (applyDefaults tza doc)
      ⟨TimeClip (D + periodDays f (LocalTime tza D) * msPerDay)⟩ now = false := by
    unfold renewalDateValidator
    rw [numGt_TimeClip_false _ _ hlate]
    rfl
  have hvd : validateDatePaths (applyDefaults tza doc) now =
      [("renewalDate", renewalDateMessage)] := by
    unfold validateDatePaths
    rw [hsd, hrd]
    simp only [hv, startDateValidator, JSDate.ofTime, numLe, hD, decide_True, if_true,
      Bool.false_eq_true, if_false, List.nil_append]
  refine ⟨hrd, hv, ?_⟩
  unfold save
  rw [hvd]
  rfl

theorem createSubscription_date_errors (cfg : SchemaConfig) (tza : Int) (db : Db)
    (req : CreateRequest) (now : Int) (p found : User) (dateErrors : List (String × String))
    (hu : req.user = some p)
    (hauth : ¬ (p.role = "admin" ∧ some p._id.toString ≠ req.body.user))
    (hreq : requiredFieldsPresent req.body = true)
    (hfound : findUserById db.users p._id = some found)
    (hsave : save (newSubscription tza req.body p._id now) now = .error dateErrors) :
    createSubscription cfg tza db req now =
      (.invalid (validateOtherPaths cfg db.users (newSubscription tza req.body p._id now) ++
        dateErrors), db) := by
  have hid := findUserById_id _ _ _ hfound
  unfold createSubscription
  rw [hu]
  simp only
  rw [if_neg hauth, if_neg (by simp [hreq]), hfound]
  simp only [hid, hsave]

/-- C26: for a start date `D` not in the future and a frequency among daily,
weekly, monthly and yearly whose period from `D` has ended by `now`, a
document without a supplied renewal date gets from the default the date `D`
plus one period, that date fails the `renewalDate` validator, and the save is
rejected with "Renewal Date must be in the future and after Start Date"
before the lifecycle hook runs.  A creation request with such a start date
and frequency and no renewal date, which passes the guards of
`createSubscription`, ends with that validation error and stores nothing. -/
theorem C26_backdated_without_renewal_date (tza D now : Int) (f : String) (hD : D ≤ now)
    (hf : f ∈ ["daily", "weekly", "monthly", "yearly"])
    (hlate : D + periodDays f (LocalTime tza D) * msPerDay ≤ now) :
    (∀ doc : Subscription, doc.startDate = some (JSDate.ofTime D) → doc.frequency = some f →
      doc.renewalDate = none →
      (applyDefaults tza doc).renewalDate =
        some ⟨TimeClip (D + periodDays f (LocalTime tza D) * msPerDay)⟩ ∧
      renewalDateValidator (applyDefaults tza doc)
        ⟨TimeClip (D + periodDays f (LocalTime tza D) * msPerDay)⟩ now = false ∧
      save (applyDefaults tza doc) now = .error [("renewalDate", renewalDateMessage)]) ∧
    (∀ (cfg : SchemaConfig) (db : Db) (req : CreateRequest) (p found : User),
      req.user = some p → ¬ (p.role = "admin" ∧ some p._id.toString ≠ req.body.user) →
      requiredFieldsPresent req.body = true → findUserById db.users p._id = some found →
      req.body.startDate = some (JSDate.ofTime D) → req.body.frequency = some f →
      req.body.renewalDate = none →
      createSubscription cfg tza db req now =
        (.invalid (validateOtherPaths cfg db.users (newSubscription tza req.body p._id now) ++
          [("renewalDate", "Renewal Date must be in the future and after Start Date")]), db)) := by
  refine ⟨fun doc hs hfreq hn => save_backdated tza D now f doc hs hD hf hfreq hn hlate, ?_⟩
  intro cfg db req p found hu hauth hreq hfound hs hfreq hn
  refine createSubscription_date_errors cfg tza db req now p found _ hu hauth hreq hfound ?_
  exact (save_backdated tza D now f _ hs hD hf hfreq hn hlate).2.2

theorem C26_backdated_without_renewal_date_witness :
    (createSubscription defaultConfig 0 usersDb ⟨some alice, creationBody alice._id.toString⟩
        1710000000000).1 =
      .invalid [("renewalDate", "Renewal Date must be in the future and after Start Date")] :=
  congrArg Prod.fst
    ((C26_backdated_without_renewal_date 0 1705276800000 1710000000000 "monthly" (by decide)
      (by decide) (by decide)).2 defaultConfig usersDb
      ⟨some alice, creationBody alice._id.toString⟩ alice alice rfl (by decide) (by decide)
      (by decide) rfl rfl rfl)

/-! ## Changing a password -/

theorem validateChangePassword_nil (body : ChangePasswordBody)
    (h : validateChangePassword body = []) :
    truthyStr body.currentPassword = true ∧ truthyStr body.newPassword = true ∧
      body.newPassword ≠ body.currentPassword := by
  unfold validateChangePassword at h
  simp only [List.append_eq_nil] at h
  obtain ⟨⟨⟨h1, h2⟩, _⟩, h4⟩ := h
  have hc : body.currentPassword.getD "" ≠ "" := by
    intro hc
    rw [if_pos hc] at h1
    exact absurd h1 (by simp)
  have hl : 8 ≤ validatorLength (body.newPassword.getD "") := by
    by_contra hl
    rw [if_neg (fun hh => hl hh.1)] at h2
    exact absurd h2 (by simp)
  have hne : body.newPassword ≠ body.currentPassword := by
    intro hne
    rw [if_pos hne] at h4
    exact absurd h4 (by simp)
  refine ⟨?_, ?_, hne⟩
  · cases hcur : body.currentPassword with
    | none => rw [hcur] at hc; exact absurd rfl hc
    | some v =>
      rw [hcur] at hc
      simpa [truthyStr] using hc
  · cases hnew : body.newPassword with
    | none => rw [hnew] at hl; exact absurd hl (by decide)
    | some v =>
      rw [hnew] at hl
      have : v ≠ "" := by
        intro hv
        rw [hv] at hl
        exact absurd hl (by decide)
      simpa [truthyStr] using this

theorem resetPassword_ok (compare : String → String → Bool) (hash : String → String) (db : Db)
    (req : PasswordRequest) (message : String) (data : Option User) (db' : Db)
    (h : resetPassword compare hash db req = (.ok message data, db')) :
    truthyStr req.oldPassword = true ∧ truthyStr req.newPassword = true := by
  unfold resetPassword at h
  cases hu : req.user with
  | none => rw [hu] at h; simp at h
  | some p =>
    rw [hu] at h
    dsimp only at h
    by_cases h2 : (!truthyStr req.oldPassword || !truthyStr req.newPassword) = true
    · by_cases h1 : p.role = "admin"
      · rw [if_pos h1] at h
        simp at h
      · rw [if_neg h1, if_pos h2] at h
        simp at h
    · simpa using h2

theorem mem_validateChangePassword_different (body : ChangePasswordBody) :
    (⟨"newPassword", "New password must be different from current password",
        body.newPassword⟩ : FieldError) ∈ validateChangePassword body ↔
      body.newPassword = body.currentPassword := by
  unfold validateChangePassword
  simp only [List.mem_append]
  constructor
  · rintro (((h | h) | h) | h)
    · split_ifs at h
      · simp only [List.mem_singleton, FieldError.mk.injEq] at h
        exact absurd h.1 (by decide)
      · simp at h
    · split_ifs at h
      · simp at h
      · simp only [List.mem_singleton, FieldError.mk.injEq] at h
        exact absurd h.2.1 (by decide)
    · split_ifs at h
      · simp at h
      · simp only [List.mem_singleton, FieldError.mk.injEq] at h
        exact absurd h.2.1 (by decide)
    · split_ifs at h with he
      · exact he
      · simp at h
  · intro he
    right
    rw [if_pos he]
    exact List.mem_singleton.mpr rfl

/-- C27: `validateChangePassword` requires `currentPassword` while
`resetPassword` reads `oldPassword`.  A body that the validator accepts
carries `currentPassword` and `newPassword`; when it carries no `oldPassword`,
`resetPassword` fails and leaves the store, and so the password, as it was,
and for a signed-in principal that is not an admin it fails with 400 "Both old
and new passwords are required."  A request that the validator accepts and
`resetPassword` completes carries both `currentPassword` and `oldPassword`.
The validator rejects a new password for being the same exactly when it equals
`currentPassword`; its verdict does not depend on `oldPassword`, and
`resetPassword` does not see `currentPassword`. -/
theorem C27_change_password_field_mismatch (compare : String → String → Bool)
    (hash : String → String) (db : Db) :
    (∀ (user : Option User) (body : ChangePasswordBody), validateChangePassword body = [] →
      body.oldPassword = none →
      truthyStr body.currentPassword = true ∧ truthyStr body.newPassword = true ∧
      (∃ error, resetPassword compare hash db (changePasswordRequest user body) =
        (.next error, db)) ∧
      (∀ p, user = some p → p.role ≠ "admin" →
        resetPassword compare hash db (changePasswordRequest user body) =
          (.next ⟨some 400, "Both old and new passwords are required."⟩, db))) ∧
    (∀ (user : Option User) (body : ChangePasswordBody) (message : String) (data : Option User)
      (db' : Db), validateChangePassword body = [] →
      resetPassword compare hash db (changePasswordRequest user body) = (.ok message data, db') →
      truthyStr body.currentPassword = true ∧ truthyStr body.oldPassword = true) ∧
    (∀ body : ChangePasswordBody,
      (⟨"newPassword", "New password must be different from current password",
          body.newPassword⟩ : FieldError) ∈ validateChangePassword body ↔
        body.newPassword = body.currentPassword) ∧
    (∀ (body : ChangePasswordBody) (x : Option String),
      validateChangePassword { body with oldPassword := x } = validateChangePassword body) ∧
    (∀ (user : Option User) (body : ChangePasswordBody) (x : Option String),
      changePasswordRequest user { body with currentPassword := x } =
        changePasswordRequest user body) := by
  refine ⟨?_, ?_, mem_validateChangePassword_different, fun _ _ => rfl, fun _ _ _ => rfl⟩
  · intro user body hv hold
    obtain ⟨hc, hn, _⟩ := validateChangePassword_nil body hv
    have h400 : ∀ p, user = some p → p.role ≠ "admin" →
        resetPassword compare hash db (changePasswordRequest user body) =
          (.next ⟨some 400, "Both old and new passwords are required."⟩, db) := by
      intro p hu hr
      unfold resetPassword changePasswordRequest
      simp only [hu, hold]
      rw [if_neg hr, if_pos (by simp [truthyStr])]
    refine ⟨hc, hn, ?_, h400⟩
    cases hu : user with
    | none => exact ⟨_, rfl⟩
    | some p =>
      by_cases hr : p.role = "admin"
      · refine ⟨⟨some 403, "Admin users cannot reset passwords."⟩, ?_⟩
        unfold resetPassword changePasswordRequest
        simp only
        rw [if_pos hr]
      · exact ⟨_, hu ▸ h400 p hu hr⟩
  · intro user body message data db' hv hok
    exact ⟨(validateChangePassword_nil body hv).1,
      (resetPassword_ok compare hash db _ message data db' hok).1⟩

theorem C27_change_password_field_mismatch_witness :
    resetPassword (fun plain stored => plain == stored) (fun plain => plain) passwordDb
        (changePasswordRequest (some bobWithPassword)
          { currentPassword := some "Old-Secret1", newPassword := some "New-Secret2!" }) =
      (.next ⟨some 400, "Both old and new passwords are required."⟩, passwordDb) ∧
    (truthyStr (some "Old-Secret1") = true ∧ truthyStr (some "Old-Secret1") = true) :=
  ⟨((C27_change_password_field_mismatch (fun plain stored => plain == stored)
      (fun plain => plain) passwordDb).1 (some bobWithPassword)
      { currentPassword := some "Old-Secret1", newPassword := some "New-Secret2!" }
      (by decide) rfl).2.2.2 bobWithPassword rfl (by decide),
   (C27_change_password_field_mismatch (fun plain stored => plain == stored)
      (fun plain => plain) passwordDb).2.1 (some bobWithPassword)
      { currentPassword := some "Old-Secret1", oldPassword := some "Old-Secret1",
        newPassword := some "New-Secret2!" }
      "Password reset successfully" (some { bobWithPassword with password := "" })
      { passwordDb with users := [alice, { bobWithPassword with password := "New-Secret2!" }] }
      (by decide) rfl⟩

end SubscriptionManager
